import Mathlib

/-! Recording-processing pipeline of the EMT priority-queue server.

A shallow embedding of `routes/recordings.js` (`processRecording`, `transcribeAudio`,
`analyzeWithLLM`, `notifyDoctors`, the upload route), of the routes of `routes/doctors.js`,
of `POST /send` of `routes/notifications.js`, of the helpers of the two dashboards that the
theorems are about, and of the schema of `config/database.js`, followed by theorems about
the pipeline and the routes.

Conventions of the embedding.

* JavaScript strings are Lean strings (sequences of Unicode code points, so well-formed
  UTF-16 text). The string built-ins the code calls (`trim`, `includes`, `split`) are
  defined on the list of characters.
* JavaScript values are the JSON-shaped values `JsVal`. A number is an exact decimal
  `mant * 10 ^ exp10`. `JSON.parse` gives a literal the value of the binary64 number nearest
  to it (`binary64`); there is no infinity among the values, and a literal beyond the largest
  binary64 number is kept as it is written.
* A column of `recordings` that the results update writes holds the parameter bound to it.
  What the driver and the engine keep of a parameter (`keptValue`) decides the `CHECK`
  constraints of `risk_score` and `priority_level` and is what a theorem on stored values
  speaks about.
* An `async` function is a function from the run state (store and event log) to an outcome
  (`Except`) and the new run state. What the outside world answers (speech-to-text, chat
  completion, acceptance of each store statement) is a field of `World`.
-/

set_option maxRecDepth 100000

namespace PriorityQueueHealthcare

/-! ## JavaScript values -/

/-- Errors a JavaScript computation of the pipeline can raise. -/
inductive JsErr where
  | typeError
  | syntaxError
  | external (msg : String)
  deriving DecidableEq, Repr

/-- JSON-shaped JavaScript values. `num mant exp10` is the number `mant * 10 ^ exp10`.
An object keeps its members in source order; a later member shadows an earlier one
with the same key. -/
inductive JsVal where
  | undefined
  | null
  | bool (b : Bool)
  | num (mant : Int) (exp10 : Int)
  | str (s : String)
  | arr (items : List JsVal)
  | obj (members : List (String × JsVal))
  deriving Repr

instance : Inhabited JsVal := ⟨JsVal.undefined⟩

/-! Decidable equality of values, by recursion on both arguments. -/

mutual
def JsVal.decEq : (a b : JsVal) → Decidable (a = b)
  | .undefined, .undefined => isTrue rfl
  | .null, .null => isTrue rfl
  | .bool a, .bool b => if h : a = b then isTrue (by rw [h]) else isFalse (by intro e; injection e; contradiction)
  | .num a c, .num b d =>
    if h : a = b ∧ c = d then isTrue (by rw [h.1, h.2]) else isFalse (by intro e; injection e; simp_all)
  | .str a, .str b => if h : a = b then isTrue (by rw [h]) else isFalse (by intro e; injection e; contradiction)
  | .arr a, .arr b =>
    match JsVal.decEqList a b with
    | isTrue h => isTrue (by rw [h])
    | isFalse h => isFalse (by intro e; injection e; contradiction)
  | .obj a, .obj b =>
    match JsVal.decEqMembers a b with
    | isTrue h => isTrue (by rw [h])
    | isFalse h => isFalse (by intro e; injection e; contradiction)
  | .undefined, .null | .undefined, .bool _ | .undefined, .num _ _ | .undefined, .str _ | .undefined, .arr _ | .undefined, .obj _ => isFalse (by intro e; cases e)
  | .null, .undefined | .null, .bool _ | .null, .num _ _ | .null, .str _ | .null, .arr _ | .null, .obj _ => isFalse (by intro e; cases e)
  | .bool _, .undefined | .bool _, .null | .bool _, .num _ _ | .bool _, .str _ | .bool _, .arr _ | .bool _, .obj _ => isFalse (by intro e; cases e)
  | .num _ _, .undefined | .num _ _, .null | .num _ _, .bool _ | .num _ _, .str _ | .num _ _, .arr _ | .num _ _, .obj _ => isFalse (by intro e; cases e)
  | .str _, .undefined | .str _, .null | .str _, .bool _ | .str _, .num _ _ | .str _, .arr _ | .str _, .obj _ => isFalse (by intro e; cases e)
  | .arr _, .undefined | .arr _, .null | .arr _, .bool _ | .arr _, .num _ _ | .arr _, .str _ | .arr _, .obj _ => isFalse (by intro e; cases e)
  | .obj _, .undefined | .obj _, .null | .obj _, .bool _ | .obj _, .num _ _ | .obj _, .str _ | .obj _, .arr _ => isFalse (by intro e; cases e)
def JsVal.decEqList : (as bs : List JsVal) → Decidable (as = bs)
  | [], [] => isTrue rfl
  | [], _ :: _ => isFalse (by intro e; cases e)
  | _ :: _, [] => isFalse (by intro e; cases e)
  | a :: as, b :: bs =>
    match JsVal.decEq a b, JsVal.decEqList as bs with
    | isTrue h1, isTrue h2 => isTrue (by rw [h1, h2])
    | isFalse h1, _ => isFalse (by intro e; injection e; contradiction)
    | _, isFalse h2 => isFalse (by intro e; injection e; contradiction)
def JsVal.decEqMembers : (as bs : List (String × JsVal)) → Decidable (as = bs)
  | [], [] => isTrue rfl
  | [], _ :: _ => isFalse (by intro e; cases e)
  | _ :: _, [] => isFalse (by intro e; cases e)
  | (k, a) :: as, (l, b) :: bs =>
    if hk : k = l then
      match JsVal.decEq a b, JsVal.decEqMembers as bs with
      | isTrue h1, isTrue h2 => isTrue (by rw [hk, h1, h2])
      | isFalse h1, _ => isFalse (by intro e; injection e with e1 e2; injection e1; contradiction)
      | _, isFalse h2 => isFalse (by intro e; injection e; contradiction)
    else isFalse (by intro e; injection e with e1 e2; injection e1; contradiction)
end
instance : DecidableEq JsVal := JsVal.decEq

/-- JavaScript truthiness (`ToBoolean`): `undefined`, `null`, `false`, zero and the empty
string are falsy, every other value is truthy. -/
def JsVal.truthy : JsVal → Bool
  | .undefined => false
  | .null => false
  | .bool b => b
  | .num m _ => m != 0
  | .str s => s != ""
  | .arr _ => true
  | .obj _ => true

/-- The expression `a || b`. -/
def JsVal.or (a b : JsVal) : JsVal :=
  if a.truthy then a else b

/-- Last member with the given key, the one a property read sees. -/
def lookupLast (key : String) : List (String × JsVal) → Option JsVal
  | [] => none
  | (k, v) :: rest =>
    match lookupLast key rest with
    | some w => some w
    | none => if k = key then some v else none

/-- The property read `v.name` for a name that no prototype defines (`choices`, `message`,
`content`, `risk_score`, ...): a `TypeError` on `undefined` and `null`, the own member on an
object, `undefined` elsewhere. -/
def JsVal.getField (v : JsVal) (name : String) : Except JsErr JsVal :=
  match v with
  | .undefined => .error .typeError
  | .null => .error .typeError
  | .obj ms => .ok ((lookupLast name ms).getD .undefined)
  | _ => .ok .undefined

/-- The element read `v[0]`. On a string it is the first character (the first code point
stands for the first UTF-16 unit). -/
def JsVal.getIndex0 (v : JsVal) : Except JsErr JsVal :=
  match v with
  | .undefined => .error .typeError
  | .null => .error .typeError
  | .arr items => .ok (items.headD .undefined)
  | .obj ms => .ok ((lookupLast "0" ms).getD .undefined)
  | .str s =>
    match s.data with
    | [] => .ok .undefined
    | c :: _ => .ok (.str (String.singleton c))
  | _ => .ok .undefined

/-! ## String built-ins -/

/-- White space and line terminators that `String.prototype.trim` removes. -/
def isJsWhitespace (c : Char) : Bool :=
  c.toNat = 0x09 || c.toNat = 0x0A || c.toNat = 0x0B || c.toNat = 0x0C || c.toNat = 0x0D ||
  c.toNat = 0x20 || c.toNat = 0xA0 || c.toNat = 0x1680 ||
  (0x2000 ≤ c.toNat && c.toNat ≤ 0x200A) ||
  c.toNat = 0x2028 || c.toNat = 0x2029 || c.toNat = 0x202F || c.toNat = 0x205F ||
  c.toNat = 0x3000 || c.toNat = 0xFEFF

/-- The characters of `s.trim()`. -/
def trimChars (s : List Char) : List Char :=
  ((s.dropWhile isJsWhitespace).reverse.dropWhile isJsWhitespace).reverse

/-- The call `s.trim()`. -/
def jsTrim (s : String) : String := ⟨trimChars s.data⟩

/-- First occurrence of the non-empty separator `sep`: the text before it and the text
after it. -/
def findSep (sep : List Char) : List Char → Option (List Char × List Char)
  | [] => none
  | c :: cs =>
    if sep.isPrefixOf (c :: cs) then some ([], (c :: cs).drop sep.length)
    else match findSep sep cs with
      | none => none
      | some (b, a) => some (c :: b, a)

/-- The call `s.includes(sep)` for a non-empty `sep`. -/
def jsIncludes (s sep : String) : Bool := (findSep sep.data s.data).isSome

/-- Pieces of `s` between occurrences of `sep`, found left to right; `fuel` bounds the
number of cuts. -/
def splitFuel (sep : List Char) : Nat → List Char → List (List Char)
  | 0, s => [s]
  | n + 1, s =>
    match findSep sep s with
    | none => [s]
    | some (b, a) => b :: splitFuel sep n a

/-- The call `s.split(sep)` for a non-empty `sep` (a cut consumes a character, so the length of
`s` bounds the number of cuts). -/
def jsSplit (s sep : String) : List String :=
  (splitFuel sep.data (s.length + 1) s.data).map String.mk

/-- The backtick character, of which the code fences are made. -/
def backtick : Char := Char.ofNat 96

/-- The text before the first occurrence of the separator, the whole text when there is
none: the first piece of a split. -/
def textBefore (sep s : List Char) : List Char :=
  match findSep sep s with
  | none => s
  | some (b, _) => b

/-! ## `JSON.parse` -/

/-- JSON white space. -/
def isJsonWs (c : Char) : Bool :=
  c.toNat = 0x20 || c.toNat = 0x09 || c.toNat = 0x0A || c.toNat = 0x0D

/-- Skips JSON white space. -/
def skipWs (s : List Char) : List Char := s.dropWhile isJsonWs

/-- Value of a decimal digit. -/
def digitVal (c : Char) : Option Nat :=
  if 48 ≤ c.toNat ∧ c.toNat ≤ 57 then some (c.toNat - 48) else none

/-- Value of a hexadecimal digit. -/
def hexVal (c : Char) : Option Nat :=
  if 48 ≤ c.toNat ∧ c.toNat ≤ 57 then some (c.toNat - 48)
  else if 97 ≤ c.toNat ∧ c.toNat ≤ 102 then some (c.toNat - 87)
  else if 65 ≤ c.toNat ∧ c.toNat ≤ 70 then some (c.toNat - 55)
  else none

/-- Leading decimal digits of the input, as a number and a count, and the rest. -/
def takeDigits : List Char → Nat → Nat → Nat × Nat × List Char
  | [], acc, cnt => (acc, cnt, [])
  | c :: cs, acc, cnt =>
    match digitVal c with
    | some d => takeDigits cs (10 * acc + d) (cnt + 1)
    | none => (acc, cnt, c :: cs)

/-- Four hexadecimal digits of a `\u` escape. -/
def hex4 : List Char → Option (Nat × List Char)
  | a :: b :: c :: d :: rest =>
    match hexVal a, hexVal b, hexVal c, hexVal d with
    | some x, some y, some z, some w => some (((x * 16 + y) * 16 + z) * 16 + w, rest)
    | _, _, _, _ => none
  | _ => none

/-- Character of a UTF-16 unit read from a `\u` escape, joined with a following low
surrogate escape when it is a high surrogate; an unpaired surrogate is kept as U+FFFD. -/
def decodeUnit (u : Nat) (rest : List Char) : Char × List Char :=
  if 0xD800 ≤ u ∧ u ≤ 0xDBFF then
    match rest with
    | bs :: uc :: more =>
      if bs.toNat = 92 ∧ uc.toNat = 117 then
        match hex4 more with
        | some (lo, rest2) =>
          if 0xDC00 ≤ lo ∧ lo ≤ 0xDFFF then
            (Char.ofNat (0x10000 + (u - 0xD800) * 0x400 + (lo - 0xDC00)), rest2)
          else (Char.ofNat 0xFFFD, rest)
        | none => (Char.ofNat 0xFFFD, rest)
      else (Char.ofNat 0xFFFD, rest)
    | _ => (Char.ofNat 0xFFFD, rest)
  else if 0xDC00 ≤ u ∧ u ≤ 0xDFFF then (Char.ofNat 0xFFFD, rest)
  else (Char.ofNat u, rest)

/-- Character of a one-letter escape: quote, backslash, slash, `b`, `f`, `n`, `r`, `t`. -/
def simpleEscape (e : Char) : Option Char :=
  if e.toNat = 34 then some (Char.ofNat 34)
  else if e.toNat = 92 then some (Char.ofNat 92)
  else if e.toNat = 47 then some (Char.ofNat 47)
  else if e.toNat = 98 then some (Char.ofNat 8)
  else if e.toNat = 102 then some (Char.ofNat 12)
  else if e.toNat = 110 then some (Char.ofNat 10)
  else if e.toNat = 114 then some (Char.ofNat 13)
  else if e.toNat = 116 then some (Char.ofNat 9)
  else none

/-- Body of a string literal after its opening quote: the decoded text and the input
after the closing quote. -/
def parseStringBody : Nat → List Char → List Char → Option (List Char × List Char)
  | 0, _, _ => none
  | _ + 1, [], _ => none
  | n + 1, c :: cs, acc =>
    if c.toNat = 34 then some (acc.reverse, cs)
    else if c.toNat = 92 then
      match cs with
      | [] => none
      | e :: rest =>
        if e.toNat = 117 then
          match hex4 rest with
          | none => none
          | some (u, rest2) =>
            parseStringBody n (decodeUnit u rest2).2 ((decodeUnit u rest2).1 :: acc)
        else
          match simpleEscape e with
          | some ch => parseStringBody n rest (ch :: acc)
          | none => none
    else if c.toNat < 0x20 then none
    else parseStringBody n cs (c :: acc)

/-- A string literal, the input starting at its opening quote. -/
def parseString (s : List Char) : Option (String × List Char) :=
  match s with
  | [] => none
  | c :: cs =>
    if c.toNat = 34 then
      match parseStringBody (cs.length + 1) cs [] with
      | some (text, rest) => some (String.mk text, rest)
      | none => none
    else none

/-- Optional fraction of a number: its digits appended to the mantissa and their count. -/
def parseFraction (mant : Nat) (s : List Char) : Option (Nat × Nat × List Char) :=
  match s with
  | [] => some (mant, 0, [])
  | c :: cs =>
    if c.toNat = 46 then
      match takeDigits cs mant 0 with
      | (_, 0, _) => none
      | (m, k + 1, rest) => some (m, k + 1, rest)
    else some (mant, 0, c :: cs)

/-- Optional exponent of a number. -/
def parseExponent (s : List Char) : Option (Int × List Char) :=
  match s with
  | [] => some (0, [])
  | c :: cs =>
    if c.toNat = 101 ∨ c.toNat = 69 then
      match cs with
      | [] => none
      | sg :: ds =>
        if sg.toNat = 45 then
          match takeDigits ds 0 0 with
          | (_, 0, _) => none
          | (e, _ + 1, rest) => some (-(e : Int), rest)
        else if sg.toNat = 43 then
          match takeDigits ds 0 0 with
          | (_, 0, _) => none
          | (e, _ + 1, rest) => some ((e : Int), rest)
        else
          match takeDigits cs 0 0 with
          | (_, 0, _) => none
          | (e, _ + 1, rest) => some ((e : Int), rest)
    else some (0, c :: cs)

/-- The digits after the optional minus sign: `0` or a digit sequence without leading
zero, then the optional fraction and exponent. -/
def parseUnsigned (s : List Char) : Option (Nat × Int × List Char) :=
  match s with
  | [] => none
  | c :: cs =>
    match digitVal c with
    | none => none
    | some d =>
      let intPart : Nat × Nat × List Char := if d = 0 then (0, 1, cs) else takeDigits cs d 1
      match parseFraction intPart.1 intPart.2.2 with
      | none => none
      | some (m, k, rest) =>
        match parseExponent rest with
        | none => none
        | some (e, rest2) => some (m, e - (k : Int), rest2)

/-- Number of binary digits of `n`, 0 for 0; the first argument bounds the recursion. -/
def bitLengthAux : Nat → Nat → Nat
  | 0, _ => 0
  | fuel + 1, n => if n = 0 then 0 else bitLengthAux fuel (n / 2) + 1

/-- Number of binary digits of a natural number, 0 for 0. -/
def bitLength (n : Nat) : Nat := bitLengthAux n n

/-- The integer `b` with `2 ^ b <= num / den < 2 ^ (b + 1)`, for positive `num` and `den`. -/
def binadeOf (num den : Nat) : Int :=
  if (if 0 ≤ (bitLength num : Int) - (bitLength den : Int) then
        decide (den * 2 ^ ((bitLength num : Int) - (bitLength den : Int)).toNat ≤ num)
      else decide (den ≤ num * 2 ^ ((bitLength den : Int) - (bitLength num : Int)).toNat))
  then (bitLength num : Int) - (bitLength den : Int)
  else (bitLength num : Int) - (bitLength den : Int) - 1

/-- The decimal `mant * 10 ^ exp10` with the zeros at the end of a mantissa of negative
exponent removed; the first argument bounds the recursion. -/
def stripZeros : Nat → Int → Int → Int × Int
  | 0, m, e => (m, e)
  | fuel + 1, m, e =>
    if e < 0 ∧ m % 10 = 0 then stripZeros fuel (m / 10) (e + 1) else (m, e)

/-- The binary64 number nearest to `mant * 10 ^ exp10`, ties to the even significand, as
an exact decimal: the value a number literal has in JavaScript. With `2 ^ q` the spacing of
the binary64 numbers around the decimal (`q` is 52 below its binade and at least -1074), the
decimal is divided by `2 ^ q` and the quotient rounded to an integer. A decimal that is a
binary64 number is returned as it is written. So is a decimal beyond the largest binary64
number, which JavaScript reads as `Infinity`: the values here have no infinity. -/
def binary64 (mant exp10 : Int) : Int × Int :=
  if mant = 0 then (mant, exp10)
  else
    let num : Nat := if 0 ≤ exp10 then mant.natAbs * 10 ^ exp10.toNat else mant.natAbs
    let den : Nat := if 0 ≤ exp10 then 1 else 10 ^ (-exp10).toNat
    let q : Int := max (binadeOf num den - 52) (-1074)
    let n : Nat := if 0 ≤ q then num else num * 2 ^ (-q).toNat
    let d : Nat := if 0 ≤ q then den * 2 ^ q.toNat else den
    let k : Nat :=
      if d < 2 * (n % d) ∨ (2 * (n % d) = d ∧ (n / d) % 2 = 1) then n / d + 1 else n / d
    if n % d = 0 then (mant, exp10)
    else if 0 ≤ q then
      (if 2 ^ 1024 ≤ k * 2 ^ q.toNat then (mant, exp10)
       else ((if mant < 0 then -1 else 1) * (k * 2 ^ q.toNat : Nat), 0))
    else
      stripZeros (-q).toNat ((if mant < 0 then -1 else 1) * (k * 5 ^ (-q).toNat : Nat)) q

/-- A number literal; its value is the binary64 number nearest to the decimal written. -/
def parseNumber (s : List Char) : Option (JsVal × List Char) :=
  match s with
  | [] => none
  | c :: cs =>
    if c.toNat = 45 then
      match parseUnsigned cs with
      | some (m, e, rest) =>
        some (.num (binary64 (-(m : Int)) e).1 (binary64 (-(m : Int)) e).2, rest)
      | none => none
    else
      match parseUnsigned (c :: cs) with
      | some (m, e, rest) => some (.num (binary64 (m : Int) e).1 (binary64 (m : Int) e).2, rest)
      | none => none

/-- Elements of an array after the first position, up to the closing bracket. -/
def parseElems (pv : List Char → Option (JsVal × List Char)) :
    Nat → List Char → List JsVal → Option (List JsVal × List Char)
  | 0, _, _ => none
  | n + 1, s, acc =>
    match pv s with
    | none => none
    | some (v, rest) =>
      match skipWs rest with
      | [] => none
      | c :: t =>
        if c.toNat = 44 then parseElems pv n (skipWs t) (v :: acc)
        else if c.toNat = 93 then some ((v :: acc).reverse, t)
        else none

/-- Members of an object, up to the closing brace. -/
def parseMembers (pv : List Char → Option (JsVal × List Char)) :
    Nat → List Char → List (String × JsVal) → Option (List (String × JsVal) × List Char)
  | 0, _, _ => none
  | n + 1, s, acc =>
    match parseString s with
    | none => none
    | some (key, rest) =>
      match skipWs rest with
      | [] => none
      | c :: t =>
        if c.toNat = 58 then
          match pv (skipWs t) with
          | none => none
          | some (v, rest2) =>
            match skipWs rest2 with
            | [] => none
            | d :: u =>
              if d.toNat = 44 then parseMembers pv n (skipWs u) ((key, v) :: acc)
              else if d.toNat = 125 then some (((key, v) :: acc).reverse, u)
              else none
        else none

/-- A JSON value at the head of the input (white space already skipped), with the rest of
the input. The fuel bounds the nesting depth. -/
def parseValue : Nat → List Char → Option (JsVal × List Char)
  | 0, _ => none
  | _ + 1, [] => none
  | n + 1, c :: cs =>
    if c.toNat = 123 then
      match skipWs cs with
      | [] => none
      | d :: t =>
        if d.toNat = 125 then some (.obj [], t)
        else
          match parseMembers (parseValue n) (cs.length) (d :: t) [] with
          | some (ms, rest) => some (.obj ms, rest)
          | none => none
    else if c.toNat = 91 then
      match skipWs cs with
      | [] => none
      | d :: t =>
        if d.toNat = 93 then some (.arr [], t)
        else
          match parseElems (parseValue n) (cs.length) (d :: t) [] with
          | some (items, rest) => some (.arr items, rest)
          | none => none
    else if c.toNat = 34 then
      match parseString (c :: cs) with
      | some (text, rest) => some (.str text, rest)
      | none => none
    else if "true".data.isPrefixOf (c :: cs) then some (.bool true, cs.drop 3)
    else if "false".data.isPrefixOf (c :: cs) then some (.bool false, cs.drop 4)
    else if "null".data.isPrefixOf (c :: cs) then some (.null, cs.drop 3)
    else parseNumber (c :: cs)

/-- The call `JSON.parse(s)`: `none` stands for the `SyntaxError`. -/
def jsonParse (s : String) : Option JsVal :=
  match parseValue (s.length + 1) (skipWs s.data) with
  | none => none
  | some (v, rest) => if (skipWs rest).isEmpty then some v else none

/-! ## `JSON.stringify`

The pipeline takes `JSON.stringify` from the world (`World.stringify`). The serialiser
below is the one the example worlds use: it writes a number in plain decimal notation with
all its digits, which is the text of `JSON.stringify` for the integers and the short
decimals of the examples (9, 120, 9.5), and it gives the text of `JSON.stringify` for
objects that have no repeated and no integer-like keys. -/

/-- Lower-case hexadecimal digit. -/
def hexDigit (n : Nat) : Char :=
  if n < 10 then Char.ofNat (48 + n) else Char.ofNat (87 + n)

/-- A character inside a quoted JSON string. -/
def quoteChar (c : Char) : List Char :=
  if c.toNat = 34 then [Char.ofNat 92, Char.ofNat 34]
  else if c.toNat = 92 then [Char.ofNat 92, Char.ofNat 92]
  else if c.toNat = 8 then [Char.ofNat 92, 'b']
  else if c.toNat = 12 then [Char.ofNat 92, 'f']
  else if c.toNat = 10 then [Char.ofNat 92, 'n']
  else if c.toNat = 13 then [Char.ofNat 92, 'r']
  else if c.toNat = 9 then [Char.ofNat 92, 't']
  else if c.toNat < 0x20 then
    [Char.ofNat 92, 'u', '0', '0', hexDigit (c.toNat / 16), hexDigit (c.toNat % 16)]
  else [c]

/-- A quoted JSON string. -/
def quoteJson (s : String) : String :=
  ⟨Char.ofNat 34 :: (s.data.flatMap quoteChar ++ [Char.ofNat 34])⟩

/-- Decimal digits of a fraction `n / 10 ^ k` below one, without trailing zeros. -/
def fractionDigits : Nat → Nat → List Char
  | 0, _ => []
  | k + 1, n =>
    if n = 0 then []
    else Char.ofNat (48 + n / 10 ^ k) :: fractionDigits k (n % 10 ^ k)

/-- Text of the number `mant * 10 ^ exp10` in plain decimal notation. -/
def numberText (mant exp10 : Int) : String :=
  if 0 ≤ exp10 then toString (mant * 10 ^ exp10.toNat)
  else
    let scale := 10 ^ (-exp10).toNat
    let whole := mant.natAbs / scale
    let part := mant.natAbs % scale
    (if mant < 0 ∧ mant.natAbs ≠ 0 then "-" else "") ++ toString whole ++
      (if part = 0 then "" else "." ++ String.mk (fractionDigits (-exp10).toNat part))

mutual
/-- Text of a value. An `undefined`, which `JSON.parse` never yields, is written `null`
as inside an array. -/
def stringifyJson : JsVal → String
  | .undefined => "null"
  | .null => "null"
  | .bool b => if b then "true" else "false"
  | .num m e => numberText m e
  | .str s => quoteJson s
  | .arr items => "[" ++ stringifyItems items ++ "]"
  | .obj ms => "\x7b" ++ stringifyMembers ms ++ "\x7d"
/-- Texts of the elements of an array, separated by commas. -/
def stringifyItems : List JsVal → String
  | [] => ""
  | v :: rest =>
    match rest with
    | [] => stringifyJson v
    | _ :: _ => stringifyJson v ++ "," ++ stringifyItems rest
/-- Texts of the members of an object, separated by commas. -/
def stringifyMembers : List (String × JsVal) → String
  | [] => ""
  | (k, v) :: rest =>
    match rest with
    | [] => quoteJson k ++ ":" ++ stringifyJson v
    | _ :: _ => quoteJson k ++ ":" ++ stringifyJson v ++ "," ++ stringifyMembers rest
end

/-! ## The store: schema of `config/database.js` -/

/-- A row of `users`. -/
structure UserRow where
  id : Nat
  username : String := ""
  email : String := ""
  role : String
  first_name : String := ""
  last_name : String := ""
  phone : Option String := none
  specialty : Option String := none
  is_available : Int := 1
  deriving DecidableEq, Repr

/-- A row of `recordings`. A column written by the results update holds the JavaScript
value that was bound to it, the parameter of the statement; what the engine keeps of that
value under the affinity of the column is `keptValue`. The declared defaults are those of
the schema. -/
structure RecordingRow where
  id : Nat
  emt_id : Option Nat := none
  patient_info : Option String := none
  audio_file_path : String
  transcription : JsVal := .null
  llm_summary : JsVal := .null
  urgency_level : JsVal := .str "medium"
  risk_score : JsVal := .num 5 0
  priority_level : JsVal := .num 3 0
  chief_complaint : JsVal := .null
  vital_signs : JsVal := .null
  symptoms : JsVal := .null
  recommended_actions : JsVal := .null
  critical_info : JsVal := .null
  status : String := "pending"
  deriving DecidableEq, Repr

/-- A row of `notifications`. -/
structure NotificationRow where
  id : Nat
  recording_id : Nat
  doctor_id : Nat
  notification_type : String
  sent_at : Nat := 0
  delivered : Int := 0
  read_at : Option Nat := none
  response : Option String := none
  deriving DecidableEq, Repr

/-- The three tables. -/
structure Store where
  users : List UserRow := []
  recordings : List RecordingRow := []
  notifications : List NotificationRow := []
  deriving DecidableEq, Repr

/-- The constraint `CHECK (status IN ('pending', 'processing', 'completed', 'notified',
'error'))`. -/
def statusCheck (status : String) : Bool :=
  status = "pending" || status = "processing" || status = "completed" ||
  status = "notified" || status = "error"

/-- The condition `lo <= v AND v <= hi` for the number `mant * 10 ^ exp10`. -/
def numInRange (lo hi mant exp10 : Int) : Bool :=
  if 0 ≤ exp10 then
    decide (lo ≤ mant * 10 ^ exp10.toNat) && decide (mant * 10 ^ exp10.toNat ≤ hi)
  else
    decide (lo * 10 ^ (-exp10).toNat ≤ mant) && decide (mant ≤ hi * 10 ^ (-exp10).toNat)

/-- Type affinity of a column of `recordings`: `TEXT` for the text columns of the results
update, `INTEGER` for `risk_score` and `priority_level`. -/
inductive Affinity where
  | text
  | integer
  deriving DecidableEq, Repr

/-- What the driver hands the engine for a parameter: the text of a string, the number of a
number, 1 or 0 for a boolean, `NULL` for `null` (and for `undefined`, which it leaves
unbound), and the text `[object Object]` for an array or an object. -/
def driverBinds : JsVal → JsVal
  | .undefined => .null
  | .null => .null
  | .bool b => .num (if b then 1 else 0) 0
  | .num m e => .num m e
  | .str s => .str s
  | .arr _ => .str "[object Object]"
  | .obj _ => .str "[object Object]"

/-- White space the engine skips around a numeric text: the space and U+0009 to U+000D. -/
def isSqlSpace (c : Char) : Bool :=
  c.toNat = 0x20 || (0x09 ≤ c.toNat && c.toNat ≤ 0x0D)

/-- Optional sign of a numeric text: whether it is a minus, and the input after it. -/
def sqlSign : List Char → Bool × List Char
  | [] => (false, [])
  | c :: cs =>
    if c.toNat = 45 then (true, cs)
    else if c.toNat = 43 then (false, cs)
    else (false, c :: cs)

/-- Optional exponent of a numeric text: `e` or `E`, an optional sign and at least one
digit. -/
def sqlExponent (s : List Char) : Option (Int × List Char) :=
  match s with
  | [] => some (0, [])
  | c :: cs =>
    if c.toNat = 101 ∨ c.toNat = 69 then
      match takeDigits (sqlSign cs).2 0 0 with
      | (_, 0, _) => none
      | (e, _ + 1, rest) => some (if (sqlSign cs).1 then -(e : Int) else (e : Int), rest)
    else some (0, c :: cs)

/-- Digits after the integer part of a numeric text: an optional point and the digits that
follow it, appended to the mantissa, with their count. -/
def sqlFraction (mant : Nat) : List Char → Nat × Nat × List Char
  | [] => (mant, 0, [])
  | c :: cs => if c.toNat = 46 then takeDigits cs mant 0 else (mant, 0, c :: cs)

/-- Whether the input after the integer digits of a numeric text starts with neither a point
nor an exponent: the text is then an integer literal. -/
def sqlIntegerEnds : List Char → Bool
  | [] => true
  | c :: _ => !(c.toNat = 46 || c.toNat = 101 || c.toNat = 69)

/-- The number a text denotes when the whole of it is a numeric literal of the engine:
optional white space, an optional sign, digits with an optional point (at least one digit
before or after it), an optional exponent, optional white space. Such a text is what an
`INTEGER` column converts to a number; hexadecimal text and every other text have none.
An integer literal that fits in 64 bits is that integer; every other literal is read as a
floating-point number, taken here to be the binary64 number nearest to it. -/
def sqlNumericText (s : String) : Option (Int × Int) :=
  let body := sqlSign (s.data.dropWhile isSqlSpace)
  let whole := takeDigits body.2 0 0
  let frac := sqlFraction whole.1 whole.2.2
  if whole.2.1 + frac.2.1 = 0 then none
  else
    match sqlExponent frac.2.2 with
    | none => none
    | some (e, rest) =>
      if (rest.dropWhile isSqlSpace).isEmpty then
        if sqlIntegerEnds whole.2.2 ∧ whole.1 ≤ 9223372036854775807 then
          some (if body.1 then -(whole.1 : Int) else (whole.1 : Int), 0)
        else
          some (binary64 (if body.1 then -(frac.1 : Int) else (frac.1 : Int))
            (e - (frac.2.1 : Int)))
      else none

/-- What a column keeps of a parameter of the results update, after the driver bound it and
the engine applied the affinity of the column. An `INTEGER` column keeps a number, turns a
numeric text into its number and keeps every other text as text. A `TEXT` column keeps a
text; the text it makes of a bound number is not modelled (`none`). -/
def keptValue : Affinity → JsVal → Option JsVal
  | .integer, v =>
    match driverBinds v with
    | .str s =>
      match sqlNumericText s with
      | some (m, e) => some (.num m e)
      | none => some (.str s)
    | b => some b
  | .text, v =>
    match driverBinds v with
    | .num _ _ => none
    | b => some b

/-- The number a column of `INTEGER` affinity keeps of a bound value, the one the engine
compares and checks: the number itself, 1 or 0 for a boolean, the number of a numeric text;
none for `NULL` and for a text that stays text. -/
def numericKey (v : JsVal) : Option (Int × Int) :=
  match keptValue .integer v with
  | some (.num m e) => some (m, e)
  | _ => none

/-- A range `CHECK` of the schema, `col >= lo AND col <= hi` on an `INTEGER` column, for a
bound value: decided on the number the column keeps; a `NULL` does not violate it; a text
that stays text (`'high'`, `'[object Object]'`) sorts above every number and violates
`col <= hi`. -/
def rangeCheck (lo hi : Int) (v : JsVal) : Bool :=
  match keptValue .integer v with
  | some (.num m e) => numInRange lo hi m e
  | some .null => true
  | _ => false

/-- The constraint `CHECK (risk_score >= 0 AND risk_score <= 10)`. -/
def riskScoreCheck (v : JsVal) : Bool := rangeCheck 0 10 v

/-- The constraint `CHECK (priority_level >= 1 AND priority_level <= 5)`. -/
def priorityLevelCheck (v : JsVal) : Bool := rangeCheck 1 5 v

/-- The constraint `CHECK (notification_type IN ('sms', 'email', 'both'))`. -/
def notificationTypeCheck (t : String) : Bool :=
  t = "sms" || t = "email" || t = "both"

/-- The id an `AUTOINCREMENT` key gives the next row (no statement of the server deletes). -/
def nextId (ids : List Nat) : Nat := ids.foldr max 0 + 1

/-! ## The outside world and the run state -/

/-- What the outside world answers during one pipeline run: the two external services,
`JSON.stringify`, and whether the store carries out each statement (`false` is a rejected
promise of `run` or `query`). -/
structure World where
  transcribe : String → Except JsErr String
  chat : String → Except JsErr JsVal
  stringify : JsVal → String
  acceptProcessing : Bool := true
  acceptPatientQuery : Bool := true
  acceptResults : Bool := true
  acceptDoctorQuery : Bool := true
  acceptInsert : Nat → Bool := fun _ => true
  acceptNotified : Bool := true
  acceptError : Bool := true
  sentAt : Nat → Nat := fun _ => 0

/-- What a run did, in order: the calls of the pipeline functions and the status each
successful statement on `recordings` set. -/
inductive Event where
  | transcribeCall (audioFilePath : String)
  | analyzeCall (transcription patientInfo : String)
  | notifyCall (recordingId : Nat)
  | statusSet (recordingId : Nat) (status : String)
  deriving DecidableEq, Repr

/-- State threaded through a run. -/
structure Run where
  store : Store
  log : List Event := []
  deriving DecidableEq, Repr

/-- An `async` computation: outcome (resolved value or rejection) and new run state. -/
def Js (α : Type) : Type := Run → Except JsErr α × Run

/-- A resolved value. -/
def Js.pure {α : Type} (a : α) : Js α := fun r => (.ok a, r)

/-- A raised error. -/
def Js.throw {α : Type} (e : JsErr) : Js α := fun r => (.error e, r)

/-- Sequencing (`await` then continue); an error skips the continuation. -/
def Js.bind {α β : Type} (m : Js α) (f : α → Js β) : Js β := fun r =>
  match m r with
  | (.ok a, r1) => f a r1
  | (.error e, r1) => (.error e, r1)

/-- The statement `try ... catch (error) ...`. -/
def Js.tryCatch {α : Type} (body : Js α) (handler : JsErr → Js α) : Js α := fun r =>
  match body r with
  | (.ok a, r1) => (.ok a, r1)
  | (.error e, r1) => handler e r1

instance : Monad Js where
  pure := Js.pure
  bind := Js.bind

/-- A synchronous computation inside an `async` function. -/
def Js.ofExcept {α : Type} (x : Except JsErr α) : Js α := fun r => (x, r)

/-- Appends an event to the log. -/
def emit (e : Event) : Js Unit := fun r => (.ok (), { r with log := r.log ++ [e] })

/-! ## Store statements of `routes/recordings.js` -/

/-- Rows after `SET status = ? WHERE id = ?`. -/
def setStatus (status : String) (recordingId : Nat) (rows : List RecordingRow) :
    List RecordingRow :=
  rows.map (fun row => if row.id = recordingId then { row with status := status } else row)

/-- The statement `UPDATE recordings SET status = ? WHERE id = ?`. -/
def updateStatus (accept : Bool) (status : String) (recordingId : Nat) : Js Unit := fun r =>
  if accept && statusCheck status then
    (.ok (),
      { store := { r.store with recordings := setStatus status recordingId r.store.recordings },
        log := r.log ++ [Event.statusSet recordingId status] })
  else (.error (.external "SQLITE_ERROR"), r)

/-- The statement `SELECT patient_info FROM recordings WHERE id = ?`. -/
def selectPatientInfo (accept : Bool) (recordingId : Nat) : Js (List (Option String)) := fun r =>
  if accept then
    (.ok ((r.store.recordings.filter (fun row => row.id = recordingId)).map
      (fun row => row.patient_info)), r)
  else (.error (.external "SQLITE_ERROR"), r)

/-- The values bound to the results update, in the order of its columns. -/
structure ResultParams where
  transcription : JsVal
  llm_summary : JsVal
  risk_score : JsVal
  priority_level : JsVal
  chief_complaint : JsVal
  vital_signs : JsVal
  symptoms : JsVal
  recommended_actions : JsVal
  critical_info : JsVal
  deriving DecidableEq, Repr

/-- Rows after the `SET` list of the results update: each of the nine columns takes the
parameter bound to it (what the column keeps of it is `keptValue`), and the status is set;
`urgency_level` is not in the list. -/
def setResults (p : ResultParams) (status : String) (recordingId : Nat)
    (rows : List RecordingRow) : List RecordingRow :=
  rows.map (fun row =>
    if row.id = recordingId then
      { row with
        transcription := p.transcription
        llm_summary := p.llm_summary
        risk_score := p.risk_score
        priority_level := p.priority_level
        chief_complaint := p.chief_complaint
        vital_signs := p.vital_signs
        symptoms := p.symptoms
        recommended_actions := p.recommended_actions
        critical_info := p.critical_info
        status := status }
    else row)

/-- The results update `UPDATE recordings SET transcription = ?, ..., status = ? WHERE id = ?`
with status `'completed'`: one statement, all columns or none. -/
def updateResults (accept : Bool) (p : ResultParams) (recordingId : Nat) : Js Unit := fun r =>
  if accept && riskScoreCheck p.risk_score && priorityLevelCheck p.priority_level
      && statusCheck "completed" then
    (.ok (),
      { store := { r.store with
          recordings := setResults p "completed" recordingId r.store.recordings },
        log := r.log ++ [Event.statusSet recordingId "completed"] })
  else (.error (.external "SQLITE_ERROR"), r)

/-- Rows of `users` with `role = 'doctor' AND is_available = 1`. -/
def availableDoctors (users : List UserRow) : List UserRow :=
  users.filter (fun u => u.role = "doctor" && u.is_available = 1)

/-- The query `SELECT * FROM users WHERE role = 'doctor' AND is_available = 1`. -/
def selectAvailableDoctors (accept : Bool) : Js (List UserRow) := fun r =>
  if accept then (.ok (availableDoctors r.store.users), r)
  else (.error (.external "SQLITE_ERROR"), r)

/-- The statement `INSERT INTO notifications (recording_id, doctor_id, notification_type)
VALUES (?, ?, ?)`; the other columns take their defaults. -/
def insertNotification (accept : Bool) (sentAt : Nat) (recordingId doctorId : Nat)
    (notificationType : String) : Js Unit := fun r =>
  if accept && notificationTypeCheck notificationType then
    (.ok (),
      { r with store := { r.store with
          notifications := r.store.notifications ++
            [{ id := nextId (r.store.notifications.map (fun n => n.id))
               recording_id := recordingId
               doctor_id := doctorId
               notification_type := notificationType
               sent_at := sentAt }] } })
  else (.error (.external "SQLITE_ERROR"), r)

/-! ## The pipeline of `routes/recordings.js` -/

/-- The `prompt` template of `analyzeWithLLM`. -/
def prompt (transcription patientInfo : String) : String :=
  "You are an emergency medicine AI specialist. Analyze this EMT conversation and patient information to provide a comprehensive medical assessment.

AUDIO TRANSCRIPTION: " ++ transcription ++ "

ADDITIONAL PATIENT INFORMATION: " ++ patientInfo ++ "

Analyze BOTH the audio conversation AND the typed patient information to provide a complete medical assessment.

Return ONLY this JSON structure (no other text):
\x7b
  \"chief_complaint\": \"Brief description of the patient's main complaint\",
  \"vital_signs\": \"Any vital signs mentioned (BP, HR, RR, Temp, O2 Sat, etc.)\",
  \"symptoms\": \"Key symptoms observed or reported\",
  \"risk_score\": 5,
  \"priority_level\": 3,
  \"urgency_level\": \"urgent\",
  \"recommended_actions\": \"Specific medical actions recommended\",
  \"critical_info\": \"Critical information for doctors\",
  \"medical_summary\": \"Comprehensive medical summary\"
\x7d

RISK SCORING GUIDELINES (be precise):
- Risk 9-10: Multiple severe traumas, cardiac arrest, severe bleeding, unconscious/unresponsive
- Risk 7-8: Single severe trauma (major car accident with multiple injuries), severe head injury, chest trauma
- Risk 5-6: Moderate trauma (broken bones, moderate injuries), stable but injured patients
- Risk 3-4: Minor injuries (cuts, bruises, minor fractures), stable patients with minor complaints
- Risk 1-2: Very minor issues (heartburn, minor cuts), routine care patients

PRIORITY LEVEL GUIDELINES:
- Priority 1: Critical (risk 9-10)
- Priority 2: High (risk 7-8) 
- Priority 3: Medium (risk 5-6)
- Priority 4: Low (risk 3-4)
- Priority 5: Routine (risk 1-2)

URGENCY LEVELS:
- \"critical\": Risk 9-10
- \"urgent\": Risk 7-8
- \"moderate\": Risk 5-6
- \"low\": Risk 3-4
- \"routine\": Risk 1-2

EXAMPLES:
- \"Patient dying, fell from bridge, then run over by car\" = Risk 9-10
- \"Major car accident, multiple injuries, unconscious\" = Risk 7-8
- \"Car accident, broken arm, stable vital signs\" = Risk 5-6
- \"Minor car accident, cuts and bruises\" = Risk 3-4
- \"Heartburn, feeling fine\" = Risk 1-2

Return ONLY the JSON object with no additional text."

/-- The assessment the `catch` branch of `analyzeWithLLM` returns. -/
def fallbackAssessment : JsVal :=
  .obj [("chief_complaint", .str "Unable to analyze"),
        ("vital_signs", .str "Not available"),
        ("symptoms", .str "Not specified"),
        ("risk_score", .num 5 0),
        ("priority_level", .num 3 0),
        ("urgency_level", .str "moderate"),
        ("recommended_actions", .str "Manual review required"),
        ("critical_info", .str "AI analysis failed"),
        ("medical_summary", .str "Unable to generate medical summary")]

/-- The method call `content.trim()`: only a string has the method. -/
def callTrim : JsVal → Except JsErr String
  | .str s => .ok (jsTrim s)
  | _ => .error .typeError

/-- The element `parts[i]` handed to a string method: `undefined` when out of range, on
which the method call raises. -/
def partAt (parts : List String) (i : Nat) : Except JsErr String :=
  match parts.get? i with
  | some s => .ok s
  | none => .error .typeError

/-- The cleaning step of `analyzeWithLLM`: the text handed to `JSON.parse`. -/
def cleanResponse (aiResponse : String) : Except JsErr String :=
  if jsIncludes aiResponse "```json" then do
    let inner ← partAt (jsSplit aiResponse "```json") 1
    let body ← partAt (jsSplit inner "```") 0
    pure (jsTrim body)
  else if jsIncludes aiResponse "```" then do
    let inner ← partAt (jsSplit aiResponse "```") 1
    let body ← partAt (jsSplit inner "```") 0
    pure (jsTrim body)
  else pure aiResponse

/-- The expression `response.choices[0].message.content`. -/
def completionContent (response : JsVal) : Except JsErr JsVal := do
  let choices ← response.getField "choices"
  let first ← choices.getIndex0
  let message ← first.getField "message"
  message.getField "content"

/-- The `try` block of `analyzeWithLLM` from the resolved chat completion on. -/
def parseCompletion (response : JsVal) : Except JsErr JsVal := do
  let content ← completionContent response
  let aiResponse ← callTrim content
  let cleanedResponse ← cleanResponse aiResponse
  match jsonParse cleanedResponse with
  | some result => pure result
  | none => throw .syntaxError

/-- The function `transcribeAudio`: the speech-to-text call; its `catch` rethrows. -/
def transcribeAudio (w : World) (audioFilePath : String) : Js String :=
  Js.tryCatch
    (do
      emit (.transcribeCall audioFilePath)
      Js.ofExcept (w.transcribe audioFilePath))
    (fun error => Js.throw error)

/-- The function `analyzeWithLLM`: chat completion, cleaning, `JSON.parse`; its `catch`
returns the fallback assessment. -/
def analyzeWithLLM (w : World) (transcription : String) (patientInfo : String := "") :
    Js JsVal :=
  Js.bind (emit (.analyzeCall transcription patientInfo)) fun _ =>
  Js.tryCatch
    (do
      let response ← Js.ofExcept (w.chat (prompt transcription patientInfo))
      Js.ofExcept (parseCompletion response))
    (fun _ => Js.pure fallbackAssessment)

/-- The loop `for (const doctor of doctors) await run(INSERT ...)`. -/
def insertAll (w : World) (recordingId : Nat) : List UserRow → Js Unit
  | [] => Js.pure ()
  | doctor :: rest =>
    Js.bind (insertNotification (w.acceptInsert doctor.id) (w.sentAt doctor.id)
      recordingId doctor.id "both") fun _ =>
    insertAll w recordingId rest

/-- The function `notifyDoctors`; its `catch` rethrows. The summary is not used. -/
def notifyDoctors (w : World) (recordingId : Nat) (_summary : JsVal) : Js Unit :=
  Js.bind (emit (.notifyCall recordingId)) fun _ =>
  Js.tryCatch
    (do
      let doctors ← selectAvailableDoctors w.acceptDoctorQuery
      insertAll w recordingId doctors
      updateStatus w.acceptNotified "notified" recordingId)
    (fun error => Js.throw error)

/-- The expression `analysis.medical_summary || JSON.stringify(analysis)`. -/
def summaryOf (w : World) (analysis : JsVal) : Except JsErr JsVal := do
  let s ← analysis.getField "medical_summary"
  pure (if s.truthy then s else .str (w.stringify analysis))

/-- The expression `analysis.name || dflt`. -/
def fieldOr (analysis : JsVal) (name : String) (dflt : JsVal) : Except JsErr JsVal := do
  let v ← analysis.getField name
  pure (v.or dflt)

/-- The parameter array of the results update, evaluated left to right. -/
def resultParams (w : World) (transcription : String) (analysis : JsVal) :
    Except JsErr ResultParams := do
  let llm_summary ← summaryOf w analysis
  let risk_score ← fieldOr analysis "risk_score" (.num 5 0)
  let priority_level ← fieldOr analysis "priority_level" (.num 3 0)
  let chief_complaint ← fieldOr analysis "chief_complaint" (.str "Not specified")
  let vital_signs ← fieldOr analysis "vital_signs" (.str "Not recorded")
  let symptoms ← fieldOr analysis "symptoms" (.str "Not specified")
  let recommended_actions ← fieldOr analysis "recommended_actions" (.str "Standard care")
  let critical_info ← fieldOr analysis "critical_info" (.str "None")
  pure { transcription := .str transcription
         llm_summary := llm_summary
         risk_score := risk_score
         priority_level := priority_level
         chief_complaint := chief_complaint
         vital_signs := vital_signs
         symptoms := symptoms
         recommended_actions := recommended_actions
         critical_info := critical_info }

/-- The expression `recording[0]?.patient_info || ''`. -/
def patientInfoOf (recording : List (Option String)) : String :=
  match recording with
  | some info :: _ => info
  | _ => ""

/-- The patient information `processRecording` reads for a recording id. -/
def patientInfoIn (rows : List RecordingRow) (recordingId : Nat) : String :=
  patientInfoOf ((rows.filter (fun row => row.id = recordingId)).map
    (fun row => row.patient_info))

/-- The store carries out every statement of the fan-out: the enumeration, the insert for
each available doctor and the `'notified'` write. -/
def fanoutAccepted (w : World) (users : List UserRow) : Bool :=
  w.acceptDoctorQuery && (availableDoctors users).all (fun d => w.acceptInsert d.id)
    && w.acceptNotified

/-- The `try` block of `processRecording`. -/
def processRecordingBody (w : World) (recordingId : Nat) (audioFilePath : String) :
    Js Unit := do
  updateStatus w.acceptProcessing "processing" recordingId
  let recording ← selectPatientInfo w.acceptPatientQuery recordingId
  let patientInfo := patientInfoOf recording
  let transcription ← transcribeAudio w audioFilePath
  let analysis ← analyzeWithLLM w transcription patientInfo
  let params ← Js.ofExcept (resultParams w transcription analysis)
  updateResults w.acceptResults params recordingId
  let summary ← Js.ofExcept (summaryOf w analysis)
  notifyDoctors w recordingId summary

/-- The function `processRecording`: every error of the `try` block is answered by setting
status `'error'`; a rejection of that statement is the rejection of the run. -/
def processRecording (w : World) (recordingId : Nat) (audioFilePath : String) : Js Unit :=
  Js.tryCatch (processRecordingBody w recordingId audioFilePath)
    (fun _ => updateStatus w.acceptError "error" recordingId)

/-- The value to which `analyzeWithLLM` resolves: the parsed reply, or the fallback
assessment when anything inside its `try` block raised. -/
def analysisOf (w : World) (transcription patientInfo : String) : JsVal :=
  match w.chat (prompt transcription patientInfo) with
  | .error _ => fallbackAssessment
  | .ok response =>
    match parseCompletion response with
    | .error _ => fallbackAssessment
    | .ok result => result

/-- A chat completion whose first choice carries the given reply text. -/
def completionOf (reply : String) : JsVal :=
  .obj [("choices", .arr [.obj [("message", .obj [("role", .str "assistant"),
    ("content", .str reply)])]])]

/-- The events a run of `processRecording` adds to the log. -/
def runEvents (w : World) (recordingId : Nat) (audioFilePath : String) (r : Run) :
    List Event :=
  (processRecording w recordingId audioFilePath r).2.log.drop r.log.length

/-! ## The specification's words

The scoring-band table and the notion of a structured assessment, written from sections
3 and 4.2 of the specification, to be compared with what the code does. -/

/-- Integer value of a number, when it has one. -/
def intValue : JsVal → Option Int
  | .num m e =>
    if 0 ≤ e then some (m * 10 ^ e.toNat)
    else if m % 10 ^ (-e).toNat = 0 then some (m / 10 ^ (-e).toNat)
    else none
  | _ => none

/-- Priority the scoring-band table assigns to a risk score. -/
def bandPriority (risk : Int) : Option Int :=
  if 9 ≤ risk ∧ risk ≤ 10 then some 1
  else if 7 ≤ risk ∧ risk ≤ 8 then some 2
  else if 5 ≤ risk ∧ risk ≤ 6 then some 3
  else if 3 ≤ risk ∧ risk ≤ 4 then some 4
  else if 1 ≤ risk ∧ risk ≤ 2 then some 5
  else none

/-- Urgency labels the scoring-band table assigns to a risk score. -/
def bandUrgency (risk : Int) : List String :=
  if 9 ≤ risk ∧ risk ≤ 10 then ["critical"]
  else if 7 ≤ risk ∧ risk ≤ 8 then ["high", "urgent"]
  else if 5 ≤ risk ∧ risk ≤ 6 then ["medium", "moderate"]
  else if 3 ≤ risk ∧ risk ≤ 4 then ["low"]
  else if 1 ≤ risk ∧ risk ≤ 2 then ["routine"]
  else []

/-- Mutual consistency of a risk score, a priority level and an urgency label under the
scoring-band table. -/
def consistentBands (risk priority urgency : JsVal) : Bool :=
  match intValue risk, intValue priority, urgency with
  | some r, some p, .str label => bandPriority r = some p && decide (label ∈ bandUrgency r)
  | _, _, _ => false

/-- An integer within the given bounds. -/
def isIntIn (lo hi : Int) (v : JsVal) : Bool :=
  match intValue v with
  | some n => decide (lo ≤ n) && decide (n ≤ hi)
  | none => false

/-- A text value. -/
def isText : JsVal → Bool
  | .str _ => true
  | _ => false

/-- A structured assessment: chief complaint, vital signs, symptoms, risk score (integer
0 to 10), priority level (integer 1 to 5), urgency label, recommended actions, critical
info and narrative summary. -/
def isStructuredAssessment : JsVal → Bool
  | .obj ms =>
    isText ((lookupLast "chief_complaint" ms).getD .undefined) &&
    isText ((lookupLast "vital_signs" ms).getD .undefined) &&
    isText ((lookupLast "symptoms" ms).getD .undefined) &&
    isIntIn 0 10 ((lookupLast "risk_score" ms).getD .undefined) &&
    isIntIn 1 5 ((lookupLast "priority_level" ms).getD .undefined) &&
    isText ((lookupLast "urgency_level" ms).getD .undefined) &&
    isText ((lookupLast "recommended_actions" ms).getD .undefined) &&
    isText ((lookupLast "critical_info" ms).getD .undefined) &&
    isText ((lookupLast "medical_summary" ms).getD .undefined)
  | _ => false

/-- A response text that is valid structured assessment data. -/
def isAssessmentText (reply : String) : Bool :=
  match jsonParse reply with
  | some v => isStructuredAssessment v
  | none => false

/-- The values the results update binds for the fallback assessment. -/
def fallbackParams (transcription : String) : ResultParams :=
  { transcription := .str transcription
    llm_summary := .str "Unable to generate medical summary"
    risk_score := .num 5 0
    priority_level := .num 3 0
    chief_complaint := .str "Unable to analyze"
    vital_signs := .str "Not available"
    symptoms := .str "Not specified"
    recommended_actions := .str "Manual review required"
    critical_info := .str "AI analysis failed" }

/-- The row holds the fixed fallback values the specification names: chief complaint
`'Unable to analyze'`, risk score 5, priority level 3, critical info `'AI analysis failed'`. -/
def persistedFallback (row : RecordingRow) : Bool :=
  row.chief_complaint = .str "Unable to analyze" && row.risk_score = .num 5 0 &&
  row.priority_level = .num 3 0 && row.critical_info = .str "AI analysis failed"

/-! ## Example worlds and stores -/

/-- A world in which speech-to-text yields the given transcript, the chat completion
carries the given reply and the store carries out every statement. -/
def replyWorld (transcript reply : String) : World :=
  { transcribe := fun _ => .ok transcript
    chat := fun _ => .ok (completionOf reply)
    stringify := stringifyJson }

/-- A world in which speech-to-text fails. -/
def deafWorld : World :=
  { transcribe := fun _ => .error (.external "ECONNREFUSED")
    chat := fun _ => .ok (completionOf "")
    stringify := stringifyJson }

/-- A reply that is a complete assessment object, with a risk score of 11. -/
def riskElevenReply : String :=
  "\x7b\"chief_complaint\":\"Cardiac arrest\",\"vital_signs\":\"No pulse\"," ++
  "\"symptoms\":\"Unresponsive\",\"risk_score\":11,\"priority_level\":1," ++
  "\"urgency_level\":\"critical\",\"recommended_actions\":\"CPR\"," ++
  "\"critical_info\":\"Bystander CPR started\"," ++
  "\"medical_summary\":\"Cardiac arrest, CPR in progress\"\x7d"

/-- A reply that is a complete and consistent assessment: risk score 9, priority 1,
urgency `critical`. -/
def criticalReply : String :=
  "\x7b\"chief_complaint\":\"Fall from height\",\"vital_signs\":\"BP 80/50\"," ++
  "\"symptoms\":\"Unconscious\",\"risk_score\":9,\"priority_level\":1," ++
  "\"urgency_level\":\"critical\",\"recommended_actions\":\"Trauma team\"," ++
  "\"critical_info\":\"Multiple trauma\"," ++
  "\"medical_summary\":\"Fall from height, multiple trauma, unconscious\"\x7d"

/-- The assessment `criticalReply` is the text of. -/
def criticalAssessment : JsVal :=
  .obj [("chief_complaint", .str "Fall from height"),
        ("vital_signs", .str "BP 80/50"),
        ("symptoms", .str "Unconscious"),
        ("risk_score", .num 9 0),
        ("priority_level", .num 1 0),
        ("urgency_level", .str "critical"),
        ("recommended_actions", .str "Trauma team"),
        ("critical_info", .str "Multiple trauma"),
        ("medical_summary", .str "Fall from height, multiple trauma, unconscious")]

/-- A reply that is a complete assessment whose members disagree with the scoring-band
table: risk score 9 with priority 5 and urgency `routine`. -/
def inconsistentReply : String :=
  "\x7b\"chief_complaint\":\"Fall from height\",\"vital_signs\":\"BP 80/50\"," ++
  "\"symptoms\":\"Unconscious\",\"risk_score\":9,\"priority_level\":5," ++
  "\"urgency_level\":\"routine\",\"recommended_actions\":\"Trauma team\"," ++
  "\"critical_info\":\"Multiple trauma\"," ++
  "\"medical_summary\":\"Fall from height, multiple trauma, unconscious\"\x7d"

/-- A store with two available doctors, one unavailable doctor, a responder and one
freshly uploaded recording, id 7. -/
def sampleStore : Store :=
  { users := [{ id := 1, role := "doctor" }, { id := 2, role := "doctor" },
              { id := 3, role := "doctor", is_available := 0 }, { id := 4, role := "emt" }]
    recordings := [{ id := 7, emt_id := some 4, patient_info := some "male, 54",
                     audio_file_path := "uploads/recording-1.webm" }] }

/-- The run state before the pipeline starts on `sampleStore`. -/
def sampleRun : Run := { store := sampleStore }


/-! ## Statements on `recordings`, one row at a time -/

/-- A statement of the pipeline on the rows of one submission: a status write, or the
results update. -/
inductive RecStmt where
  | status (s : String)
  | results (p : ResultParams)
  deriving DecidableEq, Repr

/-- Effect of a statement `... WHERE id = ?` on one row. -/
def stepRow (recordingId : Nat) (row : RecordingRow) : RecStmt → RecordingRow
  | .status s => if row.id = recordingId then { row with status := s } else row
  | .results p =>
    if row.id = recordingId then
      { row with
        transcription := p.transcription
        llm_summary := p.llm_summary
        risk_score := p.risk_score
        priority_level := p.priority_level
        chief_complaint := p.chief_complaint
        vital_signs := p.vital_signs
        symptoms := p.symptoms
        recommended_actions := p.recommended_actions
        critical_info := p.critical_info
        status := "completed" }
    else row

/-- Rows after a sequence of statements, each carried out as a whole. -/
def applyStmts (recordingId : Nat) (ops : List RecStmt) (rows : List RecordingRow) :
    List RecordingRow :=
  rows.map (fun row => ops.foldl (stepRow recordingId) row)

/-- The transcription and analysis columns of a row, the ones the results update binds. -/
def storedResults (row : RecordingRow) : ResultParams :=
  { transcription := row.transcription
    llm_summary := row.llm_summary
    risk_score := row.risk_score
    priority_level := row.priority_level
    chief_complaint := row.chief_complaint
    vital_signs := row.vital_signs
    symptoms := row.symptoms
    recommended_actions := row.recommended_actions
    critical_info := row.critical_info }

/-- The parameters a run binds to its results update, when it gets that far. -/
def runParams (w : World) (recordingId : Nat) (audioFilePath : String) (r : Run) :
    Option ResultParams :=
  match w.transcribe audioFilePath with
  | .error _ => none
  | .ok transcription =>
    (resultParams w transcription
      (analysisOf w transcription (patientInfoIn r.store.recordings recordingId))).toOption

/-- The statement on `recordings` behind an event of the log. -/
def stmtOfEvent (p : Option ResultParams) : Event → Option RecStmt
  | .statusSet _ s => if s = "completed" then p.map RecStmt.results else some (.status s)
  | _ => none

/-- The statements on `recordings` a run carries out, in order. -/
def recordingStmts (w : World) (recordingId : Nat) (audioFilePath : String) (r : Run) :
    List RecStmt :=
  (runEvents w recordingId audioFilePath r).filterMap
    (stmtOfEvent (runParams w recordingId audioFilePath r))

/-- The statuses written, in order, by the events of a run. -/
def statusWrites (events : List Event) : List String :=
  events.filterMap (fun e =>
    match e with
    | .statusSet _ s => some s
    | _ => none)

/-- The notification rows a run of `processRecording` adds. -/
def runNotifications (w : World) (recordingId : Nat) (audioFilePath : String) (r : Run) :
    List NotificationRow :=
  (processRecording w recordingId audioFilePath r).2.store.notifications.drop
    r.store.notifications.length

/-! ## The upload route of `routes/recordings.js` -/

/-- The alternatives of the pattern `allowedTypes`. -/
def allowedSubtypes : List String := ["mp3", "wav", "m4a", "aac", "ogg", "webm", "mp4"]

/-- The test `allowedTypes.test(mimetype)` of the pattern
`/audio\/(mp3|wav|m4a|aac|ogg|webm|mp4)/`, which has no anchor: it holds when `audio/`
followed by one of the alternatives occurs anywhere in the text. -/
def allowedTypesTest (mimetype : String) : Bool :=
  allowedSubtypes.any (fun t => jsIncludes mimetype ("audio/" ++ t))

/-- The `fileFilter` of the upload: the answer handed to the callback, `cb(null, true)` or
`cb(new Error(...))`. -/
def fileFilter (mimetype : String) : Except String Bool :=
  if allowedTypesTest mimetype then .ok true else .error "Only audio files are allowed"

/-- What `POST /upload` reads of a request that passed `auth`, `requireRole(['emt'])` and
`upload.single('audio')`: `req.user.id`, `req.body.patient_info` (absent when the field
was not sent) and `req.file.path` (absent when no file came with the request). -/
structure UploadRequest where
  user_id : Nat
  patient_info : Option String := none
  file_path : Option String := none
  deriving DecidableEq, Repr

/-- A response: status code and JSON body. -/
structure HttpResponse where
  status : Nat
  body : JsVal
  deriving DecidableEq, Repr

/-- A text field of a response body: `undefined` when absent. -/
def optionalText : Option String → JsVal
  | some s => .str s
  | none => .undefined

/-- The statement `INSERT INTO recordings (emt_id, patient_info, audio_file_path) VALUES
(?, ?, ?)`: the other columns take their defaults and the promise resolves with the new
id. -/
def insertRecording (accept : Bool) (emt_id : Nat) (patient_info : Option String)
    (audio_file_path : String) : Js Nat := fun r =>
  if accept then
    (.ok (nextId (r.store.recordings.map (fun row => row.id))),
      { r with store := { r.store with
          recordings := r.store.recordings ++
            [{ id := nextId (r.store.recordings.map (fun row => row.id))
               emt_id := some emt_id
               patient_info := patient_info
               audio_file_path := audio_file_path }] } })
  else (.error (.external "SQLITE_ERROR"), r)

/-- What the handler of `POST /upload` did: its response and the pipeline run it started
without awaiting it, `processRecording(result.id, audio_file_path)`. -/
structure UploadOutcome where
  response : HttpResponse
  triggered : Option (Nat × String)
  deriving DecidableEq, Repr

/-- The `try` block of the handler of `POST /upload`. -/
def uploadBody (accept : Bool) (req : UploadRequest) : Js UploadOutcome := do
  let patient_info := req.patient_info
  let audio_file_path ← Js.ofExcept
    (match req.file_path with
     | some path => .ok path
     | none => .error .typeError)
  let emt_id := req.user_id
  let id ← insertRecording accept emt_id patient_info audio_file_path
  pure
    { response :=
        { status := 201
          body := .obj [("message", .str "Recording uploaded successfully"),
            ("recording", .obj [("id", .num id 0), ("emt_id", .num emt_id 0),
              ("patient_info", optionalText patient_info),
              ("audio_file_path", .str audio_file_path)])] }
      triggered := some (id, audio_file_path) }

/-- The handler of `POST /upload`; its `catch` answers 500. -/
def uploadHandler (accept : Bool) (req : UploadRequest) : Js UploadOutcome :=
  Js.tryCatch (uploadBody accept req)
    (fun _ => Js.pure
      { response := { status := 500
                      body := .obj [("error", .str "Server error during upload")] }
        triggered := none })

/-- A whole execution of an upload: the handler, then the pipeline run it started, carried
out to its end. The response is the handler's. -/
def uploadExecution (w : World) (accept : Bool) (req : UploadRequest) (r : Run) :
    HttpResponse × Run :=
  match uploadHandler accept req r with
  | (.ok out, r1) =>
    match out.triggered with
    | some (id, path) => (out.response, (processRecording w id path r1).2)
    | none => (out.response, r1)
  | (.error _, r1) =>
    ({ status := 500, body := .obj [("error", .str "Server error during upload")] }, r1)

/-- A MIME type that begins with `audio/`, the specification's audio type. -/
def isAudioType (mimetype : String) : Bool :=
  "audio/".data.isPrefixOf mimetype.data

/-- The `'error'` write of the `catch` of `processRecording`, when the store carries it
out. -/
def errorTail (w : World) (recordingId : Nat) : List Event :=
  if w.acceptError then [Event.statusSet recordingId "error"] else []

/-- The results update of a run is carried out. -/
def resultsAccepted (w : World) (p : ResultParams) : Bool :=
  w.acceptResults && riskScoreCheck p.risk_score && priorityLevelCheck p.priority_level

/-- The events of a run, read off what the world answers: the closed form of `runEvents`. -/
def pipelineEvents (w : World) (recordingId : Nat) (audioFilePath : String) (r : Run) :
    List Event :=
  if w.acceptProcessing = false then errorTail w recordingId
  else if w.acceptPatientQuery = false then
    Event.statusSet recordingId "processing" :: errorTail w recordingId
  else
    match w.transcribe audioFilePath with
    | .error _ =>
      [Event.statusSet recordingId "processing", Event.transcribeCall audioFilePath]
        ++ errorTail w recordingId
    | .ok transcription =>
      match resultParams w transcription
          (analysisOf w transcription (patientInfoIn r.store.recordings recordingId)) with
      | .error _ =>
        [Event.statusSet recordingId "processing", Event.transcribeCall audioFilePath,
          Event.analyzeCall transcription (patientInfoIn r.store.recordings recordingId)]
          ++ errorTail w recordingId
      | .ok p =>
        if resultsAccepted w p = false then
          [Event.statusSet recordingId "processing", Event.transcribeCall audioFilePath,
            Event.analyzeCall transcription (patientInfoIn r.store.recordings recordingId)]
            ++ errorTail w recordingId
        else
          [Event.statusSet recordingId "processing", Event.transcribeCall audioFilePath,
            Event.analyzeCall transcription (patientInfoIn r.store.recordings recordingId),
            Event.statusSet recordingId "completed", Event.notifyCall recordingId]
            ++ (if fanoutAccepted w r.store.users then
                  [Event.statusSet recordingId "notified"]
                else errorTail w recordingId)

/-! ## Worlds and requests of the fan-out and upload instances -/

/-- The parameters the results update binds for the reply `criticalReply` and the
transcript `fall`. -/
def criticalParams : ResultParams :=
  { transcription := .str "fall"
    llm_summary := .str "Fall from height, multiple trauma, unconscious"
    risk_score := .num 9 0
    priority_level := .num 1 0
    chief_complaint := .str "Fall from height"
    vital_signs := .str "BP 80/50"
    symptoms := .str "Unconscious"
    recommended_actions := .str "Trauma team"
    critical_info := .str "Multiple trauma" }

/-- The world of `criticalReply` in which the store answers the statements of the fan-out
as given: the enumeration of the doctors, the insert for each doctor id and the
`'notified'` write. -/
def fanoutWorld (query : Bool) (insert : Nat → Bool) (notified : Bool) : World :=
  { replyWorld "fall" criticalReply with
    acceptDoctorQuery := query
    acceptInsert := insert
    acceptNotified := notified }

/-- The world of `criticalReply` in which the store rejects the results update and the
`'error'` write after it. -/
def lockedWorld : World :=
  { replyWorld "fall" criticalReply with
    acceptResults := false
    acceptError := false }

/-- An upload of responder 4. -/
def sampleUpload : UploadRequest :=
  { user_id := 4
    patient_info := some "female, 30"
    file_path := some "uploads/recording-2.webm" }

/-- Recording 7 of `sampleStore` while a first run is under way: its status is
`'processing'`. -/
def processingRun : Run :=
  { store := { sampleStore with recordings := setStatus "processing" 7 sampleStore.recordings } }

/-- The statements of two runs on recording 7, one on `criticalReply` and one on
`inconsistentReply`, taking turns. -/
def interleavedStmts : List RecStmt :=
  [.status "processing", .status "processing", .results criticalParams,
    .results { criticalParams with priority_level := .num 5 0 },
    .status "notified", .status "notified"]

/-! ## Comparison of numbers

A number is the decimal `mant * 10 ^ exp10`; two numbers are compared after both are brought
to the smaller exponent. -/

/-- The comparison `mant * 10 ^ exp10 >= n` for an integer `n`. -/
def numGe (mant exp10 n : Int) : Bool :=
  if 0 ≤ exp10 then decide (n ≤ mant * 10 ^ exp10.toNat)
  else decide (n * 10 ^ (-exp10).toNat ≤ mant)

/-- The comparison `mant * 10 ^ exp10 <= n` for an integer `n`. -/
def numLe (mant exp10 n : Int) : Bool :=
  if 0 ≤ exp10 then decide (mant * 10 ^ exp10.toNat ≤ n)
  else decide (mant ≤ n * 10 ^ (-exp10).toNat)

/-- Three-way comparison of `m1 * 10 ^ e1` with `m2 * 10 ^ e2`. -/
def numCompare (m1 e1 m2 e2 : Int) : Ordering :=
  compare (m1 * 10 ^ (e1 - min e1 e2).toNat) (m2 * 10 ^ (e2 - min e1 e2).toNat)

/-- The rational number `mant * 10 ^ exp10`, the value the comparisons are about. -/
def numValue (mant exp10 : Int) : ℚ := (mant : ℚ) * (10 : ℚ) ^ exp10

/-! ## The dashboards of `client/src/components`

The helpers take a number, given as the decimal `mant * 10 ^ exp10`. -/

/-- The helper `getRiskColor` of `EMTDashboard.js`. -/
def EMTDashboard.getRiskColor (mant exp10 : Int) : String :=
  if numGe mant exp10 80 then "text-red-600 bg-red-100"
  else if numGe mant exp10 60 then "text-orange-600 bg-orange-100"
  else if numGe mant exp10 40 then "text-yellow-600 bg-yellow-100"
  else "text-green-600 bg-green-100"

/-- The helper `getRiskColor` of `DoctorDashboard.js`. -/
def DoctorDashboard.getRiskColor (mant exp10 : Int) : String :=
  if numGe mant exp10 8 then "text-red-600 bg-red-50 border-red-200"
  else if numGe mant exp10 6 then "text-orange-600 bg-orange-50 border-orange-200"
  else if numGe mant exp10 4 then "text-yellow-600 bg-yellow-50 border-yellow-200"
  else "text-green-600 bg-green-50 border-green-200"

/-- The helper `getPriorityText` of `DoctorDashboard.js`. -/
def DoctorDashboard.getPriorityText (mant exp10 : Int) : String :=
  if numLe mant exp10 2 then "CRITICAL"
  else if numLe mant exp10 3 then "HIGH"
  else if numLe mant exp10 4 then "MEDIUM"
  else "LOW"

/-- The helper `getPriorityColor` of `DoctorDashboard.js`. -/
def DoctorDashboard.getPriorityColor (mant exp10 : Int) : String :=
  if numLe mant exp10 2 then "text-red-600 bg-red-100"
  else if numLe mant exp10 3 then "text-orange-600 bg-orange-100"
  else if numLe mant exp10 4 then "text-yellow-600 bg-yellow-100"
  else "text-green-600 bg-green-100"

/-- The lines under `PRIORITY LEVEL GUIDELINES:` in the prompt of `analyzeWithLLM`. -/
def priorityGuidelineLines : List String :=
  ["- Priority 1: Critical (risk 9-10)", "- Priority 2: High (risk 7-8)",
    "- Priority 3: Medium (risk 5-6)", "- Priority 4: Low (risk 3-4)",
    "- Priority 5: Routine (risk 1-2)"]

/-- The name the priority guideline of the prompt gives a level. -/
def priorityGuideline (level : Int) : Option String :=
  if level = 1 then some "Critical"
  else if level = 2 then some "High"
  else if level = 3 then some "Medium"
  else if level = 4 then some "Low"
  else if level = 5 then some "Routine"
  else none

/-- A text in upper case. -/
def upperCased (s : String) : String := ⟨s.data.map Char.toUpper⟩

/-- The `mimeType` option `startRecording` of `EMTDashboard.js` hands to the recorder, from
the answers of `MediaRecorder.isTypeSupported`; `none` after `delete options.mimeType`. -/
def EMTDashboard.recorderMimeType (isTypeSupported : String → Bool) : Option String :=
  if isTypeSupported "audio/webm;codecs=opus" then some "audio/webm;codecs=opus"
  else if isTypeSupported "audio/webm" then some "audio/webm"
  else if isTypeSupported "audio/mp4" then some "audio/mp4"
  else none

/-- The type of the blob built when the recording stops, `options.mimeType || 'audio/webm'`;
the upload sends the blob as the part `audio`, whose MIME type the file filter sees. -/
def EMTDashboard.blobType (isTypeSupported : String → Bool) : String :=
  match EMTDashboard.recorderMimeType isTypeSupported with
  | some mimeType => if mimeType = "" then "audio/webm" else mimeType
  | none => "audio/webm"

/-! ## The routes of `routes/doctors.js`

A handler is given what it reads of a request that passed `auth` and `requireRole`:
`req.user.id` and the fields of the query, the body and the parameters it uses. A parameter
of the path that is compared with an integer column is the number its text denotes, `none`
when the text denotes no number (it then matches no row). -/

/-- A term of the `ORDER BY` clauses of `GET /notifications`. -/
inductive OrderTerm where
  | sentAtDesc
  | riskScoreDesc
  | priorityLevelAsc
  | sentAtAsc
  deriving DecidableEq, Repr

/-- The `switch (sortBy)` that builds `orderClause`, after the default `sortBy = 'newest'`
of the destructuring, which applies when `req.query.sortBy` is `undefined`. -/
def orderClause (sortBy : JsVal) : List OrderTerm :=
  if (if sortBy = .undefined then .str "newest" else sortBy) = .str "newest" then
    [.sentAtDesc]
  else if sortBy = .str "priority" then [.riskScoreDesc, .priorityLevelAsc, .sentAtDesc]
  else if sortBy = .str "oldest" then [.sentAtAsc]
  else [.sentAtDesc]

/-- A row of the result of `GET /notifications`: `n.*` and the columns selected from the
recording and from its responder (`r.created_at`, which the store here does not keep, is
left out). -/
structure NotificationView where
  notification : NotificationRow
  patient_info : Option String
  llm_summary : JsVal
  urgency_level : JsVal
  risk_score : JsVal
  priority_level : JsVal
  chief_complaint : JsVal
  vital_signs : JsVal
  symptoms : JsVal
  recommended_actions : JsVal
  critical_info : JsVal
  emt_first_name : String
  emt_last_name : String
  deriving DecidableEq, Repr

/-- The select list of `GET /notifications` on a joined triple. -/
def notificationView (n : NotificationRow) (rec : RecordingRow) (u : UserRow) :
    NotificationView :=
  { notification := n
    patient_info := rec.patient_info
    llm_summary := rec.llm_summary
    urgency_level := rec.urgency_level
    risk_score := rec.risk_score
    priority_level := rec.priority_level
    chief_complaint := rec.chief_complaint
    vital_signs := rec.vital_signs
    symptoms := rec.symptoms
    recommended_actions := rec.recommended_actions
    critical_info := rec.critical_info
    emt_first_name := u.first_name
    emt_last_name := u.last_name }

/-- The rows of `notifications n JOIN recordings r ON n.recording_id = r.id JOIN users u ON
r.emt_id = u.id WHERE n.doctor_id = ?`, before they are ordered. -/
def joinedNotifications (s : Store) (doctorId : Nat) : List NotificationView :=
  (s.notifications.flatMap fun n =>
    s.recordings.flatMap fun rec =>
      if n.recording_id = rec.id then
        s.users.flatMap fun u =>
          if rec.emt_id = some u.id then [notificationView n rec u] else []
      else []).filter (fun v => v.notification.doctor_id = doctorId)

/-- How the engine compares two values of a numeric column: numbers by value (`numericKey`),
and `NULL` before every number. A text that stays text, which the `CHECK` constraints of
`risk_score` and `priority_level` do not admit (`rangeCheck`), is ranked like `NULL`. -/
def sqlCompare (a b : JsVal) : Ordering :=
  match numericKey a, numericKey b with
  | none, none => .eq
  | none, some _ => .lt
  | some _, none => .gt
  | some x, some y => numCompare x.1 x.2 y.1 y.2

/-- Comparison of two rows under one term of an `ORDER BY` clause. -/
def termCompare : OrderTerm → NotificationView → NotificationView → Ordering
  | .sentAtDesc, a, b => compare b.notification.sent_at a.notification.sent_at
  | .riskScoreDesc, a, b => sqlCompare b.risk_score a.risk_score
  | .priorityLevelAsc, a, b => sqlCompare a.priority_level b.priority_level
  | .sentAtAsc, a, b => compare a.notification.sent_at b.notification.sent_at

/-- Comparison of two rows under an `ORDER BY` clause: the first term that tells them apart
decides. -/
def rowCompare : List OrderTerm → NotificationView → NotificationView → Ordering
  | [], _, _ => .eq
  | t :: ts, a, b => (termCompare t a b).then (rowCompare ts a b)

/-- A row may stand before another under an `ORDER BY` clause. -/
def mayPrecede (terms : List OrderTerm) (a b : NotificationView) : Prop :=
  rowCompare terms a b ≠ .gt

instance (terms : List OrderTerm) : DecidableRel (mayPrecede terms) := fun a b =>
  inferInstanceAs (Decidable (rowCompare terms a b ≠ .gt))

/-- The query of `GET /notifications`. Rows that tie under the clause are kept in the order
of the join, which the engine does not promise. -/
def selectNotifications (accept : Bool) (terms : List OrderTerm) (doctorId : Nat) :
    Js (List NotificationView) := fun r =>
  if accept then
    (.ok ((joinedNotifications r.store doctorId).insertionSort (mayPrecede terms)), r)
  else (.error (.external "SQLITE_ERROR"), r)

/-- What `GET /notifications` answers: the rows as JSON, or an error. -/
inductive NotificationsReply where
  | rows (notifications : List NotificationView)
  | failure (status : Nat) (body : JsVal)
  deriving DecidableEq, Repr

/-- The ids of the notifications of an answer, in order; none for an error. -/
def notificationIds : Except JsErr NotificationsReply → List Nat
  | .ok (.rows notifications) => notifications.map (fun v => v.notification.id)
  | _ => []

/-- The handler of `GET /notifications`. -/
def getNotifications (accept : Bool) (sortBy : JsVal) (user_id : Nat) :
    Js NotificationsReply :=
  Js.tryCatch
    (do
      let notifications ← selectNotifications accept (orderClause sortBy) user_id
      pure (.rows notifications))
    (fun _ => Js.pure
      (.failure 500 (.obj [("error", .str "Server error getting notifications")])))

/-- The statement `UPDATE users SET is_available = ? WHERE id = ?`. -/
def updateAvailability (accept : Bool) (value : Int) (userId : Nat) : Js Unit := fun r =>
  if accept then
    (.ok (),
      { r with store := { r.store with
          users := r.store.users.map
            (fun u => if u.id = userId then { u with is_available := value } else u) } })
  else (.error (.external "SQLITE_ERROR"), r)

/-- The handler of `PATCH /availability`. -/
def patchAvailability (accept : Bool) (is_available : JsVal) (user_id : Nat) :
    Js HttpResponse :=
  Js.tryCatch
    (do
      updateAvailability accept (if is_available.truthy then 1 else 0) user_id
      pure { status := 200
             body := .obj [("message", .str "Availability updated successfully"),
               ("is_available", is_available)] })
    (fun _ => Js.pure
      { status := 500, body := .obj [("error", .str "Server error updating availability")] })

/-- The statement `UPDATE notifications SET read_at = CURRENT_TIMESTAMP WHERE id = ? AND
doctor_id = ?`; `now` is the time of the statement. -/
def updateReadAt (accept : Bool) (now : Nat) (id : Option Nat) (doctorId : Nat) : Js Unit :=
  fun r =>
  if accept then
    (.ok (),
      { r with store := { r.store with
          notifications := r.store.notifications.map
            (fun n => if some n.id = id ∧ n.doctor_id = doctorId then
              { n with read_at := some now } else n) } })
  else (.error (.external "SQLITE_ERROR"), r)

/-- The handler of `PATCH /notifications/:id/read`. -/
def markRead (accept : Bool) (now : Nat) (id : Option Nat) (user_id : Nat) :
    Js HttpResponse :=
  Js.tryCatch
    (do
      updateReadAt accept now id user_id
      pure { status := 200, body := .obj [("message", .str "Notification marked as read")] })
    (fun _ => Js.pure
      { status := 500
        body := .obj [("error", .str "Server error marking notification as read")] })

/-- The statement `UPDATE notifications SET response = ? WHERE recording_id = ? AND
doctor_id = ?`; the bound response is a text, or `NULL` when the body has none. -/
def updateResponse (accept : Bool) (response : Option String) (recordingId : Option Nat)
    (doctorId : Nat) : Js Unit := fun r =>
  if accept then
    (.ok (),
      { r with store := { r.store with
          notifications := r.store.notifications.map
            (fun n => if some n.recording_id = recordingId ∧ n.doctor_id = doctorId then
              { n with response := response } else n) } })
  else (.error (.external "SQLITE_ERROR"), r)

/-- The handler of `POST /recordings/:id/respond`. -/
def respond (accept : Bool) (response : Option String) (id : Option Nat) (user_id : Nat) :
    Js HttpResponse :=
  Js.tryCatch
    (do
      updateResponse accept response id user_id
      pure { status := 200, body := .obj [("message", .str "Response recorded successfully")] })
    (fun _ => Js.pure
      { status := 500, body := .obj [("error", .str "Server error recording response")] })

/-! ## The route `POST /send` of `routes/notifications.js` -/

/-- What the outside world answers during one `POST /send`: the outcome of `sendSMS` and of
`sendEmail` on their arguments, and whether the store carries out the two queries and the
update. -/
structure SendWorld where
  sendSMS : Option String → RecordingRow → UserRow → Except JsErr Unit
  sendEmail : String → RecordingRow → UserRow → Except JsErr Unit
  acceptRecordingQuery : Bool := true
  acceptUserQuery : Bool := true
  acceptDelivered : Bool := true

/-- The two delivery channels. -/
inductive Channel where
  | sms
  | email
  deriving DecidableEq, Repr

/-- The body of a request to `POST /send`; the two ids are numbers. -/
structure SendRequest where
  recording_id : Nat
  doctor_id : Nat
  notification_type : JsVal
  deriving DecidableEq, Repr

/-- What a `POST /send` did: the response, the calls of `sendSMS` and `sendEmail` it made,
in order, and the store it left. -/
structure SendOutcome where
  response : HttpResponse
  attempted : List Channel
  store : Store
  deriving DecidableEq, Repr

/-- The `catch` of `POST /send`, reached after the given calls, with the store as it is. -/
def sendFailure (attempted : List Channel) (s : Store) : SendOutcome :=
  { response := { status := 500
                  body := .obj [("error", .str "Server error sending notification")] }
    attempted := attempted
    store := s }

/-- Rows after `UPDATE notifications SET delivered = 1 WHERE recording_id = ? AND
doctor_id = ?`. -/
def setDelivered (recordingId doctorId : Nat) (rows : List NotificationRow) :
    List NotificationRow :=
  rows.map (fun n =>
    if n.recording_id = recordingId ∧ n.doctor_id = doctorId then { n with delivered := 1 }
    else n)

/-- The recording and the user a `POST /send` is about, `recordings[0]` and `doctors[0]`,
when both queries find a row. -/
def sendTargets (s : Store) (req : SendRequest) : Option (RecordingRow × UserRow) :=
  match s.recordings.filter (fun rec => rec.id = req.recording_id),
        s.users.filter (fun u => u.id = req.doctor_id) with
  | recordingData :: _, doctorData :: _ => some (recordingData, doctorData)
  | _, _ => none

/-- The handler of `POST /send` after its two queries found `recordingData` and
`doctorData`: the SMS, the email, the update of `delivered`. A failed send or a rejected
update goes to the `catch`. -/
def sendTo (w : SendWorld) (req : SendRequest) (s : Store) (recordingData : RecordingRow)
    (doctorData : UserRow) : SendOutcome :=
  let smsWanted : Bool :=
    req.notification_type = .str "sms" || req.notification_type = .str "both"
  let emailWanted : Bool :=
    req.notification_type = .str "email" || req.notification_type = .str "both"
  let afterSms : List Channel := if smsWanted then [.sms] else []
  let afterEmail : List Channel := afterSms ++ (if emailWanted then [.email] else [])
  match (if smsWanted then w.sendSMS doctorData.phone recordingData doctorData
         else .ok ()) with
  | .error _ => sendFailure afterSms s
  | .ok _ =>
    match (if emailWanted then w.sendEmail doctorData.email recordingData doctorData
           else .ok ()) with
    | .error _ => sendFailure afterEmail s
    | .ok _ =>
      if w.acceptDelivered then
        { response := { status := 200
                        body := .obj [("message", .str "Notification sent successfully")] }
          attempted := afterEmail
          store := { s with
            notifications := setDelivered req.recording_id req.doctor_id s.notifications } }
      else sendFailure afterEmail s

/-- The handler of `POST /send`: the two queries, the 404 answer when one of them finds no
row, then the sends and the update. A rejected query goes to the `catch`. -/
def sendNotification (w : SendWorld) (req : SendRequest) (s : Store) : SendOutcome :=
  if w.acceptRecordingQuery = false then sendFailure [] s
  else if w.acceptUserQuery = false then sendFailure [] s
  else
    match sendTargets s req with
    | some (recordingData, doctorData) => sendTo w req s recordingData doctorData
    | none =>
      { response := { status := 404
                      body := .obj [("error", .str "Recording or doctor not found")] }
        attempted := []
        store := s }

/-- The notification rows a `notifyDoctors` pass adds. -/
def passNotifications (w : World) (recordingId : Nat) (summary : JsVal) (r : Run) :
    List NotificationRow :=
  (notifyDoctors w recordingId summary r).2.store.notifications.drop
    r.store.notifications.length

/-- The property read `analysis.name` on an assessment object with the given members. -/
def assessmentField (members : List (String × JsVal)) (name : String) : JsVal :=
  (lookupLast name members).getD .undefined

/-! ## The orders of the specification -/

/-- The value a stored value is compared as, with `⊥` for a value that is not a number. -/
def sqlValue (v : JsVal) : WithBot ℚ :=
  match numericKey v with
  | none => ⊥
  | some x => ((numValue x.1 x.2 : ℚ) : WithBot ℚ)

/-- Sent time descending. -/
def newestFirst (a b : NotificationView) : Prop :=
  b.notification.sent_at ≤ a.notification.sent_at

/-- Sent time ascending. -/
def oldestFirst (a b : NotificationView) : Prop :=
  a.notification.sent_at ≤ b.notification.sent_at

/-- Risk score descending, then priority level ascending, then sent time descending. -/
def triageOrder (a b : NotificationView) : Prop :=
  sqlValue b.risk_score < sqlValue a.risk_score ∨
  (sqlValue a.risk_score = sqlValue b.risk_score ∧
    (sqlValue a.priority_level < sqlValue b.priority_level ∨
      (sqlValue a.priority_level = sqlValue b.priority_level ∧
        b.notification.sent_at ≤ a.notification.sent_at)))

/-! ## Stores and worlds of the route instances -/

/-- A store with three analysed recordings of responder 4 and five notifications, four of
them for doctor 1. -/
def triageStore : Store :=
  { users := sampleStore.users
    recordings :=
      [{ id := 7, emt_id := some 4, audio_file_path := "uploads/recording-1.webm",
         risk_score := .num 5 0, priority_level := .num 3 0, status := "notified" },
       { id := 8, emt_id := some 4, audio_file_path := "uploads/recording-2.webm",
         risk_score := .num 9 0, priority_level := .num 1 0, status := "notified" },
       { id := 9, emt_id := some 4, audio_file_path := "uploads/recording-3.webm",
         risk_score := .num 90 (-1), priority_level := .num 2 0, status := "notified" }]
    notifications :=
      [{ id := 1, recording_id := 7, doctor_id := 1, notification_type := "both", sent_at := 10 },
       { id := 2, recording_id := 8, doctor_id := 1, notification_type := "both", sent_at := 20 },
       { id := 3, recording_id := 9, doctor_id := 1, notification_type := "both", sent_at := 30 },
       { id := 4, recording_id := 8, doctor_id := 2, notification_type := "both", sent_at := 20 },
       { id := 5, recording_id := 8, doctor_id := 1, notification_type := "both",
         sent_at := 40 }] }

/-- The run state on `triageStore`. -/
def triageRun : Run := { store := triageStore }

/-- A world of `POST /send` in which the two sends end as given and the store carries out
its statements. -/
def sendWorld (sms email : Bool) : SendWorld :=
  { sendSMS := fun _ _ _ => if sms then .ok () else .error (.external "SMS failed")
    sendEmail := fun _ _ _ => if email then .ok () else .error (.external "email failed") }

/-- A reply that is a complete assessment with a risk score of 0. -/
def zeroRiskReply : String :=
  "\x7b\"chief_complaint\":\"Check-up\",\"vital_signs\":\"BP 120/80\"," ++
  "\"symptoms\":\"None\",\"risk_score\":0,\"priority_level\":5," ++
  "\"urgency_level\":\"routine\",\"recommended_actions\":\"\"," ++
  "\"critical_info\":\"No findings\"," ++
  "\"medical_summary\":\"Routine check-up\"\x7d"

/-- A complete assessment whose vital signs are an object and whose symptoms are an array. -/
def nestedSignsReply : String :=
  "\x7b\"chief_complaint\":\"Chest pain\"," ++
  "\"vital_signs\":\x7b\"bp\":\"80/50\",\"pulse\":120\x7d," ++
  "\"symptoms\":[\"pain\",\"sweating\"],\"risk_score\":9,\"priority_level\":1," ++
  "\"urgency_level\":\"critical\",\"recommended_actions\":\"Cath lab\"," ++
  "\"critical_info\":\"Possible infarction\"," ++
  "\"medical_summary\":\"Chest pain, hypotension\"\x7d"

/-- An assessment that has a risk score and nothing else. -/
def riskOnlyReply : String := "\x7b\"risk_score\":7\x7d"

/-- An assessment whose risk score is the text `11`. -/
def textElevenReply : String := "\x7b\"risk_score\":\"11\"\x7d"

/-- An assessment whose risk score is the text `9`. -/
def textNineReply : String := "\x7b\"risk_score\":\"9\"\x7d"

/-- An assessment whose risk score is written with more digits than a binary64 number
keeps: its value is the number 10. -/
def longTenReply : String := "\x7b\"risk_score\":10.0000000000000000001\x7d"

/-- An assessment whose risk score is written as a decimal too small for a binary64 number:
its value is the number 0. -/
def tinyRiskReply : String := "\x7b\"risk_score\":1e-400\x7d"

/-! ## Lemmas on the run monad and the store statements -/

theorem Js.bind_eq {α β : Type} (m : Js α) (f : α → Js β) : (m >>= f) = Js.bind m f := rfl

theorem Js.pure_eq {α : Type} (a : α) : (pure a : Js α) = Js.pure a := rfl

theorem setStatus_setStatus (s t : String) (i : Nat) (rows : List RecordingRow) :
    setStatus t i (setStatus s i rows) = setStatus t i rows := by
  unfold setStatus
  rw [List.map_map]
  apply List.map_congr_left
  intro row _
  by_cases h : row.id = i <;> simp [h]

theorem analyzeWithLLM_eq (w : World) (t p : String) (r : Run) :
    analyzeWithLLM w t p r =
      (.ok (analysisOf w t p), { r with log := r.log ++ [Event.analyzeCall t p] }) := by
  unfold analyzeWithLLM analysisOf
  simp only [Js.bind, emit, Js.tryCatch, Js.bind_eq, Js.ofExcept, Js.pure]
  cases h : w.chat (prompt t p) with
  | error e => simp
  | ok response =>
    cases h2 : parseCompletion response with
    | error e => simp [h2]
    | ok v => simp [h2]


theorem setResults_setStatus (p : ResultParams) (s t : String) (i : Nat)
    (rows : List RecordingRow) :
    setResults p t i (setStatus s i rows) = setResults p t i rows := by
  unfold setResults setStatus
  rw [List.map_map]
  apply List.map_congr_left
  intro row _
  by_cases h : row.id = i <;> simp [h]

theorem patientInfoIn_setStatus (s : String) (i : Nat) (rows : List RecordingRow) :
    patientInfoIn (setStatus s i rows) i = patientInfoIn rows i := by
  unfold patientInfoIn setStatus
  congr 1
  induction rows with
  | nil => rfl
  | cons row rest ih =>
    by_cases h : row.id = i
    · simp [List.filter_cons, h]
      simpa using ih
    · simp [List.filter_cons, h]
      simpa using ih

theorem insertAll_frame (w : World) (i : Nat) (ds : List UserRow) (r : Run) :
    (insertAll w i ds r).2.log = r.log ∧
    (insertAll w i ds r).2.store.recordings = r.store.recordings ∧
    (insertAll w i ds r).2.store.users = r.store.users := by
  induction ds generalizing r with
  | nil => simp [insertAll, Js.pure]
  | cons d rest ih =>
    unfold insertAll
    simp only [Js.bind, insertNotification]
    by_cases h : (w.acceptInsert d.id && notificationTypeCheck "both") = true
    · simp only [h, if_true]
      refine ⟨(ih _).1, (ih _).2.1, (ih _).2.2⟩
    · simp [h]

theorem insertAll_ok (w : World) (i : Nat) (ds : List UserRow) (r : Run)
    (h : ∀ d ∈ ds, w.acceptInsert d.id = true) : (insertAll w i ds r).1 = .ok () := by
  induction ds generalizing r with
  | nil => simp [insertAll, Js.pure]
  | cons d rest ih =>
    unfold insertAll
    have hd : w.acceptInsert d.id = true := h d (List.mem_cons_self _ _)
    simp only [Js.bind, insertNotification, hd, notificationTypeCheck]
    simp
    exact ih _ (fun x hx => h x (List.mem_cons_of_mem _ hx))

theorem insertAll_error (w : World) (i : Nat) (ds : List UserRow) (r : Run)
    (h : ∃ d ∈ ds, w.acceptInsert d.id = false) : ∃ e, (insertAll w i ds r).1 = .error e := by
  induction ds generalizing r with
  | nil => obtain ⟨d, hd, _⟩ := h; cases hd
  | cons d rest ih =>
    unfold insertAll
    simp only [Js.bind, insertNotification]
    by_cases hd : w.acceptInsert d.id = true
    · simp only [hd, notificationTypeCheck]
      simp
      apply ih
      obtain ⟨x, hx, hxa⟩ := h
      rcases List.mem_cons.mp hx with rfl | hx2
      · rw [hd] at hxa; cases hxa
      · exact ⟨x, hx2, hxa⟩
    · simp [hd]

theorem notifyDoctors_ok (w : World) (i : Nat) (s : JsVal) (r : Run)
    (h : fanoutAccepted w r.store.users = true) :
    (notifyDoctors w i s r).1 = .ok () ∧
    (notifyDoctors w i s r).2.log =
      r.log ++ [Event.notifyCall i, Event.statusSet i "notified"] ∧
    (notifyDoctors w i s r).2.store.recordings = setStatus "notified" i r.store.recordings := by
  simp only [fanoutAccepted, Bool.and_eq_true, List.all_eq_true] at h
  obtain ⟨⟨hq, hins⟩, hn⟩ := h
  unfold notifyDoctors
  simp only [Js.bind, emit, Js.tryCatch, Js.bind_eq, selectAvailableDoctors, hq, if_true]
  have hf := insertAll_frame w i (availableDoctors r.store.users)
    { store := r.store, log := r.log ++ [Event.notifyCall i] }
  have ho := insertAll_ok w i (availableDoctors r.store.users)
    { store := r.store, log := r.log ++ [Event.notifyCall i] } hins
  rcases hx : insertAll w i (availableDoctors r.store.users)
    { store := r.store, log := r.log ++ [Event.notifyCall i] } with ⟨res, r2⟩
  rw [hx] at hf ho
  simp only at hf ho
  subst ho
  simp [updateStatus, hn, statusCheck, hf.1, hf.2.1]

theorem notifyDoctors_fail (w : World) (i : Nat) (s : JsVal) (r : Run)
    (h : fanoutAccepted w r.store.users = false) :
    (∃ e, (notifyDoctors w i s r).1 = .error e) ∧
    (notifyDoctors w i s r).2.log = r.log ++ [Event.notifyCall i] ∧
    (notifyDoctors w i s r).2.store.recordings = r.store.recordings := by
  unfold notifyDoctors
  simp only [Js.bind, emit, Js.tryCatch, Js.bind_eq, selectAvailableDoctors]
  by_cases hq : w.acceptDoctorQuery = true
  · simp only [hq, if_true]
    have hf := insertAll_frame w i (availableDoctors r.store.users)
      { store := r.store, log := r.log ++ [Event.notifyCall i] }
    by_cases hins : ∀ d ∈ availableDoctors r.store.users, w.acceptInsert d.id = true
    · have hn : w.acceptNotified = false := by
        by_contra hn
        have : fanoutAccepted w r.store.users = true := by
          simp only [fanoutAccepted, Bool.and_eq_true, List.all_eq_true]
          exact ⟨⟨hq, hins⟩, by simpa using hn⟩
        rw [h] at this
        cases this
      have ho := insertAll_ok w i (availableDoctors r.store.users)
        { store := r.store, log := r.log ++ [Event.notifyCall i] } hins
      rcases hx : insertAll w i (availableDoctors r.store.users)
        { store := r.store, log := r.log ++ [Event.notifyCall i] } with ⟨res, r2⟩
      rw [hx] at hf ho
      simp only at hf ho
      subst ho
      simp [updateStatus, hn, Js.throw, hf.1, hf.2.1]
    · have he := insertAll_error w i (availableDoctors r.store.users)
        { store := r.store, log := r.log ++ [Event.notifyCall i] }
        (by
          push_neg at hins
          obtain ⟨d, hd, hda⟩ := hins
          exact ⟨d, hd, by simpa using hda⟩)
      obtain ⟨e, he⟩ := he
      rcases hx : insertAll w i (availableDoctors r.store.users)
        { store := r.store, log := r.log ++ [Event.notifyCall i] } with ⟨res, r2⟩
      rw [hx] at hf he
      simp only at hf he
      subst he
      simp [Js.throw, hf.1, hf.2.1]
  · simp [hq, Js.throw]

theorem summaryOf_of_resultParams (w : World) (t : String) (a : JsVal) (p : ResultParams)
    (h : resultParams w t a = .ok p) : summaryOf w a = .ok p.llm_summary := by
  cases a <;>
    simp only [resultParams, summaryOf, fieldOr, JsVal.getField, bind, Except.bind, pure,
      Except.pure, Except.ok.injEq] at h ⊢ <;>
    cases h <;> rfl

theorem processRecording_results (w : World) (i : Nat) (path : String) (r : Run)
    (t : String) (p : ResultParams)
    (hP : w.acceptProcessing = true) (hQ : w.acceptPatientQuery = true)
    (hT : w.transcribe path = .ok t)
    (hp : resultParams w t (analysisOf w t (patientInfoIn r.store.recordings i)) = .ok p)
    (hR : w.acceptResults = true) (hr : riskScoreCheck p.risk_score = true)
    (hl : priorityLevelCheck p.priority_level = true) :
    processRecording w i path r =
      Js.tryCatch (notifyDoctors w i p.llm_summary)
        (fun _ => updateStatus w.acceptError "error" i)
        { store := { r.store with recordings := setResults p "completed" i r.store.recordings },
          log := r.log ++ [Event.statusSet i "processing", Event.transcribeCall path,
            Event.analyzeCall t (patientInfoIn r.store.recordings i),
            Event.statusSet i "completed"] } := by
  have hs := summaryOf_of_resultParams w t _ p hp
  have hpi := patientInfoIn_setStatus "processing" i r.store.recordings
  unfold patientInfoIn at hpi hp hs
  unfold processRecording processRecordingBody
  simp only [Js.tryCatch, Js.bind_eq, Js.bind, updateStatus, statusCheck, selectPatientInfo,
    transcribeAudio, emit, Js.ofExcept, Js.throw, hP, hQ, hT, analyzeWithLLM_eq]
  simp [hpi, hp, hs, updateResults, hR, hr, hl, statusCheck, setResults_setStatus,
    patientInfoIn]

theorem resultParams_fallback (w : World) (t : String) :
    resultParams w t fallbackAssessment = .ok (fallbackParams t) := by
  rfl

theorem parseCompletion_of_unparseable (response : JsVal) (reply : String)
    (hc : completionContent response = .ok (.str reply))
    (hbad : ∀ c, cleanResponse (jsTrim reply) = .ok c → jsonParse c = none) :
    ∃ e, parseCompletion response = .error e := by
  unfold parseCompletion
  rw [hc]
  simp only [bind, Except.bind, callTrim]
  cases hcl : cleanResponse (jsTrim reply) with
  | error e => exact ⟨e, rfl⟩
  | ok c =>
    simp only [hbad c hcl]
    exact ⟨_, rfl⟩

theorem analysisOf_of_unparseable (w : World) (t p : String) (response : JsVal)
    (reply : String) (hC : w.chat (prompt t p) = .ok response)
    (hc : completionContent response = .ok (.str reply))
    (hbad : ∀ c, cleanResponse (jsTrim reply) = .ok c → jsonParse c = none) :
    analysisOf w t p = fallbackAssessment := by
  obtain ⟨e, he⟩ := parseCompletion_of_unparseable response reply hc hbad
  simp [analysisOf, hC, he]

theorem persistedFallback_setResults (t : String) (s : String) (i : Nat)
    (rows : List RecordingRow) :
    ∀ row ∈ setStatus s i (setResults (fallbackParams t) "completed" i rows),
      row.id = i → persistedFallback row = true ∧ row.status = s := by
  intro row hrow hid
  simp only [setStatus, setResults, List.map_map, List.mem_map, Function.comp] at hrow
  obtain ⟨row0, _, rfl⟩ := hrow
  by_cases h0 : row0.id = i
  · simp [h0, persistedFallback, fallbackParams]
  · simp [h0] at hid


/-! ## Lemmas on `split` and `trim` -/

theorem fence_data : "```".data = [backtick, backtick, backtick] := rfl

theorem jsonFence_data :
    "```json".data = [backtick, backtick, backtick, 'j', 's', 'o', 'n'] := rfl

theorem findSep_cons (sep : List Char) (c : Char) (cs : List Char) :
    findSep sep (c :: cs) =
      if sep.isPrefixOf (c :: cs) then some ([], (c :: cs).drop sep.length)
      else match findSep sep cs with
        | none => none
        | some (b, a) => some (c :: b, a) := by
  rw [findSep]

theorem findSep_cons_none (sep : List Char) (c : Char) (cs : List Char) :
    findSep sep (c :: cs) = none ↔ sep.isPrefixOf (c :: cs) = false ∧ findSep sep cs = none := by
  rw [findSep_cons]
  by_cases h : sep.isPrefixOf (c :: cs) = true
  · simp [h]
  · simp only [h]
    cases hf : findSep sep cs with
    | none => simp [h]
    | some x => simp

theorem findSep_cons_skip (sep : List Char) (c : Char) (cs : List Char)
    (h : sep.isPrefixOf (c :: cs) = false) :
    findSep sep (c :: cs) = (findSep sep cs).map (fun x => (c :: x.1, x.2)) := by
  rw [findSep_cons]
  simp only [h]
  cases findSep sep cs <;> simp

theorem findSep_none_of_append_left (sep u v : List Char)
    (h : findSep sep (u ++ v) = none) : findSep sep v = none := by
  induction u with
  | nil => simpa using h
  | cons c u ih =>
    rw [List.cons_append, findSep_cons_none] at h
    exact ih h.2

theorem isPrefixOf_append_right (sep x v : List Char) (h : sep.isPrefixOf x = true) :
    sep.isPrefixOf (x ++ v) = true := by
  rw [List.isPrefixOf_iff_prefix] at h ⊢
  exact h.trans (List.prefix_append x v)

theorem findSep_none_of_append_right (sep u v : List Char)
    (h : findSep sep (u ++ v) = none) : findSep sep u = none := by
  induction u with
  | nil => rfl
  | cons c u ih =>
    rw [List.cons_append, findSep_cons_none] at h
    rw [findSep_cons_none]
    refine ⟨?_, ih h.2⟩
    by_contra hc
    have := isPrefixOf_append_right sep (c :: u) v (by simpa using hc)
    rw [List.cons_append, h.1] at this
    cases this

/-- A closing fence is found right after a text that has no fence inside and does not end
in a backtick. -/
theorem fence_no_match (c : Char) (j tail : List Char)
    (h1 : findSep [backtick, backtick, backtick] (c :: j) = none)
    (h2 : (c :: j).getLast? ≠ some backtick) :
    List.isPrefixOf [backtick, backtick, backtick]
      (c :: j ++ ([backtick, backtick, backtick] ++ tail)) = false := by
  rw [findSep_cons_none] at h1
  have h1 := h1.1
  match j, h1, h2 with
  | [], _, h2 =>
    simp [List.isPrefixOf] at h2 ⊢
    intro hc; exact absurd hc.symm h2
  | [d], _, h2 =>
    simp [List.isPrefixOf] at h2 ⊢
    intro _ hd; exact absurd hd.symm h2
  | d :: e :: rest, h1, _ =>
    simp [List.isPrefixOf] at h1 ⊢
    exact h1

theorem findSep_fence_append (j tail : List Char)
    (h1 : findSep [backtick, backtick, backtick] j = none)
    (h2 : j.getLast? ≠ some backtick) :
    findSep [backtick, backtick, backtick] (j ++ ([backtick, backtick, backtick] ++ tail)) =
      some (j, tail) := by
  induction j with
  | nil => simp [findSep, List.isPrefixOf]
  | cons c j ih =>
    have hnp := fence_no_match c j tail h1 h2
    rw [List.cons_append, findSep_cons_skip _ _ _ (by simpa using hnp)]
    rw [findSep_cons_none] at h1
    have h2' : j.getLast? ≠ some backtick := by
      cases j with
      | nil => simp
      | cons d j' => simpa [List.getLast?_cons_cons] using h2
    rw [ih h1.2 h2']
    rfl

theorem jsonFence_no_match (c : Char) (p tail : List Char)
    (h1 : findSep [backtick, backtick, backtick] (c :: p) = none) :
    List.isPrefixOf [backtick, backtick, backtick, 'j', 's', 'o', 'n']
      (c :: p ++ ([backtick, backtick, backtick, 'j', 's', 'o', 'n'] ++ tail)) = false := by
  rw [findSep_cons_none] at h1
  have h1 := h1.1
  have hbj : ¬ (backtick = 'j') := by decide
  match p, h1 with
  | [], _ => simp [List.isPrefixOf, hbj]
  | [d], _ => simp [List.isPrefixOf, hbj]
  | d :: e :: rest, h1 =>
    simp [List.isPrefixOf] at h1 ⊢
    intro hc hd he
    exact absurd he (h1 hc hd)

theorem findSep_jsonFence_append (p tail : List Char)
    (h1 : findSep [backtick, backtick, backtick] p = none) :
    findSep [backtick, backtick, backtick, 'j', 's', 'o', 'n']
      (p ++ ([backtick, backtick, backtick, 'j', 's', 'o', 'n'] ++ tail)) = some (p, tail) := by
  induction p with
  | nil => simp [findSep, List.isPrefixOf]
  | cons c p ih =>
    have hnp := jsonFence_no_match c p tail h1
    rw [List.cons_append, findSep_cons_skip _ _ _ (by simpa using hnp)]
    rw [findSep_cons_none] at h1
    rw [ih h1.2]
    rfl

theorem fence_start_of_jsonFence_start (x : List Char)
    (h : List.isPrefixOf [backtick, backtick, backtick, 'j', 's', 'o', 'n'] x = true) :
    List.isPrefixOf [backtick, backtick, backtick] x = true := by
  rw [List.isPrefixOf_iff_prefix] at h ⊢
  exact (List.prefix_append [backtick, backtick, backtick] ['j', 's', 'o', 'n']).trans h

theorem bool_false_of_imp {b c : Bool} (h : b = true → c = true) (hc : c = false) :
    b = false := by
  cases b
  · rfl
  · rw [h rfl] at hc
    cases hc

theorem findSep_jsonFence_none (x : List Char)
    (h : findSep [backtick, backtick, backtick] x = none) :
    findSep [backtick, backtick, backtick, 'j', 's', 'o', 'n'] x = none := by
  induction x with
  | nil => rfl
  | cons c x ih =>
    rw [findSep_cons_none] at h ⊢
    exact ⟨bool_false_of_imp (fence_start_of_jsonFence_start (c :: x)) h.1, ih h.2⟩

theorem findSep_jsonFence_skip (j tail : List Char)
    (h1 : findSep [backtick, backtick, backtick] j = none)
    (h2 : j.getLast? ≠ some backtick) :
    findSep [backtick, backtick, backtick, 'j', 's', 'o', 'n']
        (j ++ ([backtick, backtick, backtick] ++ tail)) =
      (findSep [backtick, backtick, backtick, 'j', 's', 'o', 'n']
        ([backtick, backtick, backtick] ++ tail)).map (fun x => (j ++ x.1, x.2)) := by
  induction j with
  | nil =>
    simp only [List.nil_append]
    cases findSep _ _ <;> simp
  | cons c j ih =>
    have hnp := fence_no_match c j tail h1 h2
    have hnp2 : List.isPrefixOf [backtick, backtick, backtick, 'j', 's', 'o', 'n']
        (c :: (j ++ ([backtick, backtick, backtick] ++ tail))) = false :=
      bool_false_of_imp (fence_start_of_jsonFence_start _) hnp
    rw [List.cons_append, findSep_cons_skip _ _ _ hnp2]
    rw [findSep_cons_none] at h1
    have h2' : j.getLast? ≠ some backtick := by
      cases j with
      | nil => simp
      | cons d j' => simpa [List.getLast?_cons_cons] using h2
    rw [ih h1.2 h2']
    cases findSep _ _ <;> simp

/-- The text between a `json` fence and the closing fence is recovered by the two splits. -/
theorem textBefore_closing_json (j s : List Char)
    (h1 : findSep [backtick, backtick, backtick] j = none)
    (h2 : j.getLast? ≠ some backtick)
    (hs1 : List.isPrefixOf [backtick, 'j', 's', 'o', 'n'] s = false)
    (hs2 : List.isPrefixOf [backtick, backtick, 'j', 's', 'o', 'n'] s = false) :
    textBefore [backtick, backtick, backtick]
      (textBefore [backtick, backtick, backtick, 'j', 's', 'o', 'n']
        (j ++ backtick :: backtick :: backtick :: s)) = j := by
  have hj : textBefore [backtick, backtick, backtick] j = j := by
    rw [textBefore, h1]
  have hfull : ∀ tail, textBefore [backtick, backtick, backtick]
      (j ++ backtick :: backtick :: backtick :: tail) = j := by
    intro tail
    have := findSep_fence_append j tail h1 h2
    simp only [List.cons_append, List.nil_append] at this
    rw [textBefore, this]
  have hskip := findSep_jsonFence_skip j s h1 h2
  simp only [List.cons_append, List.nil_append] at hskip
  cases hp0 : List.isPrefixOf [backtick, backtick, backtick, 'j', 's', 'o', 'n']
      (backtick :: backtick :: backtick :: s) with
  | true =>
    have hin : textBefore [backtick, backtick, backtick, 'j', 's', 'o', 'n']
        (j ++ backtick :: backtick :: backtick :: s) = j := by
      have : findSep [backtick, backtick, backtick, 'j', 's', 'o', 'n']
          (backtick :: backtick :: backtick :: s) =
          some ([], List.drop 7 (backtick :: backtick :: backtick :: s)) := by
        rw [findSep_cons, if_pos hp0]
        rfl
      rw [textBefore, hskip, this]
      simp
    rw [hin, hj]
  | false =>
    have hp1 : List.isPrefixOf [backtick, backtick, backtick, 'j', 's', 'o', 'n']
        (backtick :: backtick :: s) = false := by
      simp only [List.isPrefixOf, beq_self_eq_true, Bool.true_and]
      exact hs1
    have hp2 : List.isPrefixOf [backtick, backtick, backtick, 'j', 's', 'o', 'n']
        (backtick :: s) = false := by
      simp only [List.isPrefixOf, beq_self_eq_true, Bool.true_and]
      exact hs2
    have hrest : findSep [backtick, backtick, backtick, 'j', 's', 'o', 'n']
        (backtick :: backtick :: backtick :: s) =
        (findSep [backtick, backtick, backtick, 'j', 's', 'o', 'n'] s).map
          (fun x => (backtick :: backtick :: backtick :: x.1, x.2)) := by
      rw [findSep_cons_skip _ _ _ hp0, findSep_cons_skip _ _ _ hp1,
        findSep_cons_skip _ _ _ hp2]
      cases findSep _ s <;> simp
    cases hf : findSep [backtick, backtick, backtick, 'j', 's', 'o', 'n'] s with
    | none =>
      have hin : textBefore [backtick, backtick, backtick, 'j', 's', 'o', 'n']
          (j ++ backtick :: backtick :: backtick :: s) =
          j ++ backtick :: backtick :: backtick :: s := by
        rw [textBefore, hskip, hrest, hf]
        rfl
      rw [hin, hfull]
    | some x =>
      have hin : textBefore [backtick, backtick, backtick, 'j', 's', 'o', 'n']
          (j ++ backtick :: backtick :: backtick :: s) =
          j ++ backtick :: backtick :: backtick :: x.1 := by
        rw [textBefore, hskip, hrest, hf]
        rfl
      rw [hin, hfull]

theorem dropWhile_append_stop (P : Char → Bool) (p q : List Char) (a : Char)
    (hq : q.head? = some a) (ha : P a = false) :
    (p ++ q).dropWhile P = p.dropWhile P ++ q := by
  induction p with
  | nil =>
    cases q with
    | nil => cases hq
    | cons x q' =>
      simp only [List.head?_cons, Option.some.injEq] at hq
      subst hq
      simp [List.dropWhile_cons, ha]
  | cons c p ih =>
    cases hc : P c with
    | true => simp [List.dropWhile_cons, hc, ih]
    | false => simp [List.dropWhile_cons, hc]

theorem trimChars_wrapped (p m s : List Char) (a z : Char)
    (hh : m.head? = some a) (ha : isJsWhitespace a = false)
    (hl : m.getLast? = some z) (hz : isJsWhitespace z = false) :
    trimChars (p ++ (m ++ s)) =
      p.dropWhile isJsWhitespace ++ (m ++ (s.reverse.dropWhile isJsWhitespace).reverse) := by
  unfold trimChars
  have h1 : (m ++ s).head? = some a := by
    cases m with
    | nil => cases hh
    | cons x m' => simpa using hh
  rw [dropWhile_append_stop isJsWhitespace p (m ++ s) a h1 ha]
  have h2 : (m.reverse ++ (p.dropWhile isJsWhitespace).reverse).head? = some z := by
    have : m.reverse.head? = some z := by rw [List.head?_reverse]; exact hl
    cases hm : m.reverse with
    | nil => rw [hm] at this; cases this
    | cons x m' => rw [hm] at this; simpa using this
  have h3 : (p.dropWhile isJsWhitespace ++ (m ++ s)).reverse =
      s.reverse ++ (m.reverse ++ (p.dropWhile isJsWhitespace).reverse) := by
    simp [List.reverse_append]
  rw [h3, dropWhile_append_stop isJsWhitespace s.reverse _ z h2 hz]
  simp [List.reverse_append]

theorem trimChars_infix (j : List Char) : ∃ u v, j = u ++ (trimChars j ++ v) := by
  have h1 := List.takeWhile_append_dropWhile isJsWhitespace j
  have h2 := List.takeWhile_append_dropWhile isJsWhitespace
    (j.dropWhile isJsWhitespace).reverse
  refine ⟨j.takeWhile isJsWhitespace,
    ((j.dropWhile isJsWhitespace).reverse.takeWhile isJsWhitespace).reverse, ?_⟩
  unfold trimChars
  rw [← List.reverse_append, h2, List.reverse_reverse, h1]

theorem findSep_trimChars_none (sep j : List Char) (h : findSep sep j = none) :
    findSep sep (trimChars j) = none := by
  obtain ⟨u, v, huv⟩ := trimChars_infix j
  rw [huv] at h
  exact findSep_none_of_append_right sep _ v (findSep_none_of_append_left sep u _ h)

theorem trimEnd_initial (s : List Char) :
    (s.reverse.dropWhile isJsWhitespace).reverse <+: s := by
  have h := List.dropWhile_suffix (l := s.reverse) isJsWhitespace
  have := List.reverse_prefix.mpr h
  simpa using this

theorem isPrefixOf_trimEnd (x s : List Char) (h : x.isPrefixOf s = false) :
    x.isPrefixOf (s.reverse.dropWhile isJsWhitespace).reverse = false := by
  refine bool_false_of_imp ?_ h
  intro hx
  rw [List.isPrefixOf_iff_prefix] at hx ⊢
  exact hx.trans (trimEnd_initial s)

theorem getLast?_dropWhile (P : Char → Bool) (p : List Char) (c : Char)
    (h : p.getLast? ≠ some c) : (p.dropWhile P).getLast? ≠ some c := by
  intro hc
  have hs := List.dropWhile_suffix (l := p) P
  have hne : p.dropWhile P ≠ [] := by
    intro hnil; rw [hnil] at hc; cases hc
  obtain ⟨u, hu⟩ := hs
  apply h
  rw [← hu, List.getLast?_append, hc]
  rfl

theorem string_length_eq (s : String) : s.length = s.data.length := by
  cases s; rfl

theorem partAt_jsSplit_zero (s sep : String) :
    partAt (jsSplit s sep) 0 = .ok ⟨textBefore sep.data s.data⟩ := by
  unfold jsSplit partAt textBefore
  rw [splitFuel]
  cases findSep sep.data s.data with
  | none => rfl
  | some x => rfl

theorem partAt_jsSplit_one (s sep : String) (b a : List Char)
    (h : findSep sep.data s.data = some (b, a)) :
    partAt (jsSplit s sep) 1 = .ok ⟨textBefore sep.data a⟩ := by
  have hlen : s.length = (s.data.length - 1) + 1 := by
    rw [string_length_eq]
    cases hd : s.data with
    | nil => rw [hd] at h; cases h
    | cons c cs => simp
  unfold jsSplit partAt textBefore
  rw [hlen, splitFuel, h]
  simp only [List.map_cons, List.get?_cons_succ]
  rw [splitFuel]
  cases findSep sep.data a with
  | none => rfl
  | some x => rfl

theorem cleanResponse_json (ai : String) (p j s : List Char)
    (hai : ai.data = p ++ backtick :: backtick :: backtick :: 'j' :: 's' :: 'o' :: 'n' ::
      (j ++ backtick :: backtick :: backtick :: s))
    (hp : findSep [backtick, backtick, backtick] p = none)
    (h1 : findSep [backtick, backtick, backtick] j = none)
    (h2 : j.getLast? ≠ some backtick)
    (hs1 : List.isPrefixOf [backtick, 'j', 's', 'o', 'n'] s = false)
    (hs2 : List.isPrefixOf [backtick, backtick, 'j', 's', 'o', 'n'] s = false) :
    cleanResponse ai = .ok ⟨trimChars j⟩ := by
  have hfind : findSep "```json".data ai.data =
      some (p, j ++ backtick :: backtick :: backtick :: s) := by
    rw [jsonFence_data, hai]
    have := findSep_jsonFence_append p (j ++ backtick :: backtick :: backtick :: s) hp
    simpa only [List.cons_append, List.nil_append] using this
  unfold cleanResponse
  have hinc : jsIncludes ai "```json" = true := by
    unfold jsIncludes; rw [hfind]; rfl
  rw [if_pos hinc, partAt_jsSplit_one ai "```json" _ _ hfind]
  simp only [bind, Except.bind, partAt_jsSplit_zero, pure, Except.pure, jsTrim]
  exact congrArg (fun x => Except.ok (String.mk (trimChars x)))
    (textBefore_closing_json j s h1 h2 hs1 hs2)

theorem cleanResponse_bare (ai : String) (p j s : List Char)
    (hai : ai.data = p ++ backtick :: backtick :: backtick ::
      (j ++ backtick :: backtick :: backtick :: s))
    (hnj : findSep [backtick, backtick, backtick, 'j', 's', 'o', 'n'] ai.data = none)
    (hp : findSep [backtick, backtick, backtick] p = none)
    (hp2 : p.getLast? ≠ some backtick)
    (h1 : findSep [backtick, backtick, backtick] j = none)
    (h2 : j.getLast? ≠ some backtick) :
    cleanResponse ai = .ok ⟨trimChars j⟩ := by
  have hfind : findSep "```".data ai.data =
      some (p, j ++ backtick :: backtick :: backtick :: s) := by
    rw [fence_data, hai]
    have := findSep_fence_append p (j ++ backtick :: backtick :: backtick :: s) hp hp2
    simpa only [List.cons_append, List.nil_append] using this
  have hin : textBefore [backtick, backtick, backtick]
      (j ++ backtick :: backtick :: backtick :: s) = j := by
    have := findSep_fence_append j s h1 h2
    simp only [List.cons_append, List.nil_append] at this
    rw [textBefore, this]
  have hj : textBefore [backtick, backtick, backtick] j = j := by
    rw [textBefore, h1]
  unfold cleanResponse
  have hinc : jsIncludes ai "```json" = false := by
    unfold jsIncludes; rw [jsonFence_data, hnj]; rfl
  have hinc2 : jsIncludes ai "```" = true := by
    unfold jsIncludes; rw [hfind]; rfl
  rw [if_neg (by rw [hinc]; simp), if_pos hinc2, partAt_jsSplit_one ai "```" _ _ hfind]
  simp only [bind, Except.bind, partAt_jsSplit_zero, pure, Except.pure, jsTrim]
  exact congrArg (fun x => Except.ok (String.mk (trimChars x))) ((congrArg _ hin).trans hj)

theorem cleanResponse_plain (ai : String)
    (h : findSep [backtick, backtick, backtick] ai.data = none) :
    cleanResponse ai = .ok ai := by
  unfold cleanResponse
  have hinc : jsIncludes ai "```json" = false := by
    unfold jsIncludes; rw [jsonFence_data, findSep_jsonFence_none _ h]; rfl
  have hinc2 : jsIncludes ai "```" = false := by
    unfold jsIncludes; rw [fence_data, h]; rfl
  rw [if_neg (by rw [hinc]; simp), if_neg (by rw [hinc2]; simp)]
  rfl

theorem getLast?_fence (pre l : List Char) :
    (pre ++ (l ++ [backtick, backtick, backtick])).getLast? = some backtick := by
  rw [← List.append_assoc, List.getLast?_append]
  rfl

theorem trimChars_whitespace_around (p j s : List Char)
    (hp : ∀ a ∈ p, isJsWhitespace a = true) (hs : ∀ a ∈ s, isJsWhitespace a = true) :
    trimChars (p ++ (j ++ s)) = trimChars j := by
  unfold trimChars
  rw [List.dropWhile_append_of_pos hp, List.dropWhile_append]
  have hsn : s.dropWhile isJsWhitespace = [] := by
    rw [List.dropWhile_eq_nil_iff]; exact hs
  have hsr : ∀ a ∈ s.reverse, isJsWhitespace a = true := by
    intro a ha; exact hs a (List.mem_reverse.mp ha)
  cases hj : j.dropWhile isJsWhitespace with
  | nil => simp [hsn]
  | cons c cs =>
    simp only [List.isEmpty_cons, Bool.false_eq_true, if_false]
    rw [List.reverse_append, List.dropWhile_append_of_pos hsr]

theorem parseCompletion_completionOf (reply : String) :
    parseCompletion (completionOf reply) =
      (match cleanResponse (jsTrim reply) with
       | .error e => .error e
       | .ok c =>
         match jsonParse c with
         | some v => .ok v
         | none => .error .syntaxError) := by
  have e1 : completionContent (completionOf reply) = .ok (.str reply) := rfl
  simp only [parseCompletion, e1, bind, Except.bind, callTrim]
  cases cleanResponse (jsTrim reply) with
  | error e => rfl
  | ok c => cases jsonParse c <;> rfl

theorem parseCompletion_ok (response : JsVal) (v : JsVal)
    (h : parseCompletion response = .ok v) :
    ∃ reply c, completionContent response = .ok (.str reply) ∧
      cleanResponse (jsTrim reply) = .ok c ∧ jsonParse c = some v := by
  unfold parseCompletion at h
  cases hc : completionContent response with
  | error e => rw [hc] at h; cases h
  | ok content =>
    rw [hc] at h
    cases content with
    | str reply =>
      simp only [bind, Except.bind, callTrim] at h
      cases hcl : cleanResponse (jsTrim reply) with
      | error e => rw [hcl] at h; cases h
      | ok c =>
        rw [hcl] at h
        simp only at h
        cases hp : jsonParse c with
        | none => rw [hp] at h; cases h
        | some x =>
          rw [hp] at h
          cases h
          exact ⟨reply, c, rfl, hcl, hp⟩
    | _ => cases h

theorem parseCompletion_of_parse (response : JsVal) (reply c : String) (v : JsVal)
    (hc : completionContent response = .ok (.str reply))
    (hcl : cleanResponse (jsTrim reply) = .ok c) (hp : jsonParse c = some v) :
    parseCompletion response = .ok v := by
  simp only [parseCompletion, hc, bind, Except.bind, callTrim, hcl, hp]
  rfl

theorem setStatus_completed_setResults (p : ResultParams) (i : Nat)
    (rows : List RecordingRow) :
    setStatus "completed" i (setResults p "completed" i rows) =
      setResults p "completed" i rows := by
  unfold setResults setStatus
  rw [List.map_map]
  apply List.map_congr_left
  intro row _
  by_cases h : row.id = i <;> simp [h]

theorem scores_after_setResults (p : ResultParams) (s : String) (i : Nat)
    (rows : List RecordingRow) :
    ∀ row ∈ setStatus s i (setResults p "completed" i rows), row.id = i →
      row.risk_score = p.risk_score ∧ row.priority_level = p.priority_level := by
  intro row hrow hid
  simp only [setStatus, setResults, List.map_map, List.mem_map, Function.comp] at hrow
  obtain ⟨row0, _, rfl⟩ := hrow
  by_cases h0 : row0.id = i
  · simp [h0]
  · simp [h0] at hid

theorem resultParams_scores (w : World) (t : String) (a : JsVal) (p : ResultParams)
    (h : resultParams w t a = .ok p) :
    ∃ risk priority, a.getField "risk_score" = .ok risk ∧
      a.getField "priority_level" = .ok priority ∧
      p.risk_score = risk.or (.num 5 0) ∧ p.priority_level = priority.or (.num 3 0) := by
  cases a <;>
    simp only [resultParams, summaryOf, fieldOr, JsVal.getField, bind, Except.bind, pure,
      Except.pure, Except.ok.injEq] at h ⊢ <;>
    cases h <;> exact ⟨_, _, rfl, rfl, rfl, rfl⟩

/-- The rows after a run whose results update was carried out: the results, under the
status the run ended with. -/
theorem processRecording_rows_after_results (w : World) (i : Nat) (path : String) (r : Run)
    (t : String) (p : ResultParams)
    (hP : w.acceptProcessing = true) (hQ : w.acceptPatientQuery = true)
    (hT : w.transcribe path = .ok t)
    (hp : resultParams w t (analysisOf w t (patientInfoIn r.store.recordings i)) = .ok p)
    (hR : w.acceptResults = true) (hr : riskScoreCheck p.risk_score = true)
    (hl : priorityLevelCheck p.priority_level = true) :
    ∃ s, (processRecording w i path r).2.store.recordings =
      setStatus s i (setResults p "completed" i r.store.recordings) := by
  rw [processRecording_results w i path r t p hP hQ hT hp hR hr hl]
  cases hF : fanoutAccepted w r.store.users with
  | true =>
    obtain ⟨h1, _, h3⟩ := notifyDoctors_ok w i p.llm_summary
      { store := { r.store with recordings := setResults p "completed" i r.store.recordings },
        log := r.log ++ [Event.statusSet i "processing", Event.transcribeCall path,
          Event.analyzeCall t (patientInfoIn r.store.recordings i),
          Event.statusSet i "completed"] } hF
    refine ⟨"notified", ?_⟩
    unfold Js.tryCatch
    split
    · next a r1 heq => rw [heq] at h3; exact h3
    · next e r1 heq => rw [heq] at h1; cases h1
  | false =>
    obtain ⟨⟨e, h1⟩, _, h3⟩ := notifyDoctors_fail w i p.llm_summary
      { store := { r.store with recordings := setResults p "completed" i r.store.recordings },
        log := r.log ++ [Event.statusSet i "processing", Event.transcribeCall path,
          Event.analyzeCall t (patientInfoIn r.store.recordings i),
          Event.statusSet i "completed"] } hF
    unfold Js.tryCatch
    split
    · next a r1 heq => rw [heq] at h1; cases h1
    · next e r1 heq =>
      rw [heq] at h3
      simp only at h3
      cases hE : w.acceptError with
      | true =>
        refine ⟨"error", ?_⟩
        simp [updateStatus, statusCheck, h3]
      | false =>
        refine ⟨"completed", ?_⟩
        simp [updateStatus, h3, setStatus_completed_setResults]

theorem results_written_of_completed (w : World) (i : Nat) (path : String) (r : Run)
    (h : Event.statusSet i "completed" ∈ runEvents w i path r) :
    ∃ t p, w.acceptProcessing = true ∧ w.acceptPatientQuery = true ∧
      w.transcribe path = .ok t ∧
      resultParams w t (analysisOf w t (patientInfoIn r.store.recordings i)) = .ok p ∧
      w.acceptResults = true ∧ riskScoreCheck p.risk_score = true ∧
      priorityLevelCheck p.priority_level = true := by
  have hpi := patientInfoIn_setStatus "processing" i r.store.recordings
  unfold patientInfoIn at hpi
  cases hP : w.acceptProcessing with
  | false =>
    exfalso
    revert h
    cases hE : w.acceptError <;>
      simp [runEvents, processRecording, processRecordingBody, Js.tryCatch, Js.bind_eq,
        Js.bind, updateStatus, statusCheck, hP, hE]
  | true =>
    cases hQ : w.acceptPatientQuery with
    | false =>
      exfalso
      revert h
      cases hE : w.acceptError <;>
        simp [runEvents, processRecording, processRecordingBody, Js.tryCatch, Js.bind_eq,
          Js.bind, updateStatus, statusCheck, selectPatientInfo, hP, hQ, hE]
    | true =>
      cases hT : w.transcribe path with
      | error e =>
        exfalso
        revert h
        cases hE : w.acceptError <;>
          simp [runEvents, processRecording, processRecordingBody, Js.tryCatch, Js.bind_eq,
            Js.bind, updateStatus, statusCheck, selectPatientInfo, transcribeAudio, emit,
            Js.ofExcept, Js.throw, hP, hQ, hT, hE]
      | ok t =>
        cases hp : resultParams w t (analysisOf w t (patientInfoIn r.store.recordings i)) with
        | error e =>
          exfalso
          revert h
          unfold patientInfoIn at hp
          cases hE : w.acceptError <;>
            simp [runEvents, processRecording, processRecordingBody, Js.tryCatch, Js.bind_eq,
              Js.bind, updateStatus, statusCheck, selectPatientInfo, transcribeAudio, emit,
              Js.ofExcept, Js.throw, hP, hQ, hT, hE, analyzeWithLLM_eq, hpi, hp]
        | ok p =>
          cases hacc : (w.acceptResults && riskScoreCheck p.risk_score
              && priorityLevelCheck p.priority_level) with
          | false =>
            exfalso
            revert h
            unfold patientInfoIn at hp
            cases hE : w.acceptError <;>
              simp [runEvents, processRecording, processRecordingBody, Js.tryCatch,
                Js.bind_eq, Js.bind, updateStatus, statusCheck, selectPatientInfo,
                transcribeAudio, emit, Js.ofExcept, Js.throw, hP, hQ, hT, hE,
                analyzeWithLLM_eq, hpi, hp, updateResults, hacc]
          | true =>
            simp only [Bool.and_eq_true] at hacc
            exact ⟨t, p, rfl, rfl, rfl, hp, hacc.1.1, hacc.1.2, hacc.2⟩

/-! ## A JSON text does not end in a backtick -/

theorem consumed_trans {s r1 r2 : List Char}
    (h1 : ∃ u c, s = u ++ c :: r1 ∧ c ≠ backtick)
    (h2 : r2 = r1 ∨ ∃ u c, r1 = u ++ c :: r2 ∧ c ≠ backtick) :
    ∃ u c, s = u ++ c :: r2 ∧ c ≠ backtick := by
  rcases h2 with rfl | ⟨u2, c2, e2, n2⟩
  · exact h1
  · obtain ⟨u1, c1, e1, _⟩ := h1
    refine ⟨u1 ++ c1 :: u2, c2, ?_, n2⟩
    rw [e1, e2]; simp

theorem consumed_cons {s r : List Char} (c : Char) (hc : c ≠ backtick)
    (h : r = s ∨ ∃ u d, s = u ++ d :: r ∧ d ≠ backtick) :
    ∃ u d, c :: s = u ++ d :: r ∧ d ≠ backtick := by
  rcases h with rfl | ⟨u, d, e, n⟩
  · exact ⟨[], c, rfl, hc⟩
  · exact ⟨c :: u, d, by rw [e]; rfl, n⟩

theorem ne_backtick_of_toNat {c : Char} {n : Nat} (h : c.toNat = n) (hn : n ≠ 96) :
    c ≠ backtick := by
  intro hc
  rw [hc] at h
  exact hn h.symm

theorem digit_ne_backtick {c : Char} {d : Nat} (h : digitVal c = some d) : c ≠ backtick := by
  intro hc
  have hb : digitVal backtick = none := by decide
  rw [hc, hb] at h
  cases h

theorem takeDigits_consumed (cs : List Char) (acc cnt : Nat) (m k : Nat) (rest : List Char)
    (h : takeDigits cs acc cnt = (m, k, rest)) :
    (k = cnt ∧ rest = cs) ∨ (cnt < k ∧ ∃ u c, cs = u ++ c :: rest ∧ c ≠ backtick) := by
  induction cs generalizing acc cnt with
  | nil =>
    simp only [takeDigits, Prod.mk.injEq] at h
    exact Or.inl ⟨h.2.1.symm, h.2.2.symm⟩
  | cons c cs ih =>
    rw [takeDigits] at h
    cases hd : digitVal c with
    | none =>
      rw [hd] at h
      simp only [Prod.mk.injEq] at h
      exact Or.inl ⟨h.2.1.symm, h.2.2.symm⟩
    | some d =>
      rw [hd] at h
      simp only at h
      right
      rcases ih _ _ h with ⟨hk, hr⟩ | ⟨hk, hc⟩
      · refine ⟨by omega, [], c, ?_, digit_ne_backtick hd⟩
        rw [hr]; rfl
      · exact ⟨by omega, consumed_cons c (digit_ne_backtick hd) (Or.inr hc)⟩

theorem hex4_suffix (s : List Char) (n : Nat) (rest : List Char)
    (h : hex4 s = some (n, rest)) : ∃ u, s = u ++ rest := by
  match s, h with
  | a :: b :: c :: d :: r, h =>
    rw [hex4] at h
    cases ha : hexVal a <;> cases hb : hexVal b <;> cases hc : hexVal c <;>
      cases hd : hexVal d <;> simp [ha, hb, hc, hd] at h
    exact ⟨[a, b, c, d], by rw [h.2]; rfl⟩
  | [], h => simp [hex4] at h
  | [_], h => simp [hex4] at h
  | [_, _], h => simp [hex4] at h
  | [_, _, _], h => simp [hex4] at h

theorem decodeUnit_suffix (u : Nat) (rest : List Char) :
    ∃ v, rest = v ++ (decodeUnit u rest).2 := by
  unfold decodeUnit
  split
  · split
    · next bs uc more =>
      split
      · cases hh : hex4 more with
        | none => exact ⟨[], rfl⟩
        | some x =>
          obtain ⟨lo, rest2⟩ := x
          simp only
          split
          · obtain ⟨v, hv⟩ := hex4_suffix more lo rest2 hh
            exact ⟨bs :: uc :: v, by rw [hv]; rfl⟩
          · exact ⟨[], rfl⟩
      · exact ⟨[], rfl⟩
    · exact ⟨[], rfl⟩
  · split
    · exact ⟨[], rfl⟩
    · exact ⟨[], rfl⟩

theorem consumed_of_suffix {s s1 rest : List Char} (v : List Char) (hs : s = v ++ s1)
    (h : ∃ u c, s1 = u ++ c :: rest ∧ c ≠ backtick) :
    ∃ u c, s = u ++ c :: rest ∧ c ≠ backtick := by
  obtain ⟨u, c, e, n⟩ := h
  exact ⟨v ++ u, c, by rw [hs, e]; simp, n⟩

theorem parseStringBody_succ_cons (n : Nat) (c : Char) (cs acc : List Char) :
    parseStringBody (n + 1) (c :: cs) acc =
      if c.toNat = 34 then some (acc.reverse, cs)
      else if c.toNat = 92 then
        match cs with
        | [] => none
        | e :: rest =>
          if e.toNat = 117 then
            match hex4 rest with
            | none => none
            | some (u, rest2) =>
              parseStringBody n (decodeUnit u rest2).2 ((decodeUnit u rest2).1 :: acc)
          else
            match simpleEscape e with
            | some ch => parseStringBody n rest (ch :: acc)
            | none => none
      else if c.toNat < 0x20 then none
      else parseStringBody n cs (c :: acc) := rfl

theorem parseStringBody_consumed (n : Nat) (cs acc text rest : List Char)
    (h : parseStringBody n cs acc = some (text, rest)) :
    ∃ u c, cs = u ++ c :: rest ∧ c ≠ backtick := by
  induction n generalizing cs acc with
  | zero => cases cs <;> cases h
  | succ n ih =>
    cases cs with
    | nil => cases h
    | cons c cs =>
      rw [parseStringBody_succ_cons] at h
      split at h
      · next hq =>
        simp only [Option.some.injEq, Prod.mk.injEq] at h
        exact ⟨[], c, by rw [h.2]; rfl, ne_backtick_of_toNat hq (by decide)⟩
      · split at h
        · cases cs with
          | nil => cases h
          | cons e r0 =>
            simp only at h
            split at h
            · cases hh : hex4 r0 with
              | none => rw [hh] at h; cases h
              | some x =>
                obtain ⟨u4, rest2⟩ := x
                rw [hh] at h
                simp only at h
                obtain ⟨v1, hv1⟩ := hex4_suffix r0 u4 rest2 hh
                obtain ⟨v2, hv2⟩ := decodeUnit_suffix u4 rest2
                have := ih _ _ h
                refine consumed_of_suffix (c :: e :: (v1 ++ v2)) ?_ this
                rw [hv1]
                conv => lhs; rw [hv2]
                simp
            · cases he : simpleEscape e with
              | none => rw [he] at h; cases h
              | some ch =>
                rw [he] at h
                exact consumed_of_suffix [c, e] rfl (ih r0 _ h)
        · split at h
          · cases h
          · exact consumed_of_suffix [c] rfl (ih cs _ h)

theorem parseString_consumed (s : List Char) (t : String) (rest : List Char)
    (h : parseString s = some (t, rest)) : ∃ u c, s = u ++ c :: rest ∧ c ≠ backtick := by
  cases s with
  | nil => simp [parseString] at h
  | cons c cs =>
    rw [parseString] at h
    split at h
    · cases hb : parseStringBody (cs.length + 1) cs [] with
      | none => rw [hb] at h; simp at h
      | some x =>
        obtain ⟨text, r⟩ := x
        rw [hb] at h
        simp only [Option.some.injEq, Prod.mk.injEq] at h
        rw [← h.2]
        exact consumed_of_suffix [c] rfl (parseStringBody_consumed _ _ _ _ _ hb)
    · simp at h

theorem parseFraction_consumed (mant : Nat) (s : List Char) (m k : Nat) (rest : List Char)
    (h : parseFraction mant s = some (m, k, rest)) :
    rest = s ∨ ∃ u c, s = u ++ c :: rest ∧ c ≠ backtick := by
  cases s with
  | nil =>
    simp only [parseFraction, Option.some.injEq, Prod.mk.injEq] at h
    exact Or.inl h.2.2.symm
  | cons c cs =>
    rw [parseFraction] at h
    split at h
    · rcases ht : takeDigits cs mant 0 with ⟨m1, k1, r1⟩
      rw [ht] at h
      cases k1 with
      | zero => simp at h
      | succ k1 =>
        simp only [Option.some.injEq, Prod.mk.injEq] at h
        rcases takeDigits_consumed cs mant 0 _ _ _ ht with ⟨hk, _⟩ | ⟨_, hc⟩
        · omega
        · right
          rw [← h.2.2]
          exact consumed_of_suffix [c] rfl hc
    · simp only [Option.some.injEq, Prod.mk.injEq] at h
      exact Or.inl h.2.2.symm

theorem takeDigits_nonempty_consumed (cs : List Char) (e k : Nat) (rest : List Char)
    (h : takeDigits cs 0 0 = (e, k + 1, rest)) :
    ∃ u c, cs = u ++ c :: rest ∧ c ≠ backtick := by
  rcases takeDigits_consumed cs 0 0 _ _ _ h with ⟨hk, _⟩ | ⟨_, hc⟩
  · omega
  · exact hc

theorem parseExponent_cons (c : Char) (cs : List Char) :
    parseExponent (c :: cs) =
      if c.toNat = 101 ∨ c.toNat = 69 then
        match cs with
        | [] => none
        | sg :: ds =>
          if sg.toNat = 45 then
            match takeDigits ds 0 0 with
            | (_, 0, _) => none
            | (e, _ + 1, rest) => some (-(e : Int), rest)
          else if sg.toNat = 43 then
            match takeDigits ds 0 0 with
            | (_, 0, _) => none
            | (e, _ + 1, rest) => some ((e : Int), rest)
          else
            match takeDigits cs 0 0 with
            | (_, 0, _) => none
            | (e, _ + 1, rest) => some ((e : Int), rest)
      else some (0, c :: cs) := rfl

theorem parseExponent_consumed (s : List Char) (e : Int) (rest : List Char)
    (h : parseExponent s = some (e, rest)) :
    rest = s ∨ ∃ u c, s = u ++ c :: rest ∧ c ≠ backtick := by
  cases s with
  | nil =>
    simp only [parseExponent, Option.some.injEq, Prod.mk.injEq] at h
    exact Or.inl h.2.symm
  | cons c cs =>
    rw [parseExponent_cons] at h
    split at h
    · cases cs with
      | nil => simp at h
      | cons sg ds =>
        simp only at h
        right
        split at h
        · rcases ht : takeDigits ds 0 0 with ⟨e1, k1, r1⟩
          rw [ht] at h
          cases k1 with
          | zero => simp at h
          | succ k1 =>
            simp only [Option.some.injEq, Prod.mk.injEq] at h
            rw [← h.2]
            exact consumed_of_suffix [c, sg] rfl (takeDigits_nonempty_consumed _ _ _ _ ht)
        · split at h
          · rcases ht : takeDigits ds 0 0 with ⟨e1, k1, r1⟩
            rw [ht] at h
            cases k1 with
            | zero => simp at h
            | succ k1 =>
              simp only [Option.some.injEq, Prod.mk.injEq] at h
              rw [← h.2]
              exact consumed_of_suffix [c, sg] rfl (takeDigits_nonempty_consumed _ _ _ _ ht)
          · rcases ht : takeDigits (sg :: ds) 0 0 with ⟨e1, k1, r1⟩
            rw [ht] at h
            cases k1 with
            | zero => simp at h
            | succ k1 =>
              simp only [Option.some.injEq, Prod.mk.injEq] at h
              rw [← h.2]
              exact consumed_of_suffix [c] rfl (takeDigits_nonempty_consumed _ _ _ _ ht)
    · simp only [Option.some.injEq, Prod.mk.injEq] at h
      exact Or.inl h.2.symm

theorem parseUnsigned_consumed (s : List Char) (m : Nat) (e : Int) (rest : List Char)
    (h : parseUnsigned s = some (m, e, rest)) :
    ∃ u c, s = u ++ c :: rest ∧ c ≠ backtick := by
  cases s with
  | nil => cases h
  | cons c cs =>
    unfold parseUnsigned at h
    dsimp only at h
    cases hd : digitVal c with
    | none => rw [hd] at h; cases h
    | some d =>
      rw [hd] at h
      simp only at h
      have hint : ∃ u x, c :: cs = u ++ x ::
          (if d = 0 then ((0 : Nat), (1 : Nat), cs) else takeDigits cs d 1).2.2 ∧
          x ≠ backtick := by
        split
        · exact ⟨[], c, rfl, digit_ne_backtick hd⟩
        · rcases ht : takeDigits cs d 1 with ⟨m1, k1, r1⟩
          rcases takeDigits_consumed cs d 1 _ _ _ ht with ⟨_, hr⟩ | ⟨_, hc⟩
          · exact ⟨[], c, by rw [hr]; rfl, digit_ne_backtick hd⟩
          · exact consumed_of_suffix [c] rfl hc
      generalize (if d = 0 then ((0 : Nat), (1 : Nat), cs) else takeDigits cs d 1) = ip at h hint
      cases hf : parseFraction ip.1 ip.2.2 with
      | none => rw [hf] at h; cases h
      | some x =>
        obtain ⟨m2, k2, r2⟩ := x
        rw [hf] at h
        simp only at h
        cases he : parseExponent r2 with
        | none => rw [he] at h; cases h
        | some y =>
          obtain ⟨e3, r3⟩ := y
          rw [he] at h
          simp only [Option.some.injEq, Prod.mk.injEq] at h
          rw [← h.2.2]
          exact consumed_trans (consumed_trans hint (parseFraction_consumed _ _ _ _ _ hf))
            (parseExponent_consumed _ _ _ he)

theorem parseNumber_consumed (s : List Char) (v : JsVal) (rest : List Char)
    (h : parseNumber s = some (v, rest)) : ∃ u c, s = u ++ c :: rest ∧ c ≠ backtick := by
  cases s with
  | nil => cases h
  | cons c cs =>
    unfold parseNumber at h
    dsimp only at h
    split at h
    · cases hu : parseUnsigned cs with
      | none => rw [hu] at h; cases h
      | some x =>
        obtain ⟨m, e, r⟩ := x
        rw [hu] at h
        simp only [Option.some.injEq, Prod.mk.injEq] at h
        rw [← h.2]
        exact consumed_of_suffix [c] rfl (parseUnsigned_consumed _ _ _ _ hu)
    · cases hu : parseUnsigned (c :: cs) with
      | none => rw [hu] at h; cases h
      | some x =>
        obtain ⟨m, e, r⟩ := x
        rw [hu] at h
        simp only [Option.some.injEq, Prod.mk.injEq] at h
        rw [← h.2]
        exact parseUnsigned_consumed _ _ _ _ hu

theorem skipWs_suffix (s : List Char) : ∃ v, s = v ++ skipWs s :=
  ⟨s.takeWhile isJsonWs, (List.takeWhile_append_dropWhile isJsonWs s).symm⟩

theorem parseElems_consumed (pv : List Char → Option (JsVal × List Char))
    (hpv : ∀ s v r, pv s = some (v, r) → ∃ u, s = u ++ r)
    (n : Nat) (s : List Char) (acc items : List JsVal) (rest : List Char)
    (h : parseElems pv n s acc = some (items, rest)) :
    ∃ u c, s = u ++ c :: rest ∧ c ≠ backtick := by
  induction n generalizing s acc with
  | zero => cases h
  | succ n ih =>
    unfold parseElems at h
    cases hp : pv s with
    | none => rw [hp] at h; cases h
    | some x =>
      obtain ⟨v, r1⟩ := x
      rw [hp] at h
      simp only at h
      obtain ⟨u1, hu1⟩ := hpv s v r1 hp
      obtain ⟨u2, hu2⟩ := skipWs_suffix r1
      cases hs : skipWs r1 with
      | nil => rw [hs] at h; cases h
      | cons c t =>
        rw [hs] at h hu2
        simp only at h
        have hsuf : s = (u1 ++ u2) ++ c :: t := by rw [hu1, hu2]; simp
        split at h
        · obtain ⟨u3, hu3⟩ := skipWs_suffix t
          have := ih _ _ h
          refine consumed_of_suffix (u1 ++ u2 ++ c :: u3) ?_ this
          rw [hsuf]
          conv => lhs; rw [hu3]
          simp
        · split at h
          · next hq =>
            simp only [Option.some.injEq, Prod.mk.injEq] at h
            rw [← h.2]
            exact ⟨u1 ++ u2, c, hsuf, ne_backtick_of_toNat hq (by decide)⟩
          · cases h

theorem parseMembers_consumed (pv : List Char → Option (JsVal × List Char))
    (hpv : ∀ s v r, pv s = some (v, r) → ∃ u, s = u ++ r)
    (n : Nat) (s : List Char) (acc ms : List (String × JsVal)) (rest : List Char)
    (h : parseMembers pv n s acc = some (ms, rest)) :
    ∃ u c, s = u ++ c :: rest ∧ c ≠ backtick := by
  induction n generalizing s acc with
  | zero => cases h
  | succ n ih =>
    unfold parseMembers at h
    cases hk : parseString s with
    | none => rw [hk] at h; cases h
    | some x =>
      obtain ⟨key, r1⟩ := x
      rw [hk] at h
      simp only at h
      obtain ⟨u1, c1, hu1, _⟩ := parseString_consumed s key r1 hk
      obtain ⟨u2, hu2⟩ := skipWs_suffix r1
      cases hs : skipWs r1 with
      | nil => rw [hs] at h; cases h
      | cons c t =>
        rw [hs] at h hu2
        simp only at h
        split at h
        · obtain ⟨u3, hu3⟩ := skipWs_suffix t
          cases hp : pv (skipWs t) with
          | none => rw [hp] at h; cases h
          | some y =>
            obtain ⟨v, r2⟩ := y
            rw [hp] at h
            simp only at h
            obtain ⟨u4, hu4⟩ := hpv _ v r2 hp
            obtain ⟨u5, hu5⟩ := skipWs_suffix r2
            cases hs2 : skipWs r2 with
            | nil => rw [hs2] at h; cases h
            | cons d w =>
              rw [hs2] at h hu5
              simp only at h
              have hsuf : s = (u1 ++ c1 :: u2 ++ c :: u3 ++ u4 ++ u5) ++ d :: w := by
                rw [hu1, hu2]
                conv => lhs; rw [hu3, hu4, hu5]
                simp
              split at h
              · obtain ⟨u6, hu6⟩ := skipWs_suffix w
                have := ih _ _ h
                refine consumed_of_suffix
                  ((u1 ++ c1 :: u2 ++ c :: u3 ++ u4 ++ u5) ++ d :: u6) ?_ this
                rw [hsuf]
                conv => lhs; rw [hu6]
                simp
              · split at h
                · next hq =>
                  simp only [Option.some.injEq, Prod.mk.injEq] at h
                  rw [← h.2]
                  exact ⟨_, d, hsuf, ne_backtick_of_toNat hq (by decide)⟩
                · cases h
        · cases h

theorem parseValue_succ_cons (n : Nat) (c : Char) (cs : List Char) :
    parseValue (n + 1) (c :: cs) =
      if c.toNat = 123 then
        match skipWs cs with
        | [] => none
        | d :: t =>
          if d.toNat = 125 then some (.obj [], t)
          else
            match parseMembers (parseValue n) (cs.length) (d :: t) [] with
            | some (ms, rest) => some (.obj ms, rest)
            | none => none
      else if c.toNat = 91 then
        match skipWs cs with
        | [] => none
        | d :: t =>
          if d.toNat = 93 then some (.arr [], t)
          else
            match parseElems (parseValue n) (cs.length) (d :: t) [] with
            | some (items, rest) => some (.arr items, rest)
            | none => none
      else if c.toNat = 34 then
        match parseString (c :: cs) with
        | some (text, rest) => some (.str text, rest)
        | none => none
      else if "true".data.isPrefixOf (c :: cs) then some (.bool true, cs.drop 3)
      else if "false".data.isPrefixOf (c :: cs) then some (.bool false, cs.drop 4)
      else if "null".data.isPrefixOf (c :: cs) then some (.null, cs.drop 3)
      else parseNumber (c :: cs) := rfl

theorem literal_consumed (lit : List Char) (x : Char) (c : Char) (cs : List Char)
    (hx : x ≠ backtick) (h : (lit ++ [x]).isPrefixOf (c :: cs) = true) :
    ∃ u d, c :: cs = u ++ d :: cs.drop lit.length ∧ d ≠ backtick := by
  rw [List.isPrefixOf_iff_prefix] at h
  obtain ⟨t, ht⟩ := h
  refine ⟨lit, x, ?_, hx⟩
  rw [← ht]
  have hl : (lit ++ [x] ++ t).drop (lit.length + 1) = t := by
    have : (lit ++ [x]).length = lit.length + 1 := by simp
    rw [← this, List.drop_left]
  rw [ht] at hl
  simp only [List.drop_succ_cons] at hl
  rw [hl]
  simp

theorem parseValue_consumed (n : Nat) (s : List Char) (v : JsVal) (rest : List Char)
    (h : parseValue n s = some (v, rest)) : ∃ u c, s = u ++ c :: rest ∧ c ≠ backtick := by
  induction n generalizing s v rest with
  | zero => cases s <;> cases h
  | succ n ih =>
    have hpv : ∀ s v r, parseValue n s = some (v, r) → ∃ u, s = u ++ r := by
      intro s v r hs
      obtain ⟨u, c, e, _⟩ := ih s v r hs
      exact ⟨u ++ [c], by rw [e]; simp⟩
    cases s with
    | nil => cases h
    | cons c cs =>
      rw [parseValue_succ_cons] at h
      split at h
      · obtain ⟨w, hw⟩ := skipWs_suffix cs
        cases hs : skipWs cs with
        | nil => rw [hs] at h; cases h
        | cons d t =>
          rw [hs] at h hw
          simp only at h
          split at h
          · next hq =>
            simp only [Option.some.injEq, Prod.mk.injEq] at h
            rw [← h.2]
            exact ⟨c :: w, d, by rw [hw]; rfl, ne_backtick_of_toNat hq (by decide)⟩
          · cases hm : parseMembers (parseValue n) cs.length (d :: t) [] with
            | none => rw [hm] at h; cases h
            | some x =>
              obtain ⟨ms, r⟩ := x
              rw [hm] at h
              simp only [Option.some.injEq, Prod.mk.injEq] at h
              rw [← h.2]
              exact consumed_of_suffix (c :: w) (by rw [hw]; rfl)
                (parseMembers_consumed _ hpv _ _ _ _ _ hm)
      · split at h
        · obtain ⟨w, hw⟩ := skipWs_suffix cs
          cases hs : skipWs cs with
          | nil => rw [hs] at h; cases h
          | cons d t =>
            rw [hs] at h hw
            simp only at h
            split at h
            · next hq =>
              simp only [Option.some.injEq, Prod.mk.injEq] at h
              rw [← h.2]
              exact ⟨c :: w, d, by rw [hw]; rfl, ne_backtick_of_toNat hq (by decide)⟩
            · cases hm : parseElems (parseValue n) cs.length (d :: t) [] with
              | none => rw [hm] at h; cases h
              | some x =>
                obtain ⟨ms, r⟩ := x
                rw [hm] at h
                simp only [Option.some.injEq, Prod.mk.injEq] at h
                rw [← h.2]
                exact consumed_of_suffix (c :: w) (by rw [hw]; rfl)
                  (parseElems_consumed _ hpv _ _ _ _ _ hm)
        · split at h
          · cases hp : parseString (c :: cs) with
            | none => rw [hp] at h; cases h
            | some x =>
              obtain ⟨text, r⟩ := x
              rw [hp] at h
              simp only [Option.some.injEq, Prod.mk.injEq] at h
              rw [← h.2]
              exact parseString_consumed _ _ _ hp
          · split at h
            · next hq =>
              simp only [Option.some.injEq, Prod.mk.injEq] at h
              rw [← h.2]
              exact literal_consumed ['t', 'r', 'u'] 'e' c cs (by decide) hq
            · split at h
              · next hq =>
                simp only [Option.some.injEq, Prod.mk.injEq] at h
                rw [← h.2]
                exact literal_consumed ['f', 'a', 'l', 's'] 'e' c cs (by decide) hq
              · split at h
                · next hq =>
                  simp only [Option.some.injEq, Prod.mk.injEq] at h
                  rw [← h.2]
                  exact literal_consumed ['n', 'u', 'l'] 'l' c cs (by decide) hq
                · exact parseNumber_consumed _ _ _ h

/-- A text that `JSON.parse` accepts does not end in a backtick. -/
theorem jsonParse_last_ne_backtick (j : String) (v : JsVal) (h : jsonParse j = some v) :
    j.data.getLast? ≠ some backtick := by
  unfold jsonParse at h
  cases hp : parseValue (j.length + 1) (skipWs j.data) with
  | none => rw [hp] at h; cases h
  | some x =>
    obtain ⟨v1, rest⟩ := x
    rw [hp] at h
    simp only at h
    split at h
    · next hempty =>
      obtain ⟨u, c, e, hc⟩ := parseValue_consumed _ _ _ _ hp
      obtain ⟨w, hw⟩ := skipWs_suffix j.data
      have hj : j.data = (w ++ u) ++ c :: rest := by rw [hw, e]; simp
      have hall : ∀ x ∈ rest, isJsonWs x = true := by
        have : skipWs rest = [] := by simpa using hempty
        unfold skipWs at this
        rw [List.dropWhile_eq_nil_iff] at this
        exact this
      rw [hj, List.getLast?_append]
      cases hr : rest.getLast? with
      | none =>
        have : rest = [] := by
          cases rest with
          | nil => rfl
          | cons a t => simp [List.getLast?_cons] at hr
        subst this
        intro hcontra
        exact hc (Option.some.inj hcontra)
      | some z =>
        have hz : z ∈ rest := List.mem_of_getLast?_eq_some hr
        have hzw := hall z hz
        have : (c :: rest).getLast? = some z := by
          cases rest with
          | nil => cases hr
          | cons a t => rw [List.getLast?_cons_cons]; exact hr
        rw [this]
        intro hcontra
        have hzb : z = backtick := Option.some.inj hcontra
        rw [hzb] at hzw
        revert hzw
        decide
    · cases h

/-- The two fences are unwrapped around a text without three backticks in a row that
does not end in a backtick. -/
theorem cleanResponse_fenced (p j s : String)
    (hp : jsIncludes p "```" = false)
    (hj : jsIncludes j "```" = false)
    (hjb : j.data.getLast? ≠ some backtick) :
    (List.isPrefixOf "`json".data s.data = false →
      List.isPrefixOf "``json".data s.data = false →
      cleanResponse (jsTrim (p ++ "```json" ++ j ++ "```" ++ s)) = .ok (jsTrim j) ∧
      parseCompletion (completionOf (p ++ "```json" ++ j ++ "```" ++ s)) =
        parseCompletion (completionOf j)) ∧
    (p.data.getLast? ≠ some backtick →
      jsIncludes (p ++ "```" ++ j ++ "```" ++ s) "```json" = false →
      cleanResponse (jsTrim (p ++ "```" ++ j ++ "```" ++ s)) = .ok (jsTrim j) ∧
      parseCompletion (completionOf (p ++ "```" ++ j ++ "```" ++ s)) =
        parseCompletion (completionOf j)) ∧
    cleanResponse (jsTrim j) = .ok (jsTrim j) := by
  have hp' : findSep [backtick, backtick, backtick] p.data = none := by
    unfold jsIncludes at hp
    rw [fence_data] at hp
    cases h : findSep [backtick, backtick, backtick] p.data with
    | none => rfl
    | some x => rw [h] at hp; cases hp
  have hj' : findSep [backtick, backtick, backtick] j.data = none := by
    unfold jsIncludes at hj
    rw [fence_data] at hj
    cases h : findSep [backtick, backtick, backtick] j.data with
    | none => rfl
    | some x => rw [h] at hj; cases hj
  have hpd : findSep [backtick, backtick, backtick] (p.data.dropWhile isJsWhitespace) = none := by
    have h := List.takeWhile_append_dropWhile isJsWhitespace p.data
    rw [← h] at hp'
    exact findSep_none_of_append_left _ _ _ hp'
  have hplain : cleanResponse (jsTrim j) = .ok (jsTrim j) :=
    cleanResponse_plain (jsTrim j) (findSep_trimChars_none _ _ hj')
  have hpc : ∀ reply : String, cleanResponse (jsTrim reply) = .ok (jsTrim j) →
      parseCompletion (completionOf reply) = parseCompletion (completionOf j) := by
    intro reply h
    have e1 : completionContent (completionOf reply) = .ok (.str reply) := rfl
    have e2 : completionContent (completionOf j) = .ok (.str j) := rfl
    simp only [parseCompletion, e1, e2, bind, Except.bind, callTrim, h, hplain]
  refine ⟨?_, ?_, hplain⟩
  · intro hs1 hs2
    have hclean : cleanResponse (jsTrim (p ++ "```json" ++ j ++ "```" ++ s)) =
        .ok (jsTrim j) := by
      apply cleanResponse_json _ (p.data.dropWhile isJsWhitespace) j.data
        ((s.data.reverse.dropWhile isJsWhitespace).reverse) _ hpd hj' hjb
        (isPrefixOf_trimEnd _ _ hs1) (isPrefixOf_trimEnd _ _ hs2)
      have := trimChars_wrapped p.data
        (backtick :: backtick :: backtick :: 'j' :: 's' :: 'o' :: 'n' ::
          (j.data ++ [backtick, backtick, backtick])) s.data backtick backtick rfl
        (by decide)
        (getLast?_fence [backtick, backtick, backtick, 'j', 's', 'o', 'n'] j.data) (by decide)
      simp only [jsTrim, String.data_append, jsonFence_data, fence_data]
      simpa using this
    exact ⟨hclean, hpc _ hclean⟩
  · intro hpb hnj
    have hclean : cleanResponse (jsTrim (p ++ "```" ++ j ++ "```" ++ s)) = .ok (jsTrim j) := by
      have htrim := trimChars_wrapped p.data
        (backtick :: backtick :: backtick :: (j.data ++ [backtick, backtick, backtick]))
        s.data backtick backtick rfl (by decide)
        (getLast?_fence [backtick, backtick, backtick] j.data) (by decide)
      have hnj' : findSep [backtick, backtick, backtick, 'j', 's', 'o', 'n']
          (jsTrim (p ++ "```" ++ j ++ "```" ++ s)).data = none := by
        unfold jsIncludes at hnj
        rw [jsonFence_data] at hnj
        apply findSep_trimChars_none
        cases h : findSep [backtick, backtick, backtick, 'j', 's', 'o', 'n']
            (p ++ "```" ++ j ++ "```" ++ s).data with
        | none => rfl
        | some x => rw [h] at hnj; cases hnj
      apply cleanResponse_bare _ (p.data.dropWhile isJsWhitespace) j.data
        ((s.data.reverse.dropWhile isJsWhitespace).reverse) _ hnj' hpd
        (getLast?_dropWhile _ _ _ hpb) hj' hjb
      simp only [jsTrim, String.data_append, fence_data]
      simpa using htrim
    exact ⟨hclean, hpc _ hclean⟩


/-- The events of a run whose results update was carried out: the four events up to the
`'completed'` write, then the call of `notifyDoctors` and what follows it. -/
theorem processRecording_events_after_results (w : World) (i : Nat) (path : String)
    (r : Run) (t : String) (p : ResultParams)
    (hP : w.acceptProcessing = true) (hQ : w.acceptPatientQuery = true)
    (hT : w.transcribe path = .ok t)
    (hp : resultParams w t (analysisOf w t (patientInfoIn r.store.recordings i)) = .ok p)
    (hR : w.acceptResults = true) (hr : riskScoreCheck p.risk_score = true)
    (hl : priorityLevelCheck p.priority_level = true) :
    ∃ rest, runEvents w i path r =
      [Event.statusSet i "processing", Event.transcribeCall path,
        Event.analyzeCall t (patientInfoIn r.store.recordings i),
        Event.statusSet i "completed", Event.notifyCall i] ++ rest := by
  unfold runEvents
  rw [processRecording_results w i path r t p hP hQ hT hp hR hr hl]
  cases hF : fanoutAccepted w r.store.users with
  | true =>
    obtain ⟨h1, h2, _⟩ := notifyDoctors_ok w i p.llm_summary
      { store := { r.store with recordings := setResults p "completed" i r.store.recordings },
        log := r.log ++ [Event.statusSet i "processing", Event.transcribeCall path,
          Event.analyzeCall t (patientInfoIn r.store.recordings i),
          Event.statusSet i "completed"] } hF
    refine ⟨[Event.statusSet i "notified"], ?_⟩
    unfold Js.tryCatch
    split
    · next a r1 heq =>
      rw [heq] at h2
      simp only at h2
      rw [h2]
      simp
    · next e r1 heq => rw [heq] at h1; cases h1
  | false =>
    obtain ⟨⟨e, h1⟩, h2, _⟩ := notifyDoctors_fail w i p.llm_summary
      { store := { r.store with recordings := setResults p "completed" i r.store.recordings },
        log := r.log ++ [Event.statusSet i "processing", Event.transcribeCall path,
          Event.analyzeCall t (patientInfoIn r.store.recordings i),
          Event.statusSet i "completed"] } hF
    unfold Js.tryCatch
    split
    · next a r1 heq => rw [heq] at h1; cases h1
    · next e r1 heq =>
      rw [heq] at h2
      simp only at h2
      cases hE : w.acceptError with
      | true =>
        refine ⟨[Event.statusSet i "error"], ?_⟩
        simp [updateStatus, statusCheck, h2]
      | false =>
        refine ⟨[], ?_⟩
        simp [updateStatus, h2]

/-! ## Lemmas on whole runs, the fan-out and the upload -/

theorem applyStmts_status (i : Nat) (s : String) (rows : List RecordingRow) :
    applyStmts i [RecStmt.status s] rows = setStatus s i rows := by
  simp [applyStmts, setStatus, stepRow]

theorem applyStmts_results (i : Nat) (p : ResultParams) (rows : List RecordingRow) :
    applyStmts i [RecStmt.results p] rows = setResults p "completed" i rows := by
  simp [applyStmts, setResults, stepRow]

theorem applyStmts_cons (i : Nat) (op op2 : RecStmt) (ops : List RecStmt)
    (rows : List RecordingRow) :
    applyStmts i (op :: op2 :: ops) rows = applyStmts i (op2 :: ops) (applyStmts i [op] rows) := by
  simp [applyStmts, List.map_map, Function.comp]

theorem applyStmts_nil (i : Nat) (rows : List RecordingRow) : applyStmts i [] rows = rows := by
  simp [applyStmts]

theorem stmtOfEvent_processing (p : Option ResultParams) (j : Nat) :
    stmtOfEvent p (Event.statusSet j "processing") = some (RecStmt.status "processing") := by
  simp [stmtOfEvent]

theorem stmtOfEvent_error (p : Option ResultParams) (j : Nat) :
    stmtOfEvent p (Event.statusSet j "error") = some (RecStmt.status "error") := by
  simp [stmtOfEvent]

theorem stmtOfEvent_notified (p : Option ResultParams) (j : Nat) :
    stmtOfEvent p (Event.statusSet j "notified") = some (RecStmt.status "notified") := by
  simp [stmtOfEvent]

theorem stmtOfEvent_completed (p : ResultParams) (j : Nat) :
    stmtOfEvent (some p) (Event.statusSet j "completed") = some (RecStmt.results p) := by
  simp [stmtOfEvent]

theorem notifyDoctors_users (w : World) (i : Nat) (s : JsVal) (r : Run) :
    (notifyDoctors w i s r).2.store.users = r.store.users := by
  unfold notifyDoctors
  simp only [Js.bind, emit, Js.tryCatch, Js.bind_eq, selectAvailableDoctors]
  cases hq : w.acceptDoctorQuery with
  | false => simp [Js.throw]
  | true =>
    simp only [if_true]
    have hf := insertAll_frame w i (availableDoctors r.store.users)
      { store := r.store, log := r.log ++ [Event.notifyCall i] }
    rcases hx : insertAll w i (availableDoctors r.store.users)
      { store := r.store, log := r.log ++ [Event.notifyCall i] } with ⟨res, r2⟩
    rw [hx] at hf
    simp only at hf
    cases res with
    | error e => simp [Js.throw, hf.2.2]
    | ok u =>
      cases hn : w.acceptNotified <;> simp [updateStatus, statusCheck, Js.throw, hf.2.2]

theorem tryCatch_notify_ok (w : World) (i : Nat) (s : JsVal) (r : Run)
    (h : fanoutAccepted w r.store.users = true) :
    (Js.tryCatch (notifyDoctors w i s) (fun _ => updateStatus w.acceptError "error" i) r).2 =
      (notifyDoctors w i s r).2 := by
  have ho := (notifyDoctors_ok w i s r h).1
  unfold Js.tryCatch
  rcases hx : notifyDoctors w i s r with ⟨res, r2⟩
  rw [hx] at ho
  simp only at ho
  subst ho
  rfl

theorem tryCatch_notify_fail (w : World) (i : Nat) (s : JsVal) (r : Run)
    (h : fanoutAccepted w r.store.users = false) :
    (Js.tryCatch (notifyDoctors w i s) (fun _ => updateStatus w.acceptError "error" i) r).2 =
      (updateStatus w.acceptError "error" i (notifyDoctors w i s r).2).2 := by
  obtain ⟨e, he⟩ := (notifyDoctors_fail w i s r h).1
  unfold Js.tryCatch
  rcases hx : notifyDoctors w i s r with ⟨res, r2⟩
  rw [hx] at he
  simp only at he
  subst he
  rfl

theorem notify_tail_state (w : World) (i : Nat) (s : JsVal) (r : Run) :
    (Js.tryCatch (notifyDoctors w i s) (fun _ => updateStatus w.acceptError "error" i) r).2.log =
      r.log ++ Event.notifyCall i ::
        (if fanoutAccepted w r.store.users then [Event.statusSet i "notified"]
         else errorTail w i) ∧
    (Js.tryCatch (notifyDoctors w i s)
        (fun _ => updateStatus w.acceptError "error" i) r).2.store.recordings =
      (if fanoutAccepted w r.store.users then setStatus "notified" i r.store.recordings
       else if w.acceptError then setStatus "error" i r.store.recordings
       else r.store.recordings) ∧
    (Js.tryCatch (notifyDoctors w i s)
        (fun _ => updateStatus w.acceptError "error" i) r).2.store.users = r.store.users := by
  have h4 := notifyDoctors_users w i s r
  cases hF : fanoutAccepted w r.store.users with
  | true =>
    rw [tryCatch_notify_ok w i s r hF]
    obtain ⟨_, h2, h3⟩ := notifyDoctors_ok w i s r hF
    simp [h2, h3, h4]
  | false =>
    rw [tryCatch_notify_fail w i s r hF]
    obtain ⟨_, h2, h3⟩ := notifyDoctors_fail w i s r hF
    cases hE : w.acceptError <;> simp [updateStatus, statusCheck, h2, h3, h4, errorTail, hE]

theorem processRecording_state (w : World) (i : Nat) (path : String) (r : Run) :
    (processRecording w i path r).2.log = r.log ++ pipelineEvents w i path r ∧
    (processRecording w i path r).2.store.recordings =
      applyStmts i ((pipelineEvents w i path r).filterMap
        (stmtOfEvent (runParams w i path r))) r.store.recordings ∧
    (processRecording w i path r).2.store.users = r.store.users := by
  have hpi := patientInfoIn_setStatus "processing" i r.store.recordings
  unfold patientInfoIn at hpi
  cases hP : w.acceptProcessing with
  | false =>
    cases hE : w.acceptError <;>
      simp [pipelineEvents, errorTail, processRecording, processRecordingBody, Js.tryCatch,
        Js.bind_eq, Js.bind, updateStatus, statusCheck, hP, hE, stmtOfEvent_error,
        applyStmts_status, applyStmts_nil]
  | true =>
    cases hQ : w.acceptPatientQuery with
    | false =>
      cases hE : w.acceptError <;>
        simp [pipelineEvents, errorTail, processRecording, processRecordingBody, Js.tryCatch,
          Js.bind_eq, Js.bind, updateStatus, statusCheck, selectPatientInfo, hP, hQ, hE,
          stmtOfEvent_error, stmtOfEvent_processing, applyStmts_status, applyStmts_nil,
          applyStmts_cons]
    | true =>
      cases hT : w.transcribe path with
      | error e =>
        cases hE : w.acceptError <;>
          simp [pipelineEvents, errorTail, processRecording, processRecordingBody,
            Js.tryCatch, Js.bind_eq, Js.bind, updateStatus, statusCheck, selectPatientInfo,
            transcribeAudio, emit, Js.ofExcept, Js.throw, hP, hQ, hT, hE,
            stmtOfEvent_error, stmtOfEvent_processing, applyStmts_status, applyStmts_nil,
            applyStmts_cons, stmtOfEvent]
      | ok t =>
        cases hp : resultParams w t (analysisOf w t (patientInfoIn r.store.recordings i)) with
        | error e =>
          have hp' := hp
          unfold patientInfoIn at hp'
          cases hE : w.acceptError <;>
            simp [pipelineEvents, errorTail, processRecording, processRecordingBody,
              Js.tryCatch, Js.bind_eq, Js.bind, updateStatus, statusCheck, selectPatientInfo,
              transcribeAudio, emit, Js.ofExcept, Js.throw, hP, hQ, hT, hE, hp',
              analyzeWithLLM_eq, hpi, patientInfoIn,
              stmtOfEvent_error, stmtOfEvent_processing, applyStmts_status, applyStmts_nil,
              applyStmts_cons, stmtOfEvent]
        | ok p =>
          have hp' := hp
          unfold patientInfoIn at hp'
          cases hR : resultsAccepted w p with
          | false =>
            have hacc : (w.acceptResults && riskScoreCheck p.risk_score
                && priorityLevelCheck p.priority_level) = false := hR
            cases hE : w.acceptError <;>
              simp [pipelineEvents, errorTail, processRecording, processRecordingBody,
                Js.tryCatch, Js.bind_eq, Js.bind, updateStatus, statusCheck, selectPatientInfo,
                transcribeAudio, emit, Js.ofExcept, Js.throw, hP, hQ, hT, hE, hp',
                analyzeWithLLM_eq, hpi, patientInfoIn, updateResults, hacc, hR,
                stmtOfEvent_error, stmtOfEvent_processing, applyStmts_status, applyStmts_nil,
                applyStmts_cons, stmtOfEvent]
          | true =>
            have hacc : (w.acceptResults = true ∧ riskScoreCheck p.risk_score = true)
                ∧ priorityLevelCheck p.priority_level = true := by
              simpa [resultsAccepted] using hR
            have hrun := processRecording_results w i path r t p hP hQ hT hp hacc.1.1
              hacc.1.2 hacc.2
            have hpar : runParams w i path r = some p := by
              simp [runParams, hT, hp, Except.toOption]
            rw [hrun, hpar]
            obtain ⟨h1, h2, h3⟩ := notify_tail_state w i p.llm_summary
              { store := { r.store with
                  recordings := setResults p "completed" i r.store.recordings },
                log := r.log ++ [Event.statusSet i "processing", Event.transcribeCall path,
                  Event.analyzeCall t (patientInfoIn r.store.recordings i),
                  Event.statusSet i "completed"] }
            rw [h1, h2, h3]
            cases hF : fanoutAccepted w r.store.users <;> cases hE : w.acceptError <;>
              simp [pipelineEvents, errorTail, hP, hQ, hT, hp, hR, hF, hE,
                stmtOfEvent_processing, stmtOfEvent_error, stmtOfEvent_notified,
                stmtOfEvent_completed, applyStmts_status, applyStmts_results,
                applyStmts_cons, applyStmts_nil, stmtOfEvent, setResults_setStatus]

theorem runEvents_eq (w : World) (i : Nat) (path : String) (r : Run) :
    runEvents w i path r = pipelineEvents w i path r := by
  unfold runEvents
  rw [(processRecording_state w i path r).1]
  simp

theorem processRecording_recordings (w : World) (i : Nat) (path : String) (r : Run) :
    (processRecording w i path r).2.store.recordings =
      applyStmts i (recordingStmts w i path r) r.store.recordings := by
  unfold recordingStmts
  rw [runEvents_eq]
  exact (processRecording_state w i path r).2.1

theorem insertAll_notifications (w : World) (i : Nat) (ds : List UserRow) (r : Run) :
    ∃ new, (insertAll w i ds r).2.store.notifications = r.store.notifications ++ new ∧
      (∀ n ∈ new, n.recording_id = i ∧ n.notification_type = "both") ∧
      ((∀ d ∈ ds, w.acceptInsert d.id = true) →
        new.map (fun n => n.doctor_id) = ds.map (fun d => d.id)) := by
  induction ds generalizing r with
  | nil => exact ⟨[], by simp [insertAll, Js.pure], by simp, by simp⟩
  | cons d rest ih =>
    unfold insertAll
    simp only [Js.bind, insertNotification]
    cases hd : w.acceptInsert d.id with
    | false =>
      refine ⟨[], by simp, by simp, ?_⟩
      intro h
      have := h d (List.mem_cons_self _ _)
      rw [hd] at this
      cases this
    | true =>
      simp only [notificationTypeCheck, Bool.true_and]
      obtain ⟨new, h1, h2, h3⟩ := ih
        { r with store := { r.store with
            notifications := r.store.notifications ++
              [{ id := nextId (r.store.notifications.map (fun n => n.id))
                 recording_id := i
                 doctor_id := d.id
                 notification_type := "both"
                 sent_at := w.sentAt d.id }] } }
      refine ⟨{ id := nextId (r.store.notifications.map (fun n => n.id))
                recording_id := i
                doctor_id := d.id
                notification_type := "both"
                sent_at := w.sentAt d.id } :: new, ?_, ?_, ?_⟩
      · simpa using h1
      · intro n hn
        rcases List.mem_cons.mp hn with rfl | hn
        · exact ⟨rfl, rfl⟩
        · exact h2 n hn
      · intro h
        simp only [List.map_cons, List.cons.injEq, true_and]
        exact h3 (fun x hx => h x (List.mem_cons_of_mem _ hx))

theorem notifyDoctors_notifications (w : World) (i : Nat) (s : JsVal) (r : Run) :
    ∃ new, (notifyDoctors w i s r).2.store.notifications = r.store.notifications ++ new ∧
      (∀ n ∈ new, n.recording_id = i ∧ n.notification_type = "both") ∧
      (fanoutAccepted w r.store.users = true →
        new.map (fun n => n.doctor_id) = (availableDoctors r.store.users).map (fun d => d.id)) := by
  unfold notifyDoctors
  simp only [Js.bind, emit, Js.tryCatch, Js.bind_eq, selectAvailableDoctors]
  cases hq : w.acceptDoctorQuery with
  | false =>
    refine ⟨[], by simp [Js.throw], by simp, ?_⟩
    intro h
    simp [fanoutAccepted, hq] at h
  | true =>
    simp only [if_true]
    obtain ⟨new, h1, h2, h3⟩ := insertAll_notifications w i (availableDoctors r.store.users)
      { store := r.store, log := r.log ++ [Event.notifyCall i] }
    refine ⟨new, ?_, h2, ?_⟩
    · rcases hx : insertAll w i (availableDoctors r.store.users)
        { store := r.store, log := r.log ++ [Event.notifyCall i] } with ⟨res, r2⟩
      rw [hx] at h1
      simp only at h1
      cases res with
      | error e => simpa [Js.throw] using h1
      | ok u =>
        cases hn : w.acceptNotified <;> simpa [updateStatus, statusCheck, Js.throw] using h1
    · intro h
      simp only [fanoutAccepted, Bool.and_eq_true, List.all_eq_true] at h
      exact h3 h.1.2

theorem notify_tail_notifications (w : World) (i : Nat) (s : JsVal) (r : Run) :
    (Js.tryCatch (notifyDoctors w i s)
        (fun _ => updateStatus w.acceptError "error" i) r).2.store.notifications =
      (notifyDoctors w i s r).2.store.notifications := by
  unfold Js.tryCatch
  rcases notifyDoctors w i s r with ⟨res, r2⟩
  cases res with
  | ok u => rfl
  | error e => cases hE : w.acceptError <;> simp [updateStatus, statusCheck]

theorem processRecording_notifications (w : World) (i : Nat) (path : String) (r : Run) :
    ∃ new, (processRecording w i path r).2.store.notifications = r.store.notifications ++ new ∧
      (∀ n ∈ new, n.recording_id = i ∧ n.notification_type = "both") ∧
      (Event.statusSet i "completed" ∉ pipelineEvents w i path r → new = []) ∧
      (Event.statusSet i "notified" ∈ pipelineEvents w i path r →
        new.map (fun n => n.doctor_id) =
          (availableDoctors r.store.users).map (fun d => d.id)) := by
  have hpi := patientInfoIn_setStatus "processing" i r.store.recordings
  unfold patientInfoIn at hpi
  cases hP : w.acceptProcessing with
  | false =>
    refine ⟨[], ?_, by simp, by simp, ?_⟩ <;>
    cases hE : w.acceptError <;>
      simp [pipelineEvents, errorTail, processRecording, processRecordingBody, Js.tryCatch,
        Js.bind_eq, Js.bind, updateStatus, statusCheck, hP, hE]
  | true =>
    cases hQ : w.acceptPatientQuery with
    | false =>
      refine ⟨[], ?_, by simp, by simp, ?_⟩ <;>
      cases hE : w.acceptError <;>
        simp [pipelineEvents, errorTail, processRecording, processRecordingBody, Js.tryCatch,
          Js.bind_eq, Js.bind, updateStatus, statusCheck, selectPatientInfo, hP, hQ, hE]
    | true =>
      cases hT : w.transcribe path with
      | error e =>
        refine ⟨[], ?_, by simp, by simp, ?_⟩ <;>
        cases hE : w.acceptError <;>
          simp [pipelineEvents, errorTail, processRecording, processRecordingBody,
            Js.tryCatch, Js.bind_eq, Js.bind, updateStatus, statusCheck, selectPatientInfo,
            transcribeAudio, emit, Js.ofExcept, Js.throw, hP, hQ, hT, hE]
      | ok t =>
        cases hp : resultParams w t (analysisOf w t (patientInfoIn r.store.recordings i)) with
        | error e =>
          have hp' := hp
          unfold patientInfoIn at hp'
          refine ⟨[], ?_, by simp, by simp, ?_⟩ <;>
          cases hE : w.acceptError <;>
            simp [pipelineEvents, errorTail, processRecording, processRecordingBody,
              Js.tryCatch, Js.bind_eq, Js.bind, updateStatus, statusCheck, selectPatientInfo,
              transcribeAudio, emit, Js.ofExcept, Js.throw, hP, hQ, hT, hE, hp', hp,
              analyzeWithLLM_eq, hpi, patientInfoIn]
        | ok p =>
          have hp' := hp
          unfold patientInfoIn at hp'
          cases hR : resultsAccepted w p with
          | false =>
            have hacc : (w.acceptResults && riskScoreCheck p.risk_score
                && priorityLevelCheck p.priority_level) = false := hR
            refine ⟨[], ?_, by simp, by simp, ?_⟩ <;>
            cases hE : w.acceptError <;>
              simp [pipelineEvents, errorTail, processRecording, processRecordingBody,
                Js.tryCatch, Js.bind_eq, Js.bind, updateStatus, statusCheck, selectPatientInfo,
                transcribeAudio, emit, Js.ofExcept, Js.throw, hP, hQ, hT, hE, hp', hp,
                analyzeWithLLM_eq, hpi, patientInfoIn, updateResults, hacc, hR]
          | true =>
            have hacc : (w.acceptResults = true ∧ riskScoreCheck p.risk_score = true)
                ∧ priorityLevelCheck p.priority_level = true := by
              simpa [resultsAccepted] using hR
            have hrun := processRecording_results w i path r t p hP hQ hT hp hacc.1.1
              hacc.1.2 hacc.2
            rw [hrun, notify_tail_notifications]
            obtain ⟨new, h1, h2, h3⟩ := notifyDoctors_notifications w i p.llm_summary
              { store := { r.store with
                  recordings := setResults p "completed" i r.store.recordings },
                log := r.log ++ [Event.statusSet i "processing", Event.transcribeCall path,
                  Event.analyzeCall t (patientInfoIn r.store.recordings i),
                  Event.statusSet i "completed"] }
            refine ⟨new, h1, h2, ?_, ?_⟩
            · simp [pipelineEvents, hP, hQ, hT, hp, hR]
            · intro hn
              apply h3
              cases hF : fanoutAccepted w r.store.users with
              | true => rfl
              | false =>
                exfalso
                revert hn
                cases hE : w.acceptError <;>
                  simp [pipelineEvents, errorTail, hP, hQ, hT, hp, hR, hF, hE]

theorem stepRow_frame (i : Nat) (row : RecordingRow) (op : RecStmt) :
    (stepRow i row op).id = row.id ∧ (stepRow i row op).patient_info = row.patient_info ∧
    (stepRow i row op).urgency_level = row.urgency_level ∧
    (stepRow i row op).emt_id = row.emt_id ∧
    (stepRow i row op).audio_file_path = row.audio_file_path := by
  cases op <;> by_cases h : row.id = i <;> simp [stepRow, h]

theorem foldl_stepRow_frame (i : Nat) (ops : List RecStmt) (row : RecordingRow) :
    (ops.foldl (stepRow i) row).id = row.id ∧
    (ops.foldl (stepRow i) row).patient_info = row.patient_info ∧
    (ops.foldl (stepRow i) row).urgency_level = row.urgency_level ∧
    (ops.foldl (stepRow i) row).emt_id = row.emt_id ∧
    (ops.foldl (stepRow i) row).audio_file_path = row.audio_file_path := by
  induction ops generalizing row with
  | nil => simp
  | cons op rest ih =>
    simp only [List.foldl_cons]
    obtain ⟨h1, h2, h3, h4, h5⟩ := ih (stepRow i row op)
    obtain ⟨g1, g2, g3, g4, g5⟩ := stepRow_frame i row op
    exact ⟨h1.trans g1, h2.trans g2, h3.trans g3, h4.trans g4, h5.trans g5⟩

theorem applyStmts_urgency (i : Nat) (ops : List RecStmt) (rows : List RecordingRow) :
    (applyStmts i ops rows).map (fun row => (row.id, row.urgency_level)) =
      rows.map (fun row => (row.id, row.urgency_level)) := by
  unfold applyStmts
  rw [List.map_map]
  apply List.map_congr_left
  intro row _
  simp [(foldl_stepRow_frame i ops row).1, (foldl_stepRow_frame i ops row).2.2.1]

theorem patientInfoIn_applyStmts (i j : Nat) (ops : List RecStmt) (rows : List RecordingRow) :
    patientInfoIn (applyStmts i ops rows) j = patientInfoIn rows j := by
  unfold patientInfoIn applyStmts
  congr 1
  induction rows with
  | nil => rfl
  | cons row rest ih =>
    simp only [List.map_cons, List.filter_cons, (foldl_stepRow_frame i ops row).1]
    by_cases h : row.id = j
    · simp [h, (foldl_stepRow_frame i ops row).2.1]
      simpa using ih
    · simp [h]
      simpa using ih

theorem pipelineEvents_applyStmts (w : World) (i j : Nat) (path : String) (ops : List RecStmt)
    (r : Run) (l : List Event) (ns : List NotificationRow) :
    pipelineEvents w j path
        { store := { users := r.store.users,
                     recordings := applyStmts i ops r.store.recordings,
                     notifications := ns },
          log := l } =
      pipelineEvents w j path r := by
  simp only [pipelineEvents, patientInfoIn_applyStmts]

theorem runParams_applyStmts (w : World) (i j : Nat) (path : String) (ops : List RecStmt)
    (r : Run) (l : List Event) (ns : List NotificationRow) :
    runParams w j path
        { store := { users := r.store.users,
                     recordings := applyStmts i ops r.store.recordings,
                     notifications := ns },
          log := l } =
      runParams w j path r := by
  simp only [runParams, patientInfoIn_applyStmts]

theorem storedResults_stepRow (i : Nat) (row : RecordingRow) (op : RecStmt) :
    storedResults (stepRow i row op) = storedResults row ∨
      op = RecStmt.results (storedResults (stepRow i row op)) := by
  cases op with
  | status s => left; by_cases h : row.id = i <;> simp [stepRow, storedResults, h]
  | results p =>
    by_cases h : row.id = i
    · right; simp [stepRow, storedResults, h]
    · left; simp [stepRow, h]

theorem storedResults_foldl (i : Nat) (ops : List RecStmt) (row : RecordingRow) :
    storedResults (ops.foldl (stepRow i) row) = storedResults row ∨
      RecStmt.results (storedResults (ops.foldl (stepRow i) row)) ∈ ops := by
  induction ops generalizing row with
  | nil => left; rfl
  | cons op rest ih =>
    simp only [List.foldl_cons]
    rcases ih (stepRow i row op) with h | h
    · rcases storedResults_stepRow i row op with g | g
      · left; rw [h, g]
      · right; rw [h]; rw [← g]; exact List.mem_cons_self _ _
    · right; exact List.mem_cons_of_mem _ h

theorem results_mem_recordingStmts (w : World) (i : Nat) (path : String) (r : Run)
    (p : ResultParams) (h : RecStmt.results p ∈ recordingStmts w i path r) :
    runParams w i path r = some p := by
  unfold recordingStmts at h
  rw [List.mem_filterMap] at h
  obtain ⟨e, _, he⟩ := h
  cases e with
  | transcribeCall a => simp [stmtOfEvent] at he
  | analyzeCall a b => simp [stmtOfEvent] at he
  | notifyCall a => simp [stmtOfEvent] at he
  | statusSet a s =>
    by_cases hs : s = "completed"
    · simp only [stmtOfEvent, hs, if_true] at he
      cases hq : runParams w i path r with
      | none => rw [hq] at he; simp at he
      | some q =>
        rw [hq] at he
        simp only [Option.map_some', Option.some.injEq, RecStmt.results.injEq] at he
        rw [he]
    · simp [stmtOfEvent, hs] at he

theorem lt_nextId (ids : List Nat) (x : Nat) (h : x ∈ ids) : x < nextId ids := by
  unfold nextId
  induction ids with
  | nil => cases h
  | cons a rest ih =>
    simp only [List.foldr_cons]
    rcases List.mem_cons.mp h with rfl | h
    · omega
    · have := ih h
      omega

theorem filter_length_eq_count {α : Type} (f : α → Nat) (l : List α) (a : Nat) :
    (l.filter (fun n => f n = a)).length = (l.map f).count a := by
  induction l with
  | nil => rfl
  | cons x rest ih =>
    by_cases h : f x = a
    · simp [List.filter_cons, h, ih]
    · simp [List.filter_cons, h, ih, List.count_cons]

theorem availableDoctors_ids_nodup (users : List UserRow)
    (h : (users.map (fun u => u.id)).Nodup) :
    ((availableDoctors users).map (fun d => d.id)).Nodup := by
  unfold availableDoctors
  exact List.Nodup.sublist (List.Sublist.map _ (List.filter_sublist _)) h

theorem mem_availableDoctors_of_id (users : List UserRow)
    (h : (users.map (fun u => u.id)).Nodup) (u : UserRow) (hu : u ∈ users)
    (hid : u.id ∈ (availableDoctors users).map (fun d => d.id)) :
    u ∈ availableDoctors users := by
  obtain ⟨d, hd, hdid⟩ := List.mem_map.mp hid
  have hdu : d ∈ users := (List.mem_filter.mp hd).1
  have : d = u := List.inj_on_of_nodup_map h hdu hu hdid
  rw [← this]
  exact hd

theorem statusWrites_pipelineEvents (w : World) (i : Nat) (path : String) (r : Run) :
    statusWrites (pipelineEvents w i path r) ∈
      [[], ["error"], ["processing"], ["processing", "error"], ["processing", "completed"],
        ["processing", "completed", "error"], ["processing", "completed", "notified"]] := by
  cases hE : w.acceptError <;> cases hP : w.acceptProcessing <;>
    cases hQ : w.acceptPatientQuery <;> cases hT : w.transcribe path <;>
    try (simp [pipelineEvents, errorTail, statusWrites, hP, hQ, hT, hE]; done)
  all_goals
    rename_i t
    cases hp : resultParams w t (analysisOf w t (patientInfoIn r.store.recordings i)) <;>
      try (simp [pipelineEvents, errorTail, statusWrites, hP, hQ, hT, hE, hp]; done)
  all_goals
    rename_i q
    cases hR : resultsAccepted w q <;> cases hF : fanoutAccepted w r.store.users <;>
      simp [pipelineEvents, errorTail, statusWrites, hP, hQ, hT, hE, hp, hR, hF]

theorem runNotifications_spec (w : World) (i : Nat) (path : String) (r : Run) :
    (processRecording w i path r).2.store.notifications =
      r.store.notifications ++ runNotifications w i path r ∧
    (∀ n ∈ runNotifications w i path r, n.recording_id = i ∧ n.notification_type = "both") ∧
    (Event.statusSet i "completed" ∉ pipelineEvents w i path r →
      runNotifications w i path r = []) ∧
    (Event.statusSet i "notified" ∈ pipelineEvents w i path r →
      (runNotifications w i path r).map (fun n => n.doctor_id) =
        (availableDoctors r.store.users).map (fun d => d.id)) := by
  obtain ⟨new, h1, h2, h3, h4⟩ := processRecording_notifications w i path r
  have hn : runNotifications w i path r = new := by
    unfold runNotifications
    rw [h1]
    simp
  rw [hn]
  exact ⟨h1, h2, h3, h4⟩

theorem pipelineEvents_of_notified (w : World) (i : Nat) (path : String) (r : Run)
    (h : Event.statusSet i "notified" ∈ pipelineEvents w i path r) :
    fanoutAccepted w r.store.users = true ∧
    ∃ t, pipelineEvents w i path r =
      [Event.statusSet i "processing", Event.transcribeCall path,
        Event.analyzeCall t (patientInfoIn r.store.recordings i),
        Event.statusSet i "completed", Event.notifyCall i, Event.statusSet i "notified"] := by
  revert h
  cases hE : w.acceptError <;> cases hP : w.acceptProcessing <;>
    cases hQ : w.acceptPatientQuery <;> cases hT : w.transcribe path <;>
    try (simp [pipelineEvents, errorTail, hP, hQ, hT, hE]; done)
  all_goals
    rename_i t
    cases hp : resultParams w t (analysisOf w t (patientInfoIn r.store.recordings i)) <;>
      try (simp [pipelineEvents, errorTail, hP, hQ, hT, hE, hp]; done)
  all_goals
    rename_i q
    cases hR : resultsAccepted w q <;> cases hF : fanoutAccepted w r.store.users <;>
      simp [pipelineEvents, errorTail, hP, hQ, hT, hE, hp, hR, hF]

theorem runEvents_applyStmts (w : World) (i : Nat) (path : String) (ops : List RecStmt)
    (r : Run) :
    runEvents w i path
        { store := { r.store with recordings := applyStmts i ops r.store.recordings },
          log := r.log } =
      runEvents w i path r := by
  rw [runEvents_eq, runEvents_eq]
  exact pipelineEvents_applyStmts w i i path ops r r.log r.store.notifications

theorem recordingStmts_applyStmts (w : World) (i : Nat) (path : String) (ops : List RecStmt)
    (r : Run) :
    recordingStmts w i path
        { store := { r.store with recordings := applyStmts i ops r.store.recordings },
          log := r.log } =
      recordingStmts w i path r := by
  unfold recordingStmts
  rw [runEvents_applyStmts]
  have := runParams_applyStmts w i i path ops r r.log r.store.notifications
  rw [this]

theorem uploadHandler_accepted (req : UploadRequest) (path : String) (r : Run)
    (hf : req.file_path = some path) :
    uploadHandler true req r =
      (.ok { response :=
              { status := 201
                body := .obj [("message", .str "Recording uploaded successfully"),
                  ("recording", .obj [
                    ("id", .num (nextId (r.store.recordings.map (fun row => row.id))) 0),
                    ("emt_id", .num req.user_id 0),
                    ("patient_info", optionalText req.patient_info),
                    ("audio_file_path", .str path)])] }
             triggered := some (nextId (r.store.recordings.map (fun row => row.id)), path) },
        { r with store := { r.store with
            recordings := r.store.recordings ++
              [{ id := nextId (r.store.recordings.map (fun row => row.id))
                 emt_id := some req.user_id
                 patient_info := req.patient_info
                 audio_file_path := path }] } }) := by
  simp only [uploadHandler, uploadBody, Js.tryCatch, Js.bind_eq, Js.bind, Js.ofExcept, hf,
    insertRecording, if_true]
  rfl

theorem uploadHandler_rejected (req : UploadRequest) (r : Run) :
    uploadHandler false req r =
      (.ok { response := { status := 500
                           body := .obj [("error", .str "Server error during upload")] }
             triggered := none }, r) := by
  cases hf : req.file_path <;>
    simp [uploadHandler, uploadBody, Js.tryCatch, Js.bind_eq, Js.bind, Js.ofExcept, hf,
      insertRecording, Js.pure_eq, Js.pure]

/-! ## Lemmas on the orders, the routes and the dashboards -/

theorem compare_eq_compare_of_lt_iff {α β : Type} [LinearOrder α] [LinearOrder β]
    (a b : α) (c d : β) (h1 : a < b ↔ c < d) (h2 : b < a ↔ d < c) :
    compare a b = compare c d := by
  rcases lt_trichotomy a b with h | h | h
  · rw [compare_lt_iff_lt.mpr h, compare_lt_iff_lt.mpr (h1.mp h)]
  · have hcd : c = d := by
      rcases lt_trichotomy c d with g | g | g
      · exact absurd (h1.mpr g) (by rw [h]; exact lt_irrefl _)
      · exact g
      · exact absurd (h2.mpr g) (by rw [h]; exact lt_irrefl _)
    rw [compare_eq_iff_eq.mpr h, compare_eq_iff_eq.mpr hcd]
  · rw [compare_gt_iff_gt.mpr h, compare_gt_iff_gt.mpr (h2.mp h)]

theorem numValue_scaled (m e e0 : Int) (h : e0 ≤ e) :
    numValue m e = ((m * 10 ^ (e - e0).toNat : Int) : ℚ) * (10 : ℚ) ^ e0 := by
  unfold numValue
  have hk : ((e - e0).toNat : Int) = e - e0 := Int.toNat_of_nonneg (by omega)
  have he : e = ((e - e0).toNat : Int) + e0 := by omega
  conv_lhs => rw [he]
  rw [zpow_add₀ (by norm_num : (10 : ℚ) ≠ 0), zpow_natCast]
  push_cast
  ring

theorem numCompare_eq (m1 e1 m2 e2 : Int) :
    numCompare m1 e1 m2 e2 = compare (numValue m1 e1) (numValue m2 e2) := by
  unfold numCompare
  rw [numValue_scaled m1 e1 (min e1 e2) (min_le_left _ _),
    numValue_scaled m2 e2 (min e1 e2) (min_le_right _ _)]
  have hc : (0 : ℚ) < (10 : ℚ) ^ (min e1 e2) := zpow_pos (by norm_num) _
  apply compare_eq_compare_of_lt_iff
  · rw [mul_lt_mul_right hc, Int.cast_lt]
  · rw [mul_lt_mul_right hc, Int.cast_lt]

theorem sqlCompare_eq (a b : JsVal) : sqlCompare a b = compare (sqlValue a) (sqlValue b) := by
  unfold sqlCompare sqlValue
  cases numericKey a <;> cases numericKey b
  · exact (compare_eq_iff_eq.mpr rfl).symm
  · exact (compare_lt_iff_lt.mpr (WithBot.bot_lt_coe _)).symm
  · exact (compare_gt_iff_gt.mpr (WithBot.bot_lt_coe _)).symm
  · simp only
    rw [numCompare_eq]
    apply compare_eq_compare_of_lt_iff
    · exact WithBot.coe_lt_coe.symm
    · exact WithBot.coe_lt_coe.symm

theorem transCmp_of_key {α β : Type} [LinearOrder β] (cmp : α → α → Ordering) (f : α → β)
    (h : ∀ a b, cmp a b = compare (f a) (f b)) : Batteries.TransCmp cmp where
  symm x y := by
    rw [h, h]
    rcases lt_trichotomy (f x) (f y) with g | g | g
    · rw [compare_lt_iff_lt.mpr g, compare_gt_iff_gt.mpr g]; rfl
    · rw [compare_eq_iff_eq.mpr g, compare_eq_iff_eq.mpr g.symm]; rfl
    · rw [compare_gt_iff_gt.mpr g, compare_lt_iff_lt.mpr g]; rfl
  le_trans {x y z} h1 h2 := by
    rw [h] at h1 h2 ⊢
    have e1 : f x ≤ f y := not_lt.mp (fun g => h1 (compare_gt_iff_gt.mpr g))
    have e2 : f y ≤ f z := not_lt.mp (fun g => h2 (compare_gt_iff_gt.mpr g))
    intro g
    exact absurd (compare_gt_iff_gt.mp g) (not_lt.mpr (le_trans e1 e2))

theorem termCompare_trans (t : OrderTerm) : Batteries.TransCmp (termCompare t) := by
  cases t
  · exact transCmp_of_key _ (fun v => OrderDual.toDual v.notification.sent_at)
      (fun a b => by
        simp only [termCompare]
        apply compare_eq_compare_of_lt_iff <;> exact Iff.rfl)
  · exact transCmp_of_key _ (fun v => OrderDual.toDual (sqlValue v.risk_score))
      (fun a b => by
        simp only [termCompare]
        rw [sqlCompare_eq]
        apply compare_eq_compare_of_lt_iff <;> exact Iff.rfl)
  · exact transCmp_of_key _ (fun v => sqlValue v.priority_level)
      (fun a b => by simp only [termCompare]; rw [sqlCompare_eq])
  · exact transCmp_of_key _ (fun v => v.notification.sent_at)
      (fun a b => by simp only [termCompare])

theorem rowCompare_trans (ts : List OrderTerm) : Batteries.TransCmp (rowCompare ts) := by
  induction ts with
  | nil =>
    exact { symm := fun _ _ => rfl, le_trans := fun _ _ => by simp [rowCompare] }
  | cons t rest ih =>
    have h1 := termCompare_trans t
    have : rowCompare (t :: rest) = compareLex (termCompare t) (rowCompare rest) := by
      funext a b
      rfl
    rw [this]
    infer_instance

theorem mayPrecede_total (ts : List OrderTerm) : IsTotal NotificationView (mayPrecede ts) where
  total a b := by
    have := rowCompare_trans ts
    unfold mayPrecede
    by_cases h : rowCompare ts a b = .gt
    · right
      rw [Batteries.OrientedCmp.cmp_eq_gt] at h
      rw [h]
      decide
    · left; exact h

theorem mayPrecede_trans (ts : List OrderTerm) : IsTrans NotificationView (mayPrecede ts) where
  trans _ _ _ h1 h2 := (rowCompare_trans ts).le_trans h1 h2

theorem insertionSort_sorted (ts : List OrderTerm) (rows : List NotificationView) :
    List.Sorted (mayPrecede ts) (rows.insertionSort (mayPrecede ts)) :=
  @List.sorted_insertionSort _ (mayPrecede ts) _ (mayPrecede_total ts) (mayPrecede_trans ts) rows

theorem sqlCompare_ne_gt (a b : JsVal) : sqlCompare a b ≠ .gt ↔ sqlValue a ≤ sqlValue b := by
  rw [sqlCompare_eq]
  constructor
  · intro h
    exact not_lt.mp (fun g => h (compare_gt_iff_gt.mpr g))
  · intro h g
    exact absurd (compare_gt_iff_gt.mp g) (not_lt.mpr h)

theorem then_ne_gt (x y : Ordering) : x.then y ≠ .gt ↔ x = .lt ∨ (x = .eq ∧ y ≠ .gt) := by
  cases x <;> cases y <;> decide

theorem mayPrecede_newest (a b : NotificationView) :
    mayPrecede [OrderTerm.sentAtDesc] a b ↔ newestFirst a b := by
  unfold mayPrecede newestFirst
  simp only [rowCompare, termCompare]
  rw [then_ne_gt, compare_lt_iff_lt, compare_eq_iff_eq]
  constructor
  · rintro (h | ⟨h, _⟩)
    · exact le_of_lt h
    · exact le_of_eq h
  · intro h
    rcases lt_or_eq_of_le h with g | g
    · exact Or.inl g
    · exact Or.inr ⟨g, by decide⟩

theorem mayPrecede_oldest (a b : NotificationView) :
    mayPrecede [OrderTerm.sentAtAsc] a b ↔ oldestFirst a b := by
  unfold mayPrecede oldestFirst
  simp only [rowCompare, termCompare]
  rw [then_ne_gt, compare_lt_iff_lt, compare_eq_iff_eq]
  constructor
  · rintro (h | ⟨h, _⟩)
    · exact le_of_lt h
    · exact le_of_eq h
  · intro h
    rcases lt_or_eq_of_le h with g | g
    · exact Or.inl g
    · exact Or.inr ⟨g, by decide⟩

theorem mayPrecede_triage (a b : NotificationView) :
    mayPrecede [OrderTerm.riskScoreDesc, OrderTerm.priorityLevelAsc, OrderTerm.sentAtDesc] a b ↔
      triageOrder a b := by
  have hn := mayPrecede_newest a b
  unfold mayPrecede newestFirst at hn
  unfold mayPrecede triageOrder
  simp only [rowCompare, termCompare] at hn ⊢
  rw [then_ne_gt, then_ne_gt, hn, sqlCompare_eq, sqlCompare_eq, compare_lt_iff_lt,
    compare_eq_iff_eq, compare_lt_iff_lt, compare_eq_iff_eq]
  constructor
  · rintro (h | ⟨h, g⟩)
    · exact Or.inl h
    · exact Or.inr ⟨h.symm, g⟩
  · rintro (h | ⟨h, g⟩)
    · exact Or.inl h
    · exact Or.inr ⟨h.symm, g⟩

theorem sqlValue_int (n : Int) : sqlValue (.num n 0) = ((n : ℚ) : WithBot ℚ) := by
  simp [sqlValue, numericKey, keptValue, driverBinds, numValue]

theorem flatMap_ite_none {α β : Type} (l : List α) (p : α → Prop) [DecidablePred p]
    (g : α → List β) (h : ∀ y ∈ l, ¬ p y) :
    l.flatMap (fun y => if p y then g y else []) = [] := by
  induction l with
  | nil => rfl
  | cons y ys ih =>
    simp only [List.flatMap_cons, if_neg (h y (List.mem_cons_self _ _)), List.nil_append]
    exact ih (fun z hz => h z (List.mem_cons_of_mem _ hz))

theorem flatMap_ite_unique {α β : Type} (l : List α) (p : α → Prop) [DecidablePred p]
    (g : α → List β) (x : α) (hx : x ∈ l) (hp : p x) (hnd : l.Nodup)
    (huniq : ∀ y ∈ l, p y → y = x) :
    l.flatMap (fun y => if p y then g y else []) = g x := by
  induction l with
  | nil => cases hx
  | cons y ys ih =>
    rw [List.nodup_cons] at hnd
    simp only [List.flatMap_cons]
    by_cases hy : y = x
    · subst hy
      rw [if_pos hp, flatMap_ite_none ys p g, List.append_nil]
      intro z hz hpz
      have := huniq z (List.mem_cons_of_mem _ hz) hpz
      rw [this] at hz
      exact hnd.1 hz
    · have hnp : ¬ p y := fun h => hy (huniq y (List.mem_cons_self _ _) h)
      rw [if_neg hnp, List.nil_append]
      rcases List.mem_cons.mp hx with h | h
      · exact absurd h.symm hy
      · exact ih h hnd.2 (fun z hz => huniq z (List.mem_cons_of_mem _ hz))

theorem joined_of_notification (s : Store) (n : NotificationRow)
    (hrec : (s.recordings.map (fun rec => rec.id)).Nodup)
    (husers : (s.users.map (fun u => u.id)).Nodup)
    (rec : RecordingRow) (hr : rec ∈ s.recordings) (hid : rec.id = n.recording_id)
    (u : UserRow) (hu : u ∈ s.users) (hemt : rec.emt_id = some u.id) :
    (s.recordings.flatMap fun rec =>
      if n.recording_id = rec.id then
        s.users.flatMap fun u =>
          if rec.emt_id = some u.id then [notificationView n rec u] else []
      else []) = [notificationView n rec u] := by
  rw [flatMap_ite_unique s.recordings (fun rec => n.recording_id = rec.id) _ rec hr hid.symm
    (List.Nodup.of_map _ hrec)
    (fun y hy hp => List.inj_on_of_nodup_map hrec hy hr (hp.symm.trans hid.symm))]
  exact flatMap_ite_unique s.users (fun u => rec.emt_id = some u.id) _ u hu hemt
    (List.Nodup.of_map _ husers)
    (fun y hy hp => List.inj_on_of_nodup_map husers hy hu
      (Option.some.inj (hp.symm.trans hemt)))

theorem joined_notification_eq (s : Store) (n : NotificationRow) :
    ∀ v ∈ (s.recordings.flatMap fun rec =>
      if n.recording_id = rec.id then
        s.users.flatMap fun u =>
          if rec.emt_id = some u.id then [notificationView n rec u] else []
      else []),
      ∃ rec ∈ s.recordings, ∃ u ∈ s.users, rec.id = n.recording_id ∧ rec.emt_id = some u.id ∧
        v = notificationView n rec u := by
  intro v hv
  rw [List.mem_flatMap] at hv
  obtain ⟨rec, hr, hv⟩ := hv
  by_cases h : n.recording_id = rec.id
  · rw [if_pos h, List.mem_flatMap] at hv
    obtain ⟨u, hu, hv⟩ := hv
    by_cases g : rec.emt_id = some u.id
    · rw [if_pos g, List.mem_singleton] at hv
      exact ⟨rec, hr, u, hu, h.symm, g, hv⟩
    · rw [if_neg g] at hv
      cases hv
  · rw [if_neg h] at hv
    cases hv

theorem mem_joinedNotifications (s : Store) (doctorId : Nat) (v : NotificationView)
    (hv : v ∈ joinedNotifications s doctorId) :
    v.notification ∈ s.notifications ∧ v.notification.doctor_id = doctorId ∧
    ∃ rec ∈ s.recordings, ∃ u ∈ s.users, rec.id = v.notification.recording_id ∧
      rec.emt_id = some u.id ∧ v = notificationView v.notification rec u := by
  unfold joinedNotifications at hv
  rw [List.mem_filter, List.mem_flatMap] at hv
  obtain ⟨⟨n, hn, hv⟩, hd⟩ := hv
  obtain ⟨rec, hr, u, hu, h1, h2, h3⟩ := joined_notification_eq s n v hv
  have hvn : v.notification = n := by rw [h3]; rfl
  rw [hvn]
  exact ⟨hn, by simpa [hvn] using hd, rec, hr, u, hu, h1, h2, h3⟩

theorem joinedNotifications_map (doctorId : Nat) (users : List UserRow)
    (recordings : List RecordingRow) (ns : List NotificationRow)
    (hrec : (recordings.map (fun rec => rec.id)).Nodup)
    (husers : (users.map (fun u => u.id)).Nodup)
    (hint : ∀ n ∈ ns, n.doctor_id = doctorId →
      ∃ rec ∈ recordings, rec.id = n.recording_id ∧
        ∃ u ∈ users, rec.emt_id = some u.id) :
    (joinedNotifications { users := users, recordings := recordings, notifications := ns }
        doctorId).map (fun v => v.notification) =
      ns.filter (fun n => n.doctor_id = doctorId) := by
  induction ns with
  | nil => rfl
  | cons n rest ih =>
    have ih' := ih (fun m hm => hint m (List.mem_cons_of_mem _ hm))
    unfold joinedNotifications at ih' ⊢
    simp only [List.flatMap_cons, List.filter_append, List.map_append]
    rw [ih']
    by_cases hd : n.doctor_id = doctorId
    · obtain ⟨rec, hr, hid, u, hu, hemt⟩ := hint n (List.mem_cons_self _ _) hd
      have := joined_of_notification
        { users := users, recordings := recordings, notifications := n :: rest } n hrec husers
        rec hr hid u hu hemt
      simp only at this
      rw [this]
      simp [List.filter_cons, notificationView, hd]
    · have hnone : (List.filter (fun v => decide (v.notification.doctor_id = doctorId))
          (recordings.flatMap fun rec =>
            if n.recording_id = rec.id then
              users.flatMap fun u =>
                if rec.emt_id = some u.id then [notificationView n rec u] else []
            else [])) = [] := by
        rw [List.filter_eq_nil_iff]
        intro v hv
        obtain ⟨rec, _, u, _, _, _, h3⟩ := joined_notification_eq
          { users := users, recordings := recordings, notifications := n :: rest } n v hv
        rw [h3]
        simpa [notificationView] using hd
      rw [hnone]
      simp [List.filter_cons, hd]

theorem getNotifications_ok (sortBy : JsVal) (doctorId : Nat) (r : Run) :
    getNotifications true sortBy doctorId r =
      (.ok (.rows ((joinedNotifications r.store doctorId).insertionSort
        (mayPrecede (orderClause sortBy)))), r) := by
  rfl

theorem getNotifications_rejected (sortBy : JsVal) (doctorId : Nat) (r : Run) :
    getNotifications false sortBy doctorId r =
      (.ok (.failure 500 (.obj [("error", .str "Server error getting notifications")])), r) := by
  rfl

theorem orderClause_cases (sortBy : JsVal) :
    (sortBy = .str "priority" →
      orderClause sortBy = [.riskScoreDesc, .priorityLevelAsc, .sentAtDesc]) ∧
    (sortBy = .str "oldest" → orderClause sortBy = [.sentAtAsc]) ∧
    (sortBy ≠ .str "priority" → sortBy ≠ .str "oldest" → orderClause sortBy = [.sentAtDesc]) := by
  refine ⟨?_, ?_, ?_⟩
  · intro h; subst h; decide
  · intro h; subst h; decide
  · intro h1 h2
    unfold orderClause
    by_cases hu : sortBy = .undefined
    · simp [hu]
    · by_cases hn : sortBy = .str "newest"
      · simp [hn]
      · simp [hu, hn, h1, h2]

theorem notify_tail_result (w : World) (i : Nat) (s : JsVal) (r : Run) :
    (Js.tryCatch (notifyDoctors w i s) (fun _ => updateStatus w.acceptError "error" i) r).1 =
      if fanoutAccepted w r.store.users = true ∨ w.acceptError = true then .ok ()
      else .error (.external "SQLITE_ERROR") := by
  cases hF : fanoutAccepted w r.store.users with
  | true =>
    have ho := (notifyDoctors_ok w i s r hF).1
    unfold Js.tryCatch
    rcases hx : notifyDoctors w i s r with ⟨res, r2⟩
    rw [hx] at ho
    simp only at ho
    subst ho
    simp
  | false =>
    obtain ⟨e, he⟩ := (notifyDoctors_fail w i s r hF).1
    unfold Js.tryCatch
    rcases hx : notifyDoctors w i s r with ⟨res, r2⟩
    rw [hx] at he
    simp only at he
    subst he
    cases hE : w.acceptError <;> simp [updateStatus, statusCheck]

theorem processRecording_result (w : World) (i : Nat) (path : String) (r : Run) :
    (processRecording w i path r).1 =
      if Event.statusSet i "notified" ∈ pipelineEvents w i path r ∨ w.acceptError = true then
        .ok ()
      else .error (.external "SQLITE_ERROR") := by
  have hpi := patientInfoIn_setStatus "processing" i r.store.recordings
  unfold patientInfoIn at hpi
  cases hP : w.acceptProcessing with
  | false =>
    cases hE : w.acceptError <;>
      simp [pipelineEvents, errorTail, processRecording, processRecordingBody, Js.tryCatch,
        Js.bind_eq, Js.bind, updateStatus, statusCheck, hP, hE]
  | true =>
    cases hQ : w.acceptPatientQuery with
    | false =>
      cases hE : w.acceptError <;>
        simp [pipelineEvents, errorTail, processRecording, processRecordingBody, Js.tryCatch,
          Js.bind_eq, Js.bind, updateStatus, statusCheck, selectPatientInfo, hP, hQ, hE]
    | true =>
      cases hT : w.transcribe path with
      | error e =>
        cases hE : w.acceptError <;>
          simp [pipelineEvents, errorTail, processRecording, processRecordingBody,
            Js.tryCatch, Js.bind_eq, Js.bind, updateStatus, statusCheck, selectPatientInfo,
            transcribeAudio, emit, Js.ofExcept, Js.throw, hP, hQ, hT, hE]
      | ok t =>
        cases hp : resultParams w t (analysisOf w t (patientInfoIn r.store.recordings i)) with
        | error e =>
          have hp' := hp
          unfold patientInfoIn at hp'
          cases hE : w.acceptError <;>
            simp [pipelineEvents, errorTail, processRecording, processRecordingBody,
              Js.tryCatch, Js.bind_eq, Js.bind, updateStatus, statusCheck, selectPatientInfo,
              transcribeAudio, emit, Js.ofExcept, Js.throw, hP, hQ, hT, hE, hp', hp,
              analyzeWithLLM_eq, hpi, patientInfoIn]
        | ok p =>
          have hp' := hp
          unfold patientInfoIn at hp'
          cases hR : resultsAccepted w p with
          | false =>
            have hacc : (w.acceptResults && riskScoreCheck p.risk_score
                && priorityLevelCheck p.priority_level) = false := hR
            cases hE : w.acceptError <;>
              simp [pipelineEvents, errorTail, processRecording, processRecordingBody,
                Js.tryCatch, Js.bind_eq, Js.bind, updateStatus, statusCheck, selectPatientInfo,
                transcribeAudio, emit, Js.ofExcept, Js.throw, hP, hQ, hT, hE, hp', hp,
                analyzeWithLLM_eq, hpi, patientInfoIn, updateResults, hacc, hR]
          | true =>
            have hacc : (w.acceptResults = true ∧ riskScoreCheck p.risk_score = true)
                ∧ priorityLevelCheck p.priority_level = true := by
              simpa [resultsAccepted] using hR
            have hrun := processRecording_results w i path r t p hP hQ hT hp hacc.1.1
              hacc.1.2 hacc.2
            rw [hrun, notify_tail_result]
            cases hF : fanoutAccepted w r.store.users <;> cases hE : w.acceptError <;>
              simp [pipelineEvents, errorTail, hP, hQ, hT, hp, hR, hF, hE]

theorem insertAll_doctor_ids (w : World) (i : Nat) (ds : List UserRow) (r : Run) :
    ∃ new, (insertAll w i ds r).2.store.notifications = r.store.notifications ++ new ∧
      ∀ n ∈ new, ∃ d ∈ ds, n.doctor_id = d.id := by
  induction ds generalizing r with
  | nil => exact ⟨[], by simp [insertAll, Js.pure], by simp⟩
  | cons d rest ih =>
    unfold insertAll
    simp only [Js.bind, insertNotification]
    cases hd : w.acceptInsert d.id with
    | false => exact ⟨[], by simp, by simp⟩
    | true =>
      simp only [notificationTypeCheck, Bool.true_and]
      obtain ⟨new, h1, h2⟩ := ih
        { r with store := { r.store with
            notifications := r.store.notifications ++
              [{ id := nextId (r.store.notifications.map (fun n => n.id))
                 recording_id := i
                 doctor_id := d.id
                 notification_type := "both"
                 sent_at := w.sentAt d.id }] } }
      refine ⟨{ id := nextId (r.store.notifications.map (fun n => n.id))
                recording_id := i
                doctor_id := d.id
                notification_type := "both"
                sent_at := w.sentAt d.id } :: new, ?_, ?_⟩
      · simpa using h1
      · intro n hn
        rcases List.mem_cons.mp hn with rfl | hn
        · exact ⟨d, List.mem_cons_self _ _, rfl⟩
        · obtain ⟨x, hx, hxd⟩ := h2 n hn
          exact ⟨x, List.mem_cons_of_mem _ hx, hxd⟩

theorem passNotifications_spec (w : World) (i : Nat) (s : JsVal) (r : Run) :
    (notifyDoctors w i s r).2.store.notifications =
      r.store.notifications ++ passNotifications w i s r ∧
    (∀ n ∈ passNotifications w i s r,
      n.recording_id = i ∧ n.notification_type = "both" ∧
      ∃ d ∈ availableDoctors r.store.users, n.doctor_id = d.id) ∧
    (fanoutAccepted w r.store.users = true →
      (passNotifications w i s r).map (fun n => n.doctor_id) =
        (availableDoctors r.store.users).map (fun d => d.id)) := by
  obtain ⟨new, g1, g2, g3⟩ := notifyDoctors_notifications w i s r
  have hn : passNotifications w i s r = new := by
    unfold passNotifications
    rw [g1]
    simp
  rw [hn]
  refine ⟨g1, ?_, g3⟩
  intro n hmem
  refine ⟨(g2 n hmem).1, (g2 n hmem).2, ?_⟩
  -- the rows come from the loop over the available doctors
  have hg1 := g1
  unfold notifyDoctors at hg1
  simp only [Js.bind, emit, Js.tryCatch, Js.bind_eq, selectAvailableDoctors] at hg1
  cases hq : w.acceptDoctorQuery with
  | false =>
    simp [hq, Js.throw] at hg1
    rw [hg1] at hmem
    cases hmem
  | true =>
    simp only [hq, if_true] at hg1
    obtain ⟨new2, h1, h2⟩ := insertAll_doctor_ids w i (availableDoctors r.store.users)
      { store := r.store, log := r.log ++ [Event.notifyCall i] }
    rcases hx : insertAll w i (availableDoctors r.store.users)
      { store := r.store, log := r.log ++ [Event.notifyCall i] } with ⟨res, r2⟩
    rw [hx] at hg1 h1
    simp only at h1
    have hr2 : r2.store.notifications = r.store.notifications ++ new := by
      cases res with
      | error e => simpa [Js.throw] using hg1
      | ok u =>
        cases hnn : w.acceptNotified <;> simpa [updateStatus, statusCheck, Js.throw, hnn] using hg1
    rw [h1] at hr2
    have : new2 = new := List.append_cancel_left hr2
    rw [← this] at hmem
    exact h2 n hmem

theorem sendTo_store (w : SendWorld) (req : SendRequest) (s : Store) (rec : RecordingRow)
    (doc : UserRow) :
    (sendTo w req s rec doc).store = s ∨
    (sendTo w req s rec doc).store =
      { s with notifications := setDelivered req.recording_id req.doctor_id s.notifications } := by
  unfold sendTo
  dsimp only
  split
  · exact Or.inl rfl
  · split
    · exact Or.inl rfl
    · split
      · exact Or.inr rfl
      · exact Or.inl rfl

theorem sendNotification_store (w : SendWorld) (req : SendRequest) (s : Store) :
    (sendNotification w req s).store = s ∨
    (sendNotification w req s).store =
      { s with notifications := setDelivered req.recording_id req.doctor_id s.notifications } := by
  unfold sendNotification
  split
  · exact Or.inl rfl
  · split
    · exact Or.inl rfl
    · split
      · exact sendTo_store _ _ _ _ _
      · exact Or.inl rfl

theorem sendNotification_found (w : SendWorld) (req : SendRequest) (s : Store)
    (hq : w.acceptRecordingQuery = true) (hu : w.acceptUserQuery = true)
    (rec : RecordingRow) (doc : UserRow) (ht : sendTargets s req = some (rec, doc)) :
    sendNotification w req s = sendTo w req s rec doc := by
  simp [sendNotification, hq, hu, ht]

theorem sendNotification_not_found (w : SendWorld) (req : SendRequest) (s : Store)
    (hq : w.acceptRecordingQuery = true) (hu : w.acceptUserQuery = true)
    (ht : sendTargets s req = none) :
    sendNotification w req s =
      { response := { status := 404
                      body := .obj [("error", .str "Recording or doctor not found")] }
        attempted := []
        store := s } := by
  simp [sendNotification, hq, hu, ht]

theorem sendTo_spec (w : SendWorld) (req : SendRequest) (s : Store) (rec : RecordingRow)
    (doc : UserRow) :
    (Channel.sms ∈ (sendTo w req s rec doc).attempted ↔
      (req.notification_type = .str "sms" ∨ req.notification_type = .str "both")) ∧
    (Channel.email ∈ (sendTo w req s rec doc).attempted ↔
      ((req.notification_type = .str "email" ∨ req.notification_type = .str "both") ∧
        (Channel.sms ∈ (sendTo w req s rec doc).attempted →
          w.sendSMS doc.phone rec doc = .ok ()))) ∧
    (((Channel.sms ∈ (sendTo w req s rec doc).attempted →
          w.sendSMS doc.phone rec doc = .ok ()) ∧
        (Channel.email ∈ (sendTo w req s rec doc).attempted →
          w.sendEmail doc.email rec doc = .ok ()) ∧
        w.acceptDelivered = true) →
      (sendTo w req s rec doc).store.notifications =
        setDelivered req.recording_id req.doctor_id s.notifications ∧
      (sendTo w req s rec doc).response =
        { status := 200, body := .obj [("message", .str "Notification sent successfully")] }) ∧
    (¬ ((Channel.sms ∈ (sendTo w req s rec doc).attempted →
          w.sendSMS doc.phone rec doc = .ok ()) ∧
        (Channel.email ∈ (sendTo w req s rec doc).attempted →
          w.sendEmail doc.email rec doc = .ok ()) ∧
        w.acceptDelivered = true) →
      (sendTo w req s rec doc).store.notifications = s.notifications ∧
      (sendTo w req s rec doc).response =
        { status := 500, body := .obj [("error", .str "Server error sending notification")] }) := by
  by_cases h1 : req.notification_type = .str "sms" <;>
  by_cases h2 : req.notification_type = .str "both" <;>
  by_cases h3 : req.notification_type = .str "email" <;>
  rcases hs : w.sendSMS doc.phone rec doc with es | us <;>
  rcases he : w.sendEmail doc.email rec doc with ee | ue <;>
  cases hd : w.acceptDelivered <;>
  simp_all [sendTo, sendFailure]

theorem storedResults_after_setResults (p : ResultParams) (s : String) (i : Nat)
    (rows : List RecordingRow) :
    ∀ row ∈ setStatus s i (setResults p "completed" i rows), row.id = i →
      storedResults row = p := by
  intro row hrow hid
  simp only [setStatus, setResults, List.map_map, List.mem_map, Function.comp] at hrow
  obtain ⟨row0, _, rfl⟩ := hrow
  by_cases h0 : row0.id = i
  · simp [h0, storedResults]
  · simp [h0] at hid

theorem resultParams_obj (w : World) (t : String) (ms : List (String × JsVal)) :
    resultParams w t (.obj ms) =
      .ok { transcription := .str t
            llm_summary :=
              if (assessmentField ms "medical_summary").truthy then
                assessmentField ms "medical_summary"
              else .str (w.stringify (.obj ms))
            risk_score := (assessmentField ms "risk_score").or (.num 5 0)
            priority_level := (assessmentField ms "priority_level").or (.num 3 0)
            chief_complaint := (assessmentField ms "chief_complaint").or (.str "Not specified")
            vital_signs := (assessmentField ms "vital_signs").or (.str "Not recorded")
            symptoms := (assessmentField ms "symptoms").or (.str "Not specified")
            recommended_actions :=
              (assessmentField ms "recommended_actions").or (.str "Standard care")
            critical_info := (assessmentField ms "critical_info").or (.str "None") } := by
  rfl

theorem forall2_map_same {α : Type} (f : α → α) (R : α → α → Prop) (l : List α)
    (h : ∀ a ∈ l, R a (f a)) : List.Forall₂ R l (l.map f) := by
  induction l with
  | nil => exact List.Forall₂.nil
  | cons a rest ih =>
    exact List.Forall₂.cons (h a (List.mem_cons_self _ _))
      (ih (fun b hb => h b (List.mem_cons_of_mem _ hb)))

theorem acceptError_of_error_written (w : World) (i : Nat) (path : String) (r : Run)
    (h : Event.statusSet i "error" ∈ pipelineEvents w i path r) : w.acceptError = true := by
  revert h
  cases hE : w.acceptError <;> cases hP : w.acceptProcessing <;>
    cases hQ : w.acceptPatientQuery <;> cases hT : w.transcribe path <;>
    try (simp [pipelineEvents, errorTail, hP, hQ, hT, hE]; done)
  all_goals
    rename_i t
    cases hp : resultParams w t (analysisOf w t (patientInfoIn r.store.recordings i)) <;>
      try (simp [pipelineEvents, errorTail, hP, hQ, hT, hE, hp]; done)
  all_goals
    rename_i q
    cases hR : resultsAccepted w q <;> cases hF : fanoutAccepted w r.store.users <;>
      simp [pipelineEvents, errorTail, hP, hQ, hT, hE, hp, hR, hF]

theorem numGe_of_riskScoreCheck (mant exp10 n : Int) (hn : 10 < n)
    (h : riskScoreCheck (.num mant exp10) = true) : numGe mant exp10 n = false := by
  simp only [riskScoreCheck, rangeCheck, keptValue, driverBinds, numInRange] at h
  unfold numGe
  by_cases he : 0 ≤ exp10
  · simp only [he, if_true, Bool.and_eq_true, decide_eq_true_eq] at h
    simp only [he, if_true, decide_eq_false_iff_not, not_le]
    omega
  · simp only [he, if_false, Bool.and_eq_true, decide_eq_true_eq] at h
    simp only [he, if_false, decide_eq_false_iff_not, not_le]
    have hpos : (0 : Int) < 10 ^ (-exp10).toNat := by positivity
    nlinarith [h.2, hpos]

/-- What a `TEXT` column keeps of the parameter `member || d`: the member when it is a
non-empty text, the default when the member is falsy, and the text `[object Object]` when
the member is an object or an array. -/
theorem keptValue_text_or (v member : JsVal) (d : String) (h : v = member.or (.str d)) :
    keptValue .text v = keptValue .text (member.or (.str d)) ∧
    (∀ s, member = .str s → s ≠ "" → keptValue .text v = some (.str s)) ∧
    (member.truthy = false → keptValue .text v = some (.str d)) ∧
    (∀ ms, member = .obj ms → keptValue .text v = some (.str "[object Object]")) ∧
    (∀ items, member = .arr items → keptValue .text v = some (.str "[object Object]")) := by
  subst h
  refine ⟨rfl, ?_, ?_, ?_, ?_⟩
  · intro s hs hne
    subst hs
    have : (JsVal.str s).truthy = true := by simp [JsVal.truthy, hne]
    simp only [JsVal.or, this, if_true]
    rfl
  · intro hf
    simp only [JsVal.or, hf]
    rfl
  · intro ms hm
    subst hm
    rfl
  · intro items hm
    subst hm
    rfl

/-- What an `INTEGER` column keeps of the parameter `member || d`: the member when it is a
number other than zero, the default when the member is falsy. -/
theorem keptValue_integer_or (v member : JsVal) (d : Int) (h : v = member.or (.num d 0)) :
    keptValue .integer v = keptValue .integer (member.or (.num d 0)) ∧
    (∀ m e, member = .num m e → m ≠ 0 → keptValue .integer v = some (.num m e)) ∧
    (member.truthy = false → keptValue .integer v = some (.num d 0)) := by
  subst h
  refine ⟨rfl, ?_, ?_⟩
  · intro m e hm hne
    subst hm
    have : (JsVal.num m e).truthy = true := by simp [JsVal.truthy, hne]
    simp only [JsVal.or, this, if_true]
    rfl
  · intro hf
    simp only [JsVal.or, hf]
    rfl

/-! ## Theorems -/

/-- C1. When `transcribeAudio` raises during `processRecording` and the store carries out
the statements of the run, the run resolves, every row of the submission is the row it
was with status `'error'` (transcription and all analysis columns untouched), no other
row changes, the events of the run are the `'processing'` write, the call of
`transcribeAudio` and the `'error'` write (so `analyzeWithLLM` and `notifyDoctors` are
never called), and no notification row is created. -/
theorem transcription_failure_ends_in_error (w : World) (recordingId : Nat)
    (audioFilePath : String) (r : Run) (e : JsErr)
    (hP : w.acceptProcessing = true) (hQ : w.acceptPatientQuery = true)
    (hT : w.transcribe audioFilePath = .error e) (hE : w.acceptError = true) :
    (processRecording w recordingId audioFilePath r).1 = .ok () ∧
    (processRecording w recordingId audioFilePath r).2.store.recordings =
      setStatus "error" recordingId r.store.recordings ∧
    (∀ row ∈ r.store.recordings, row.id = recordingId →
      { row with status := "error" } ∈
        (processRecording w recordingId audioFilePath r).2.store.recordings) ∧
    (processRecording w recordingId audioFilePath r).2.log =
      r.log ++ [Event.statusSet recordingId "processing",
                Event.transcribeCall audioFilePath,
                Event.statusSet recordingId "error"] ∧
    (processRecording w recordingId audioFilePath r).2.store.notifications =
      r.store.notifications := by
  have key : processRecording w recordingId audioFilePath r =
      (.ok (), { store := { r.store with
                   recordings := setStatus "error" recordingId r.store.recordings },
                 log := r.log ++ [Event.statusSet recordingId "processing",
                                  Event.transcribeCall audioFilePath,
                                  Event.statusSet recordingId "error"] }) := by
    simp [processRecording, processRecordingBody, Js.tryCatch, Js.bind_eq, Js.bind,
      updateStatus, statusCheck, selectPatientInfo, transcribeAudio, emit, Js.ofExcept,
      Js.throw, hP, hQ, hT, hE, setStatus_setStatus]
  rw [key]
  refine ⟨rfl, rfl, ?_, rfl, rfl⟩
  intro row hrow hid
  simp only [setStatus, List.mem_map]
  exact ⟨row, hrow, by simp [hid]⟩

/-- C1, at an instance: speech-to-text refuses the connection for recording 7. -/
theorem transcription_failure_ends_in_error_witness :
    (processRecording deafWorld 7 "uploads/recording-1.webm" sampleRun).1 = .ok () ∧
    (processRecording deafWorld 7 "uploads/recording-1.webm" sampleRun).2.store.recordings =
      [{ id := 7, emt_id := some 4, patient_info := some "male, 54",
         audio_file_path := "uploads/recording-1.webm", status := "error" }] ∧
    (processRecording deafWorld 7 "uploads/recording-1.webm" sampleRun).2.store.notifications
      = [] :=
  have h := transcription_failure_ends_in_error deafWorld 7 "uploads/recording-1.webm"
    sampleRun (.external "ECONNREFUSED") rfl rfl rfl rfl
  ⟨h.1, h.2.1.trans (by decide), h.2.2.2.2.trans (by decide)⟩

/-- C2, as stated, fails. The response text `[]` is not structured assessment data, yet
with transcription succeeding and every statement carried out the row of recording 7 ends
with chief complaint `'Not specified'` and critical info `'None'`, the per-column defaults
of the results update, not the fixed fallback values. -/
theorem unstructured_reply_not_given_fallback :
    isAssessmentText "[]" = false ∧
    (processRecording (replyWorld "chest pain" "[]") 7 "uploads/recording-1.webm"
      sampleRun).2.store.recordings.map
        (fun row => (row.status, row.chief_complaint, row.critical_info)) =
      [("notified", JsVal.str "Not specified", JsVal.str "None")] ∧
    (processRecording (replyWorld "chest pain" "[]") 7 "uploads/recording-1.webm"
      sampleRun).2.store.recordings.all persistedFallback = false := by
  decide

/-- C2, amended. For every response text whose unwrapped text `JSON.parse` rejects, if
transcription succeeds and the store carries out every statement of the run, then
`processRecording` resolves, every row of the submission holds the fixed fallback values
(chief complaint `'Unable to analyze'`, risk score 5, priority level 3, critical info
`'AI analysis failed'`), and the statuses written are `'processing'`, `'completed'`,
`'notified'`: `'completed'` is reached and `'error'` is never set. -/
theorem unparseable_reply_persists_fallback (w : World) (i : Nat) (path : String)
    (r : Run) (t reply : String) (response : JsVal)
    (hT : w.transcribe path = .ok t)
    (hC : w.chat (prompt t (patientInfoIn r.store.recordings i)) = .ok response)
    (hc : completionContent response = .ok (.str reply))
    (hbad : ∀ c, cleanResponse (jsTrim reply) = .ok c → jsonParse c = none)
    (hP : w.acceptProcessing = true) (hQ : w.acceptPatientQuery = true)
    (hR : w.acceptResults = true) (hF : fanoutAccepted w r.store.users = true) :
    (processRecording w i path r).1 = .ok () ∧
    (processRecording w i path r).2.store.recordings =
      setStatus "notified" i (setResults (fallbackParams t) "completed" i r.store.recordings) ∧
    (∀ row ∈ (processRecording w i path r).2.store.recordings, row.id = i →
      persistedFallback row = true ∧ row.status = "notified") ∧
    (processRecording w i path r).2.log =
      r.log ++ [Event.statusSet i "processing", Event.transcribeCall path,
        Event.analyzeCall t (patientInfoIn r.store.recordings i),
        Event.statusSet i "completed", Event.notifyCall i, Event.statusSet i "notified"] := by
  have ha := analysisOf_of_unparseable w t _ response reply hC hc hbad
  have hp : resultParams w t (analysisOf w t (patientInfoIn r.store.recordings i)) =
      .ok (fallbackParams t) := by rw [ha]; exact resultParams_fallback w t
  have key := processRecording_results w i path r t (fallbackParams t) hP hQ hT hp hR
    rfl rfl
  obtain ⟨h1, h2, h3⟩ := notifyDoctors_ok w i (fallbackParams t).llm_summary
    { store := { r.store with
        recordings := setResults (fallbackParams t) "completed" i r.store.recordings },
      log := r.log ++ [Event.statusSet i "processing", Event.transcribeCall path,
        Event.analyzeCall t (patientInfoIn r.store.recordings i),
        Event.statusSet i "completed"] } hF
  have hres : processRecording w i path r =
      notifyDoctors w i (fallbackParams t).llm_summary
        { store := { r.store with
            recordings := setResults (fallbackParams t) "completed" i r.store.recordings },
          log := r.log ++ [Event.statusSet i "processing", Event.transcribeCall path,
            Event.analyzeCall t (patientInfoIn r.store.recordings i),
            Event.statusSet i "completed"] } := by
    rw [key]
    unfold Js.tryCatch
    split
    · next a r1 heq => rw [heq]
    · next e r1 heq => rw [heq] at h1; cases h1
  rw [hres]
  refine ⟨h1, h3, ?_, by rw [h2]; simp⟩
  rw [h3]
  exact persistedFallback_setResults t "notified" i r.store.recordings

/-- C2, amended, at an instance: the service answers with prose and no JSON. -/
theorem unparseable_reply_persists_fallback_witness :
    jsonParse "I am sorry, I cannot assist." = none ∧
    (processRecording (replyWorld "chest pain" "I am sorry, I cannot assist.") 7
      "uploads/recording-1.webm" sampleRun).2.store.recordings =
      setStatus "notified" 7
        (setResults (fallbackParams "chest pain") "completed" 7 sampleStore.recordings) :=
  ⟨by decide,
    (unparseable_reply_persists_fallback
      (replyWorld "chest pain" "I am sorry, I cannot assist.") 7
      "uploads/recording-1.webm" sampleRun "chest pain" "I am sorry, I cannot assist."
      (completionOf "I am sorry, I cannot assist.") rfl rfl rfl
      (fun c hc => by
        have h : cleanResponse (jsTrim "I am sorry, I cannot assist.") =
            .ok "I am sorry, I cannot assist." := rfl
        rw [h] at hc
        cases hc
        decide)
      rfl rfl rfl (by decide)).2.1⟩

/-- C3, as stated, fails. With transcription succeeding and every statement the store is
asked carried out but for its `CHECK` constraints, the reply `riskElevenReply`, a complete
assessment with risk score 11, makes the results update violate
`CHECK (risk_score <= 10)`: `'completed'` is never written and the run ends in `'error'`
before fan-out starts. The same happens when the risk score is the text `'11'`, which the
column converts to the number 11, and on the reply `null`, which `analyzeWithLLM` returns
as parsed and whose `medical_summary` `processRecording` cannot read. -/
theorem out_of_range_analysis_fails_pipeline :
    riskScoreCheck (.num 11 0) = false ∧
    runEvents (replyWorld "no pulse" riskElevenReply) 7 "uploads/recording-1.webm" sampleRun =
      [Event.statusSet 7 "processing", Event.transcribeCall "uploads/recording-1.webm",
       Event.analyzeCall "no pulse" "male, 54", Event.statusSet 7 "error"] ∧
    (processRecording (replyWorld "no pulse" riskElevenReply) 7 "uploads/recording-1.webm"
      sampleRun).2.store.recordings.map (fun row => row.status) = ["error"] ∧
    riskScoreCheck (.str "11") = false ∧
    runEvents (replyWorld "no pulse" textElevenReply) 7 "uploads/recording-1.webm" sampleRun =
      [Event.statusSet 7 "processing", Event.transcribeCall "uploads/recording-1.webm",
       Event.analyzeCall "no pulse" "male, 54", Event.statusSet 7 "error"] ∧
    runEvents (replyWorld "no pulse" "null") 7 "uploads/recording-1.webm" sampleRun =
      [Event.statusSet 7 "processing", Event.transcribeCall "uploads/recording-1.webm",
       Event.analyzeCall "no pulse" "male, 54", Event.statusSet 7 "error"] := by
  decide

/-- C3, amended. Analysis does not fail the pipeline as long as its result can be stored.
If transcription succeeds, the store carries out the statements up to the results update,
and the analysis step returned either the fallback assessment or a value from which the
parameters of the results update can be read and whose risk score and priority level (5
and 3 standing in for a missing or falsy value) pass the `CHECK` constraints of the
`recordings` table as the engine evaluates them on the bound value (a number, or a text
that is a numeric literal, within 0..10 and 1..5, `true` counting as 1; any other text, an
array and an object violate them), then the events of the run begin with the `'processing'`
write, the calls of `transcribeAudio` and `analyzeWithLLM`, the `'completed'` write and the
call of `notifyDoctors`: `'completed'` is written and no `'error'` precedes the fan-out. -/
theorem storable_analysis_reaches_completed (w : World) (recordingId : Nat)
    (audioFilePath : String) (r : Run) (transcription : String)
    (hT : w.transcribe audioFilePath = .ok transcription)
    (hP : w.acceptProcessing = true) (hQ : w.acceptPatientQuery = true)
    (hR : w.acceptResults = true)
    (ha : analysisOf w transcription (patientInfoIn r.store.recordings recordingId) =
        fallbackAssessment ∨
      ∃ p, resultParams w transcription
          (analysisOf w transcription (patientInfoIn r.store.recordings recordingId)) = .ok p ∧
        riskScoreCheck p.risk_score = true ∧ priorityLevelCheck p.priority_level = true) :
    ∃ rest, runEvents w recordingId audioFilePath r =
      [Event.statusSet recordingId "processing", Event.transcribeCall audioFilePath,
        Event.analyzeCall transcription (patientInfoIn r.store.recordings recordingId),
        Event.statusSet recordingId "completed", Event.notifyCall recordingId] ++ rest := by
  rcases ha with ha | ⟨p, hp, hr, hl⟩
  · exact processRecording_events_after_results w recordingId audioFilePath r transcription
      (fallbackParams transcription) hP hQ hT
      (by rw [ha]; exact resultParams_fallback w transcription) hR rfl rfl
  · exact processRecording_events_after_results w recordingId audioFilePath r transcription
      p hP hQ hT hp hR hr hl

/-- C3, amended, at four instances: a reply that is not JSON; the empty array, which
parses as JSON and is not an assessment object; an assessment whose risk score is the text
`'9'`, which the column keeps as the number 9; an assessment whose risk score is written
`10.0000000000000000001`, which is the number 10. -/
theorem storable_analysis_reaches_completed_witness :
    (∃ rest, runEvents (replyWorld "no pulse" "I cannot say.") 7 "uploads/recording-1.webm"
        sampleRun =
      [Event.statusSet 7 "processing", Event.transcribeCall "uploads/recording-1.webm",
        Event.analyzeCall "no pulse" (patientInfoIn sampleRun.store.recordings 7),
        Event.statusSet 7 "completed", Event.notifyCall 7] ++ rest) ∧
    (∃ rest, runEvents (replyWorld "no pulse" "[]") 7 "uploads/recording-1.webm" sampleRun =
      [Event.statusSet 7 "processing", Event.transcribeCall "uploads/recording-1.webm",
        Event.analyzeCall "no pulse" (patientInfoIn sampleRun.store.recordings 7),
        Event.statusSet 7 "completed", Event.notifyCall 7] ++ rest) ∧
    (∃ rest, runEvents (replyWorld "no pulse" textNineReply) 7 "uploads/recording-1.webm"
        sampleRun =
      [Event.statusSet 7 "processing", Event.transcribeCall "uploads/recording-1.webm",
        Event.analyzeCall "no pulse" (patientInfoIn sampleRun.store.recordings 7),
        Event.statusSet 7 "completed", Event.notifyCall 7] ++ rest) ∧
    (∃ rest, runEvents (replyWorld "no pulse" longTenReply) 7 "uploads/recording-1.webm"
        sampleRun =
      [Event.statusSet 7 "processing", Event.transcribeCall "uploads/recording-1.webm",
        Event.analyzeCall "no pulse" (patientInfoIn sampleRun.store.recordings 7),
        Event.statusSet 7 "completed", Event.notifyCall 7] ++ rest) :=
  ⟨storable_analysis_reaches_completed (replyWorld "no pulse" "I cannot say.") 7
      "uploads/recording-1.webm" sampleRun "no pulse" rfl rfl rfl rfl (Or.inl (by decide)),
   storable_analysis_reaches_completed (replyWorld "no pulse" "[]") 7
      "uploads/recording-1.webm" sampleRun "no pulse" rfl rfl rfl rfl
      (Or.inr ⟨{ transcription := .str "no pulse"
                 llm_summary := .str "[]"
                 risk_score := .num 5 0
                 priority_level := .num 3 0
                 chief_complaint := .str "Not specified"
                 vital_signs := .str "Not recorded"
                 symptoms := .str "Not specified"
                 recommended_actions := .str "Standard care"
                 critical_info := .str "None" }, rfl, by decide, by decide⟩),
   storable_analysis_reaches_completed (replyWorld "no pulse" textNineReply) 7
      "uploads/recording-1.webm" sampleRun "no pulse" rfl rfl rfl rfl
      (Or.inr ⟨{ transcription := .str "no pulse"
                 llm_summary := .str textNineReply
                 risk_score := .str "9"
                 priority_level := .num 3 0
                 chief_complaint := .str "Not specified"
                 vital_signs := .str "Not recorded"
                 symptoms := .str "Not specified"
                 recommended_actions := .str "Standard care"
                 critical_info := .str "None" }, rfl, by decide, by decide⟩),
   storable_analysis_reaches_completed (replyWorld "no pulse" longTenReply) 7
      "uploads/recording-1.webm" sampleRun "no pulse" rfl rfl rfl rfl
      (Or.inr ⟨{ transcription := .str "no pulse"
                 llm_summary := .str "\x7b\"risk_score\":10\x7d"
                 risk_score := .num 10 0
                 priority_level := .num 3 0
                 chief_complaint := .str "Not specified"
                 vital_signs := .str "Not recorded"
                 symptoms := .str "Not specified"
                 recommended_actions := .str "Standard care"
                 critical_info := .str "None" }, rfl, by decide, by decide⟩)⟩

/-- C4. `analyzeWithLLM` never fails outward: for every world (whatever the chat
completion call does: raise, or resolve to any value), every transcript, every context
and every run state, it resolves to a value, and it leaves the store as it was. -/
theorem analyzeWithLLM_never_raises (w : World) (transcription patientInfo : String)
    (r : Run) :
    (∃ v, (analyzeWithLLM w transcription patientInfo r).1 = .ok v) ∧
    (analyzeWithLLM w transcription patientInfo r).2.store = r.store := by
  rw [analyzeWithLLM_eq]
  exact ⟨⟨_, rfl⟩, rfl⟩

/-- C5. Whenever the chat completion call raises, and for every reply text whose
unwrapped text `JSON.parse` rejects, `analyzeWithLLM` resolves to exactly the fixed
fallback assessment, whose nine members are chief complaint `'Unable to analyze'`, vital
signs `'Not available'`, symptoms `'Not specified'`, risk score 5, priority level 3,
urgency level `'moderate'`, recommended actions `'Manual review required'`, critical info
`'AI analysis failed'` and medical summary `'Unable to generate medical summary'`. -/
theorem analyzeWithLLM_fallback (w : World) (transcription patientInfo : String) (r : Run)
    (h : (∃ e, w.chat (prompt transcription patientInfo) = .error e) ∨
      (∃ response reply, w.chat (prompt transcription patientInfo) = .ok response ∧
        completionContent response = .ok (.str reply) ∧
        ∀ c, cleanResponse (jsTrim reply) = .ok c → jsonParse c = none)) :
    (analyzeWithLLM w transcription patientInfo r).1 = .ok fallbackAssessment ∧
    fallbackAssessment =
      .obj [("chief_complaint", .str "Unable to analyze"),
            ("vital_signs", .str "Not available"),
            ("symptoms", .str "Not specified"),
            ("risk_score", .num 5 0),
            ("priority_level", .num 3 0),
            ("urgency_level", .str "moderate"),
            ("recommended_actions", .str "Manual review required"),
            ("critical_info", .str "AI analysis failed"),
            ("medical_summary", .str "Unable to generate medical summary")] := by
  refine ⟨?_, rfl⟩
  rw [analyzeWithLLM_eq]
  rcases h with ⟨e, he⟩ | ⟨response, reply, hC, hc, hbad⟩
  · simp [analysisOf, he]
  · simp [analysisOf_of_unparseable w transcription patientInfo response reply hC hc hbad]

/-- C5, at two instances: the chat completion call raises; the reply is prose. -/
theorem analyzeWithLLM_fallback_witness :
    (analyzeWithLLM { replyWorld "chest pain" "" with chat := fun _ => .error .typeError }
      "chest pain" "male, 54" sampleRun).1 = .ok fallbackAssessment ∧
    (analyzeWithLLM (replyWorld "chest pain" "Unable to comply.") "chest pain" "male, 54"
      sampleRun).1 = .ok fallbackAssessment :=
  ⟨(analyzeWithLLM_fallback
      { replyWorld "chest pain" "" with chat := fun _ => .error .typeError }
      "chest pain" "male, 54" sampleRun (Or.inl ⟨_, rfl⟩)).1,
   (analyzeWithLLM_fallback (replyWorld "chest pain" "Unable to comply.") "chest pain"
      "male, 54" sampleRun
      (Or.inr ⟨completionOf "Unable to comply.", "Unable to comply.", rfl, rfl,
        fun c hc => by
          have h : cleanResponse (jsTrim "Unable to comply.") = .ok "Unable to comply." :=
            rfl
          rw [h] at hc
          cases hc
          decide⟩)).1⟩

/-- C6, as stated, fails, for each of the two fences. With the `json` fence, `j` the JSON
text of the empty object and the trailing text a backtick followed by `json`, the cleaning
step yields the object text followed by a backtick, which `JSON.parse` rejects. With the
bare fence and a leading text of one backtick (a fence of four backticks), the cleaning
step yields a backtick followed by the object text. In both cases the reply `j` alone
parses to the empty object. -/
theorem fence_round_trip_fails :
    jsIncludes "" "```" = false ∧ jsIncludes "\x7b\x7d" "```" = false ∧
    cleanResponse (jsTrim ("" ++ "```json" ++ "\x7b\x7d" ++ "```" ++ "`json")) = .ok "\x7b\x7d`" ∧
    (parseCompletion (completionOf ("" ++ "```json" ++ "\x7b\x7d" ++ "```" ++ "`json"))).toOption
      = none ∧
    jsIncludes "`" "```" = false ∧
    jsIncludes ("`" ++ "```" ++ "\x7b\x7d" ++ "```" ++ "") "```json" = false ∧
    cleanResponse (jsTrim ("`" ++ "```" ++ "\x7b\x7d" ++ "```" ++ "")) = .ok "`\x7b\x7d" ∧
    (parseCompletion (completionOf ("`" ++ "```" ++ "\x7b\x7d" ++ "```" ++ ""))).toOption = none ∧
    jsTrim "\x7b\x7d" = "\x7b\x7d" ∧
    (parseCompletion (completionOf "\x7b\x7d")).toOption = some (.obj []) := by
  refine ⟨by decide, by decide, rfl, by decide, by decide, by decide, rfl, by decide,
    by decide, by decide⟩

/-- C6, amended. Let `j` be a JSON text (a text `JSON.parse` accepts) without three
backticks in a row, `p` a leading text without three backticks in a row and `s` a trailing
text. If `s` begins neither with a backtick followed by `json` nor with two backticks
followed by `json`, the cleaning step applied to `p`, the `json` fence, `j`, the closing
fence and `s` yields `j` trimmed. If `p` does not end in a backtick and the reply made of
`p`, a bare fence, `j`, the closing fence and `s` does not contain the `json` fence, the
cleaning step yields `j` trimmed as well. The reply `j` alone is cleaned to `j` trimmed, so
in both cases the parsed assessment is the one obtained from the reply `j` alone. -/
theorem fence_round_trip (p j s : String)
    (hjson : (jsonParse j).isSome = true)
    (hp : jsIncludes p "```" = false)
    (hj : jsIncludes j "```" = false) :
    (List.isPrefixOf "`json".data s.data = false →
      List.isPrefixOf "``json".data s.data = false →
      cleanResponse (jsTrim (p ++ "```json" ++ j ++ "```" ++ s)) = .ok (jsTrim j) ∧
      parseCompletion (completionOf (p ++ "```json" ++ j ++ "```" ++ s)) =
        parseCompletion (completionOf j)) ∧
    (p.data.getLast? ≠ some backtick →
      jsIncludes (p ++ "```" ++ j ++ "```" ++ s) "```json" = false →
      cleanResponse (jsTrim (p ++ "```" ++ j ++ "```" ++ s)) = .ok (jsTrim j) ∧
      parseCompletion (completionOf (p ++ "```" ++ j ++ "```" ++ s)) =
        parseCompletion (completionOf j)) ∧
    cleanResponse (jsTrim j) = .ok (jsTrim j) := by
  cases hv : jsonParse j with
  | none => rw [hv] at hjson; cases hjson
  | some v =>
    exact cleanResponse_fenced p j s hp hj (jsonParse_last_ne_backtick j v hv)

/-- C6, amended, at an instance: prose before and after a fenced object, for each of the two
fences. -/
theorem fence_round_trip_witness :
    cleanResponse (jsTrim ("Here you go: " ++ "```json" ++ "\n\x7b\"risk_score\": 9\x7d\n" ++ "```"
      ++ " Stay safe.")) = .ok "\x7b\"risk_score\": 9\x7d" ∧
    cleanResponse (jsTrim ("Here you go: " ++ "```" ++ "\n\x7b\"risk_score\": 9\x7d\n" ++ "```"
      ++ " Stay safe.")) = .ok "\x7b\"risk_score\": 9\x7d" :=
  have h := fence_round_trip "Here you go: " "\n\x7b\"risk_score\": 9\x7d\n" " Stay safe."
    (by decide) (by decide) (by decide)
  ⟨(h.1 (by decide) (by decide)).1, (h.2.1 (by decide) (by decide)).1⟩

/-- C7, as stated, fails. With `j` the complete assessment `criticalReply`, the reply made
of the prose `Here is the assessment: ` followed by `j` contains no code fence, is handed
to `JSON.parse` as it is and rejected, and `analyzeWithLLM` returns the fallback
assessment (risk score 5), whereas for the reply `j` alone it returns the parsed
assessment (risk score 9). -/
theorem leading_prose_not_stripped :
    isAssessmentText criticalReply = true ∧
    jsIncludes ("Here is the assessment: " ++ criticalReply) "```" = false ∧
    (analyzeWithLLM (replyWorld "fall" ("Here is the assessment: " ++ criticalReply))
      "fall" "" sampleRun).1.toOption = some fallbackAssessment ∧
    ((analyzeWithLLM (replyWorld "fall" criticalReply) "fall" "" sampleRun).1.toOption.map
      (fun v => v.getField "risk_score")) = some (.ok (.num 9 0)) ∧
    ((analyzeWithLLM (replyWorld "fall" ("Here is the assessment: " ++ criticalReply))
      "fall" "" sampleRun).1.toOption.map
      (fun v => v.getField "risk_score")) = some (.ok (.num 5 0)) := by
  refine ⟨by decide, by decide, ?_, ?_, ?_⟩
  · rw [analyzeWithLLM_eq]; decide
  · rw [analyzeWithLLM_eq]; rfl
  · rw [analyzeWithLLM_eq]; rfl

/-- C7, amended. A reply without code fences is handed to `JSON.parse` with only its
surrounding white space removed: for every text `j` and all white space `p` and `s` placed
around it, the reply `p + j + s` is trimmed to the same text as `j` and gives the same
parsed result as the reply `j` alone; and for every reply that contains no three backticks
in a row, the text handed to `JSON.parse` is the trimmed reply itself, whatever prose it
holds. -/
theorem surrounding_whitespace_stripped (p j s reply : String)
    (hp : p.data.all isJsWhitespace = true) (hs : s.data.all isJsWhitespace = true)
    (hr : jsIncludes reply "```" = false) :
    jsTrim (p ++ j ++ s) = jsTrim j ∧
    parseCompletion (completionOf (p ++ j ++ s)) = parseCompletion (completionOf j) ∧
    cleanResponse (jsTrim reply) = .ok (jsTrim reply) := by
  have ht : jsTrim (p ++ j ++ s) = jsTrim j := by
    simp only [jsTrim, String.data_append, List.append_assoc]
    rw [trimChars_whitespace_around p.data j.data s.data
      (by simpa [List.all_eq_true] using hp) (by simpa [List.all_eq_true] using hs)]
  refine ⟨ht, ?_, ?_⟩
  · rw [parseCompletion_completionOf, parseCompletion_completionOf, ht]
  · apply cleanResponse_plain
    apply findSep_trimChars_none
    unfold jsIncludes at hr
    rw [fence_data] at hr
    cases h : findSep [backtick, backtick, backtick] reply.data with
    | none => rfl
    | some x => rw [h] at hr; cases hr

/-- C7, amended, at an instance: an assessment between line breaks, and a reply of prose. -/
theorem surrounding_whitespace_stripped_witness :
    jsTrim ("\n  " ++ criticalReply ++ " \n") = jsTrim criticalReply ∧
    cleanResponse (jsTrim (" Here is the assessment: " ++ criticalReply)) =
      .ok (jsTrim (" Here is the assessment: " ++ criticalReply)) :=
  have h := surrounding_whitespace_stripped "\n  " criticalReply " \n"
    (" Here is the assessment: " ++ criticalReply) (by decide) (by decide) (by decide)
  ⟨h.1, h.2.2⟩

/-- C8, as stated, fails. The adapter returns the reply `inconsistentReply` as parsed:
risk score 9, which lies in 0..10, with priority level 5 and urgency `routine`, where the
scoring-band table gives priority 1 and urgency `critical`. -/
theorem bands_not_enforced :
    ((analyzeWithLLM (replyWorld "fall" inconsistentReply) "fall" "" sampleRun).1.toOption.map
      (fun v => (v.getField "risk_score", v.getField "priority_level",
        v.getField "urgency_level"))) =
      some (.ok (.num 9 0), .ok (.num 5 0), .ok (.str "routine")) ∧
    bandPriority 9 = some 1 ∧ bandUrgency 9 = ["critical"] ∧
    consistentBands (.num 9 0) (.num 5 0) (.str "routine") = false := by
  refine ⟨?_, by decide, by decide, by decide⟩
  rw [analyzeWithLLM_eq]; rfl

/-- C8, amended. For every reply whose unwrapped text `JSON.parse` accepts,
`analyzeWithLLM` resolves to the parsed value itself, so the risk score, priority level
and urgency label it returns are those the service wrote (the scoring-band table is only
sent to the service in the prompt); the fixed fallback assessment, risk score 5 with
priority level 3 and urgency `moderate`, agrees with the table. -/
theorem returned_bands_are_the_reply (w : World) (transcription patientInfo : String)
    (r : Run) (response : JsVal) (reply c : String) (v : JsVal)
    (hC : w.chat (prompt transcription patientInfo) = .ok response)
    (hc : completionContent response = .ok (.str reply))
    (hcl : cleanResponse (jsTrim reply) = .ok c) (hp : jsonParse c = some v) :
    (analyzeWithLLM w transcription patientInfo r).1 = .ok v ∧
    fallbackAssessment.getField "risk_score" = .ok (.num 5 0) ∧
    fallbackAssessment.getField "priority_level" = .ok (.num 3 0) ∧
    fallbackAssessment.getField "urgency_level" = .ok (.str "moderate") ∧
    consistentBands (.num 5 0) (.num 3 0) (.str "moderate") = true := by
  refine ⟨?_, rfl, rfl, rfl, by decide⟩
  rw [analyzeWithLLM_eq]
  simp [analysisOf, hC, parseCompletion_of_parse response reply c v hc hcl hp]

/-- C8, amended, at an instance: the consistent reply `criticalReply` inside a `json`
fence comes back as the assessment it is the text of, risk score 9 with priority 1. -/
theorem returned_bands_are_the_reply_witness :
    jsonParse criticalReply = some criticalAssessment ∧
    (analyzeWithLLM (replyWorld "fall" ("```json\n" ++ criticalReply ++ "\n```")) "fall" ""
      sampleRun).1 = .ok criticalAssessment :=
  ⟨by decide,
   (returned_bands_are_the_reply
      (replyWorld "fall" ("```json\n" ++ criticalReply ++ "\n```")) "fall" "" sampleRun
      (completionOf ("```json\n" ++ criticalReply ++ "\n```"))
      ("```json\n" ++ criticalReply ++ "\n```") criticalReply criticalAssessment
      rfl rfl rfl (by decide)).1⟩

/-- C9, as stated, fails. The reply `[]` comes back from `analyzeWithLLM` as the empty
array, and the reply `riskElevenReply` comes back with risk score 11: neither is a valid
assessment with a risk score in 0..10. -/
theorem analysis_result_not_validated :
    (analyzeWithLLM (replyWorld "fall" "[]") "fall" "" sampleRun).1.toOption =
      some (.arr []) ∧
    isStructuredAssessment (.arr []) = false ∧
    ((analyzeWithLLM (replyWorld "fall" riskElevenReply) "fall" "" sampleRun).1.toOption.map
      (fun v => (v.getField "risk_score", isStructuredAssessment v))) =
      some (.ok (.num 11 0), false) := by
  refine ⟨?_, by decide, ?_⟩
  · rw [analyzeWithLLM_eq]; rfl
  · rw [analyzeWithLLM_eq]; rfl

/-- C9, amended. `analyzeWithLLM` does not validate what it parsed: for every world,
transcript and context the value it returns is either the fixed fallback assessment or
the value `JSON.parse` gave for the unwrapped text of the reply, whatever its shape; the
fallback assessment is a structured assessment (risk score 5 in 0..10, priority level 3
in 1..5, urgency label, chief complaint, vital signs, symptoms, recommended actions,
critical info and narrative summary). -/
theorem analysis_is_parsed_reply_or_fallback (w : World) (transcription patientInfo : String)
    (r : Run) :
    (analyzeWithLLM w transcription patientInfo r).1 =
      .ok (analysisOf w transcription patientInfo) ∧
    (analysisOf w transcription patientInfo = fallbackAssessment ∨
      ∃ response reply c, w.chat (prompt transcription patientInfo) = .ok response ∧
        completionContent response = .ok (.str reply) ∧
        cleanResponse (jsTrim reply) = .ok c ∧
        jsonParse c = some (analysisOf w transcription patientInfo)) ∧
    isStructuredAssessment fallbackAssessment = true := by
  refine ⟨by rw [analyzeWithLLM_eq], ?_, by decide⟩
  cases hC : w.chat (prompt transcription patientInfo) with
  | error e => exact Or.inl (by simp [analysisOf, hC])
  | ok response =>
    cases hp : parseCompletion response with
    | error e => exact Or.inl (by simp [analysisOf, hC, hp])
    | ok v =>
      have ha : analysisOf w transcription patientInfo = v := by simp [analysisOf, hC, hp]
      obtain ⟨reply, c, h1, h2, h3⟩ := parseCompletion_ok response v hp
      rw [ha]
      exact Or.inr ⟨response, reply, c, rfl, h1, h2, h3⟩

/-- C10, as stated, fails. With the reply `inconsistentReply`, transcription succeeding
and every statement carried out, the run sets recording 7 to `'completed'` and its row
has risk score 9, priority level 5 and urgency level `medium` at the end, which the
scoring-band table does not allow together: risk score 9 goes with priority 1. -/
theorem stored_bands_inconsistent :
    Event.statusSet 7 "completed" ∈
      runEvents (replyWorld "fall" inconsistentReply) 7 "uploads/recording-1.webm" sampleRun ∧
    (processRecording (replyWorld "fall" inconsistentReply) 7 "uploads/recording-1.webm"
      sampleRun).2.store.recordings.map
        (fun row => (row.risk_score, row.priority_level, row.urgency_level)) =
      [(.num 9 0, .num 5 0, .str "medium")] ∧
    bandPriority 9 = some 1 ∧
    (processRecording (replyWorld "fall" inconsistentReply) 7 "uploads/recording-1.webm"
      sampleRun).2.store.recordings.all
        (fun row => consistentBands row.risk_score row.priority_level row.urgency_level) =
      false := by
  decide

/-- C10, amended. After every `processRecording` run that sets a submission to
`'completed'`, the stored risk score and priority level of each of its rows are the risk
score and priority level of the assessment the analysis step returned, 5 and 3 standing
in for a missing or falsy value, each on its own; a stored number lies within the range of
its `CHECK` constraint (0..10, 1..5). -/
theorem stored_scores_are_the_assessments (w : World) (recordingId : Nat)
    (audioFilePath : String) (r : Run)
    (h : Event.statusSet recordingId "completed" ∈ runEvents w recordingId audioFilePath r) :
    ∃ transcription risk priority,
      w.transcribe audioFilePath = .ok transcription ∧
      (analysisOf w transcription (patientInfoIn r.store.recordings recordingId)).getField
        "risk_score" = .ok risk ∧
      (analysisOf w transcription (patientInfoIn r.store.recordings recordingId)).getField
        "priority_level" = .ok priority ∧
      ∀ row ∈ (processRecording w recordingId audioFilePath r).2.store.recordings,
        row.id = recordingId →
          row.risk_score = risk.or (.num 5 0) ∧ row.priority_level = priority.or (.num 3 0) ∧
          riskScoreCheck row.risk_score = true ∧
          priorityLevelCheck row.priority_level = true := by
  obtain ⟨t, p, hP, hQ, hT, hp, hR, hr, hl⟩ :=
    results_written_of_completed w recordingId audioFilePath r h
  obtain ⟨risk, priority, h1, h2, h3, h4⟩ := resultParams_scores w t _ p hp
  obtain ⟨s, hs⟩ := processRecording_rows_after_results w recordingId audioFilePath r t p
    hP hQ hT hp hR hr hl
  refine ⟨t, risk, priority, hT, h1, h2, ?_⟩
  intro row hrow hid
  rw [hs] at hrow
  obtain ⟨e1, e2⟩ := scores_after_setResults p s recordingId r.store.recordings row hrow hid
  rw [e1, e2]
  exact ⟨h3, h4, hr, hl⟩

/-- C10, amended, at an instance: the run on `criticalReply` stores risk score 9 and
priority level 1. -/
theorem stored_scores_are_the_assessments_witness :
    Event.statusSet 7 "completed" ∈
      runEvents (replyWorld "fall" criticalReply) 7 "uploads/recording-1.webm" sampleRun ∧
    ∃ transcription risk priority,
      (replyWorld "fall" criticalReply).transcribe "uploads/recording-1.webm" =
        .ok transcription ∧
      (analysisOf (replyWorld "fall" criticalReply) transcription
        (patientInfoIn sampleRun.store.recordings 7)).getField "risk_score" = .ok risk ∧
      (analysisOf (replyWorld "fall" criticalReply) transcription
        (patientInfoIn sampleRun.store.recordings 7)).getField "priority_level"
          = .ok priority ∧
      ∀ row ∈ (processRecording (replyWorld "fall" criticalReply) 7
          "uploads/recording-1.webm" sampleRun).2.store.recordings,
        row.id = 7 →
          row.risk_score = risk.or (.num 5 0) ∧ row.priority_level = priority.or (.num 3 0) ∧
          riskScoreCheck row.risk_score = true ∧
          priorityLevelCheck row.priority_level = true :=
  ⟨by decide,
   stored_scores_are_the_assessments (replyWorld "fall" criticalReply) 7
     "uploads/recording-1.webm" sampleRun (by decide)⟩

/-- C11. The results update does not store the urgency label. No run of `processRecording`
changes the `urgency_level` of any row, whatever the world answers; and on the reply
`criticalReply`, whose urgency label is `critical`, the run sets recording 7 to
`'completed'`, stores risk score 9 and priority level 1, and leaves `urgency_level` at the
schema default `medium`. -/
theorem urgency_level_never_written :
    (∀ (w : World) (recordingId : Nat) (audioFilePath : String) (r : Run),
      (processRecording w recordingId audioFilePath r).2.store.recordings.map
          (fun row => (row.id, row.urgency_level)) =
        r.store.recordings.map (fun row => (row.id, row.urgency_level))) ∧
    (analysisOf (replyWorld "fall" criticalReply) "fall" "male, 54").getField
        "urgency_level" = .ok (.str "critical") ∧
    Event.statusSet 7 "completed" ∈
      runEvents (replyWorld "fall" criticalReply) 7 "uploads/recording-1.webm" sampleRun ∧
    (processRecording (replyWorld "fall" criticalReply) 7 "uploads/recording-1.webm"
      sampleRun).2.store.recordings.map
        (fun row => (row.risk_score, row.priority_level, row.urgency_level)) =
      [(.num 9 0, .num 1 0, .str "medium")] := by
  refine ⟨?_, rfl, by decide, by decide⟩
  intro w recordingId audioFilePath r
  rw [processRecording_recordings]
  exact applyStmts_urgency _ _ _

/-- C12. For every store whose user ids are distinct and every submission id, a
`notifyDoctors` pass in which the store carries out every statement resolves, appends to
`notifications` one row for each user who is a doctor with `is_available = 1` and none for
any other user, each with that submission id and notification type `'both'`, and sets the
status of the submission to `'notified'`. -/
theorem notifyDoctors_one_row_per_available_doctor (w : World) (recordingId : Nat)
    (summary : JsVal) (r : Run)
    (hids : (r.store.users.map (fun u => u.id)).Nodup)
    (hok : fanoutAccepted w r.store.users = true) :
    (notifyDoctors w recordingId summary r).1 = .ok () ∧
    (∃ new, (notifyDoctors w recordingId summary r).2.store.notifications =
        r.store.notifications ++ new ∧
      (∀ n ∈ new, n.recording_id = recordingId ∧ n.notification_type = "both") ∧
      (∀ u ∈ r.store.users,
        (new.filter (fun n => n.doctor_id = u.id)).length =
          if u.role = "doctor" ∧ u.is_available = 1 then 1 else 0) ∧
      (∀ n ∈ new, ∃ u ∈ r.store.users,
        u.id = n.doctor_id ∧ u.role = "doctor" ∧ u.is_available = 1) ∧
      new.length = (availableDoctors r.store.users).length) ∧
    (notifyDoctors w recordingId summary r).2.store.recordings =
      setStatus "notified" recordingId r.store.recordings := by
  obtain ⟨h1, _, h3⟩ := notifyDoctors_ok w recordingId summary r hok
  obtain ⟨new, g1, g2, g3⟩ := notifyDoctors_notifications w recordingId summary r
  have hmap := g3 hok
  have hnd := availableDoctors_ids_nodup r.store.users hids
  refine ⟨h1, ⟨new, g1, g2, ?_, ?_, ?_⟩, h3⟩
  · intro u hu
    rw [filter_length_eq_count (fun n => n.doctor_id) new u.id, hmap]
    by_cases hav : u.role = "doctor" ∧ u.is_available = 1
    · rw [if_pos hav]
      apply List.count_eq_one_of_mem hnd
      apply List.mem_map.mpr
      refine ⟨u, ?_, rfl⟩
      unfold availableDoctors
      rw [List.mem_filter]
      exact ⟨hu, by simpa using hav⟩
    · rw [if_neg hav]
      apply List.count_eq_zero_of_not_mem
      intro hmem
      have := mem_availableDoctors_of_id r.store.users hids u hu hmem
      unfold availableDoctors at this
      rw [List.mem_filter] at this
      exact hav (by simpa using this.2)
  · intro n hn
    have hmem : n.doctor_id ∈ new.map (fun n => n.doctor_id) :=
      List.mem_map.mpr ⟨n, hn, rfl⟩
    rw [hmap] at hmem
    obtain ⟨d, hd, hdid⟩ := List.mem_map.mp hmem
    unfold availableDoctors at hd
    rw [List.mem_filter] at hd
    exact ⟨d, hd.1, hdid, by simpa using hd.2⟩
  · have := congrArg List.length hmap
    simpa using this

/-- C12 at an instance: on `sampleStore`, with two available doctors (ids 1 and 2), one
unavailable doctor and a responder, the pass adds exactly two rows, one for doctor 1 and
one for doctor 2. -/
theorem notifyDoctors_one_row_per_available_doctor_witness :
    (sampleRun.store.users.map (fun u => u.id)).Nodup ∧
    fanoutAccepted (replyWorld "fall" criticalReply) sampleRun.store.users = true ∧
    ((notifyDoctors (replyWorld "fall" criticalReply) 7 (.str "summary") sampleRun).1 =
        .ok () ∧
      (∃ new, (notifyDoctors (replyWorld "fall" criticalReply) 7 (.str "summary")
          sampleRun).2.store.notifications = sampleRun.store.notifications ++ new ∧
        (∀ n ∈ new, n.recording_id = 7 ∧ n.notification_type = "both") ∧
        (∀ u ∈ sampleRun.store.users,
          (new.filter (fun n => n.doctor_id = u.id)).length =
            if u.role = "doctor" ∧ u.is_available = 1 then 1 else 0) ∧
        (∀ n ∈ new, ∃ u ∈ sampleRun.store.users,
          u.id = n.doctor_id ∧ u.role = "doctor" ∧ u.is_available = 1) ∧
        new.length = (availableDoctors sampleRun.store.users).length) ∧
      (notifyDoctors (replyWorld "fall" criticalReply) 7 (.str "summary")
          sampleRun).2.store.recordings =
        setStatus "notified" 7 sampleRun.store.recordings) ∧
    (notifyDoctors (replyWorld "fall" criticalReply) 7 (.str "summary")
        sampleRun).2.store.notifications.map
          (fun n => (n.recording_id, n.doctor_id, n.notification_type)) =
      [(7, 1, "both"), (7, 2, "both")] :=
  ⟨by decide, by decide,
   notifyDoctors_one_row_per_available_doctor (replyWorld "fall" criticalReply) 7
     (.str "summary") sampleRun (by decide) (by decide),
   by decide⟩

/-- C13, as stated, fails. On `criticalReply`, with transcription, analysis and the results
update succeeding, each of the three failures of the fan-out (the enumeration of the
doctors rejected, the insert for doctor 2 rejected, the `'notified'` write rejected) leaves
recording 7 in status `'error'`, written after `'completed'`. -/
theorem fanout_failure_sets_error :
    (processRecording (fanoutWorld false (fun _ => true) true) 7 "uploads/recording-1.webm"
      sampleRun).2.store.recordings.map (fun row => row.status) = ["error"] ∧
    (processRecording (fanoutWorld true (fun d => decide (d ≠ 2)) true) 7
      "uploads/recording-1.webm" sampleRun).2.store.recordings.map (fun row => row.status) =
        ["error"] ∧
    (processRecording (fanoutWorld true (fun _ => true) false) 7 "uploads/recording-1.webm"
      sampleRun).2.store.recordings.map (fun row => row.status) = ["error"] ∧
    runEvents (fanoutWorld false (fun _ => true) true) 7 "uploads/recording-1.webm"
        sampleRun =
      [Event.statusSet 7 "processing", Event.transcribeCall "uploads/recording-1.webm",
        Event.analyzeCall "fall" "male, 54", Event.statusSet 7 "completed",
        Event.notifyCall 7, Event.statusSet 7 "error"] := by
  decide

/-- C13, amended. When transcription, analysis and the results update succeed and the
fan-out fails, `notifyDoctors` rethrows and the `catch` of `processRecording` writes
`'error'`: the events of the run are the `'processing'` write, the two calls, the
`'completed'` write, the call of `notifyDoctors` and then the `'error'` write, and the rows
of the submission keep what the results update stored, with status `'error'`. The status
stays `'completed'` only when the store rejects that `'error'` write too. -/
theorem fanout_failure_ends_in_error (w : World) (recordingId : Nat) (audioFilePath : String)
    (r : Run) (transcription : String) (p : ResultParams)
    (hP : w.acceptProcessing = true) (hQ : w.acceptPatientQuery = true)
    (hT : w.transcribe audioFilePath = .ok transcription)
    (hp : resultParams w transcription
      (analysisOf w transcription (patientInfoIn r.store.recordings recordingId)) = .ok p)
    (hR : resultsAccepted w p = true)
    (hF : fanoutAccepted w r.store.users = false) :
    runEvents w recordingId audioFilePath r =
      [Event.statusSet recordingId "processing", Event.transcribeCall audioFilePath,
        Event.analyzeCall transcription (patientInfoIn r.store.recordings recordingId),
        Event.statusSet recordingId "completed", Event.notifyCall recordingId] ++
      (if w.acceptError then [Event.statusSet recordingId "error"] else []) ∧
    (processRecording w recordingId audioFilePath r).2.store.recordings =
      if w.acceptError then
        setStatus "error" recordingId (setResults p "completed" recordingId r.store.recordings)
      else setResults p "completed" recordingId r.store.recordings := by
  have hpar : runParams w recordingId audioFilePath r = some p := by
    simp [runParams, hT, hp, Except.toOption]
  have hev : pipelineEvents w recordingId audioFilePath r =
      [Event.statusSet recordingId "processing", Event.transcribeCall audioFilePath,
        Event.analyzeCall transcription (patientInfoIn r.store.recordings recordingId),
        Event.statusSet recordingId "completed", Event.notifyCall recordingId] ++
      (if w.acceptError then [Event.statusSet recordingId "error"] else []) := by
    simp [pipelineEvents, errorTail, hP, hQ, hT, hp, hR, hF]
  refine ⟨by rw [runEvents_eq, hev], ?_⟩
  rw [(processRecording_state w recordingId audioFilePath r).2.1, hpar, hev]
  cases hE : w.acceptError <;>
    simp [stmtOfEvent_processing, stmtOfEvent_error, stmtOfEvent_completed, stmtOfEvent,
      applyStmts_status, applyStmts_results, applyStmts_cons, setResults_setStatus]

/-- C13, amended, at an instance: the enumeration of the doctors is rejected on
`sampleStore`. -/
theorem fanout_failure_ends_in_error_witness :
    runEvents (fanoutWorld false (fun _ => true) true) 7 "uploads/recording-1.webm"
        sampleRun =
      [Event.statusSet 7 "processing", Event.transcribeCall "uploads/recording-1.webm",
        Event.analyzeCall "fall" (patientInfoIn sampleRun.store.recordings 7),
        Event.statusSet 7 "completed", Event.notifyCall 7] ++
      (if (fanoutWorld false (fun _ => true) true).acceptError then
        [Event.statusSet 7 "error"] else []) ∧
    (processRecording (fanoutWorld false (fun _ => true) true) 7 "uploads/recording-1.webm"
        sampleRun).2.store.recordings =
      if (fanoutWorld false (fun _ => true) true).acceptError then
        setStatus "error" 7 (setResults criticalParams "completed" 7
          sampleRun.store.recordings)
      else setResults criticalParams "completed" 7 sampleRun.store.recordings :=
  fanout_failure_ends_in_error (fanoutWorld false (fun _ => true) true) 7
    "uploads/recording-1.webm" sampleRun "fall" criticalParams rfl rfl rfl rfl
    (by decide) (by decide)

/-- C14, as stated, fails. On `criticalReply` with the `'notified'` write rejected, the
statuses written for recording 7 are `'processing'`, `'completed'`, `'error'`: after
`pending` that is a subsequence of neither of the two sequences of the claim, and
`'completed'` is followed by `'error'`. -/
theorem completed_followed_by_error :
    statusWrites (runEvents (fanoutWorld true (fun _ => true) false) 7
      "uploads/recording-1.webm" sampleRun) = ["processing", "completed", "error"] ∧
    ¬ List.Sublist ("pending" :: statusWrites (runEvents (fanoutWorld true (fun _ => true) false)
        7 "uploads/recording-1.webm" sampleRun))
      ["pending", "processing", "completed", "notified"] ∧
    ¬ List.Sublist ("pending" :: statusWrites (runEvents (fanoutWorld true (fun _ => true) false)
        7 "uploads/recording-1.webm" sampleRun))
      ["pending", "processing", "error"] := by
  decide

/-- C14, amended. For every run of `processRecording`, whatever the world answers, the
statuses the run writes, after the `pending` of the upload, form a subsequence of pending,
processing, completed, notified or of pending, processing, completed, error; `'error'` is
written when any step fails, also after `'completed'` when the fan-out fails, and only as
the last status of the run. -/
theorem status_sequence_of_a_run (w : World) (recordingId : Nat) (audioFilePath : String)
    (r : Run) :
    (List.Sublist ("pending" :: statusWrites (runEvents w recordingId audioFilePath r))
        ["pending", "processing", "completed", "notified"] ∨
      List.Sublist ("pending" :: statusWrites (runEvents w recordingId audioFilePath r))
        ["pending", "processing", "completed", "error"]) ∧
    "error" ∉ (statusWrites (runEvents w recordingId audioFilePath r)).dropLast := by
  rw [runEvents_eq]
  have h := statusWrites_pipelineEvents w recordingId audioFilePath r
  simp only [List.mem_cons, List.mem_singleton, List.not_mem_nil, or_false] at h
  rcases h with h | h | h | h | h | h | h <;> rw [h] <;> decide

/-- C15, as stated, fails. In `lockedWorld` the store rejects the results update and then
the `'error'` write of the `catch`: recording 7 stays in status `'processing'`. -/
theorem rejected_error_write_leaves_processing :
    (processRecording lockedWorld 7 "uploads/recording-1.webm" sampleRun).2.store.recordings.map
      (fun row => row.status) = ["processing"] ∧
    runEvents lockedWorld 7 "uploads/recording-1.webm" sampleRun =
      [Event.statusSet 7 "processing", Event.transcribeCall "uploads/recording-1.webm",
        Event.analyzeCall "fall" "male, 54"] := by
  decide

/-- C15, amended. If the results update of `processRecording` is rejected, by the store or
by a `CHECK` constraint on the risk score or the priority level, and the store carries out
the `'error'` write of the `catch`, then the rows of the submission are the rows before the
run with status `'error'`, so that none of the transcription and analysis columns has
changed, no notification row is added, and the run never calls `notifyDoctors`. -/
theorem rejected_results_update_ends_in_error (w : World) (recordingId : Nat)
    (audioFilePath : String) (r : Run) (transcription : String) (p : ResultParams)
    (hP : w.acceptProcessing = true) (hQ : w.acceptPatientQuery = true)
    (hT : w.transcribe audioFilePath = .ok transcription)
    (hp : resultParams w transcription
      (analysisOf w transcription (patientInfoIn r.store.recordings recordingId)) = .ok p)
    (hR : resultsAccepted w p = false)
    (hE : w.acceptError = true) :
    (processRecording w recordingId audioFilePath r).2.store.recordings =
      setStatus "error" recordingId r.store.recordings ∧
    (processRecording w recordingId audioFilePath r).2.store.recordings.map storedResults =
      r.store.recordings.map storedResults ∧
    (processRecording w recordingId audioFilePath r).2.store.notifications =
      r.store.notifications ∧
    runEvents w recordingId audioFilePath r =
      [Event.statusSet recordingId "processing", Event.transcribeCall audioFilePath,
        Event.analyzeCall transcription (patientInfoIn r.store.recordings recordingId),
        Event.statusSet recordingId "error"] := by
  have hev : pipelineEvents w recordingId audioFilePath r =
      [Event.statusSet recordingId "processing", Event.transcribeCall audioFilePath,
        Event.analyzeCall transcription (patientInfoIn r.store.recordings recordingId),
        Event.statusSet recordingId "error"] := by
    simp [pipelineEvents, errorTail, hP, hQ, hT, hp, hR, hE]
  have hrec : (processRecording w recordingId audioFilePath r).2.store.recordings =
      setStatus "error" recordingId r.store.recordings := by
    rw [(processRecording_state w recordingId audioFilePath r).2.1, hev]
    simp [stmtOfEvent_processing, stmtOfEvent_error, stmtOfEvent, applyStmts_status,
      applyStmts_cons, setStatus_setStatus]
  obtain ⟨g1, _, g3, _⟩ := runNotifications_spec w recordingId audioFilePath r
  refine ⟨hrec, ?_, ?_, by rw [runEvents_eq, hev]⟩
  · rw [hrec]
    unfold setStatus
    rw [List.map_map]
    apply List.map_congr_left
    intro row _
    by_cases h : row.id = recordingId <;> simp [h, storedResults]
  · rw [g1, g3 (by rw [hev]; simp)]
    simp

/-- C15, amended, at an instance: the reply `riskElevenReply` has risk score 11, which the
`CHECK` constraint on `risk_score` rejects. -/
theorem rejected_results_update_ends_in_error_witness :
    resultsAccepted (replyWorld "no pulse" riskElevenReply)
      { transcription := .str "no pulse"
        llm_summary := .str "Cardiac arrest, CPR in progress"
        risk_score := .num 11 0
        priority_level := .num 1 0
        chief_complaint := .str "Cardiac arrest"
        vital_signs := .str "No pulse"
        symptoms := .str "Unresponsive"
        recommended_actions := .str "CPR"
        critical_info := .str "Bystander CPR started" } = false ∧
    (processRecording (replyWorld "no pulse" riskElevenReply) 7 "uploads/recording-1.webm"
        sampleRun).2.store.recordings = setStatus "error" 7 sampleRun.store.recordings ∧
    (processRecording (replyWorld "no pulse" riskElevenReply) 7 "uploads/recording-1.webm"
        sampleRun).2.store.recordings.map storedResults =
      sampleRun.store.recordings.map storedResults ∧
    (processRecording (replyWorld "no pulse" riskElevenReply) 7 "uploads/recording-1.webm"
        sampleRun).2.store.notifications = sampleRun.store.notifications ∧
    runEvents (replyWorld "no pulse" riskElevenReply) 7 "uploads/recording-1.webm" sampleRun =
      [Event.statusSet 7 "processing", Event.transcribeCall "uploads/recording-1.webm",
        Event.analyzeCall "no pulse" (patientInfoIn sampleRun.store.recordings 7),
        Event.statusSet 7 "error"] :=
  ⟨by decide,
   rejected_results_update_ends_in_error (replyWorld "no pulse" riskElevenReply) 7
     "uploads/recording-1.webm" sampleRun "no pulse"
     { transcription := .str "no pulse"
       llm_summary := .str "Cardiac arrest, CPR in progress"
       risk_score := .num 11 0
       priority_level := .num 1 0
       chief_complaint := .str "Cardiac arrest"
       vital_signs := .str "No pulse"
       symptoms := .str "Unresponsive"
       recommended_actions := .str "CPR"
       critical_info := .str "Bystander CPR started" }
     rfl rfl rfl rfl (by decide) rfl⟩

/-- C16. In every run of `processRecording`, if `'notified'` is written for the submission
then the events of the run are, in this order, the `'processing'` write, the two calls,
the `'completed'` write of the results update, the call of `notifyDoctors` and the
`'notified'` write, the insert for every available doctor was carried out, and the run
added one notification row per available doctor, in the order of the enumeration. Every
notification row a run adds refers to the submission of the run, and that run had written
`'completed'` for it. -/
theorem notified_only_after_completed_and_inserts (w : World) (recordingId : Nat)
    (audioFilePath : String) (r : Run) :
    (Event.statusSet recordingId "notified" ∈ runEvents w recordingId audioFilePath r →
      (∃ transcription, runEvents w recordingId audioFilePath r =
        [Event.statusSet recordingId "processing", Event.transcribeCall audioFilePath,
          Event.analyzeCall transcription (patientInfoIn r.store.recordings recordingId),
          Event.statusSet recordingId "completed", Event.notifyCall recordingId,
          Event.statusSet recordingId "notified"]) ∧
      (∀ d ∈ availableDoctors r.store.users, w.acceptInsert d.id = true) ∧
      (runNotifications w recordingId audioFilePath r).map (fun n => n.doctor_id) =
        (availableDoctors r.store.users).map (fun d => d.id)) ∧
    (∀ n ∈ runNotifications w recordingId audioFilePath r,
      n.recording_id = recordingId ∧
      Event.statusSet recordingId "completed" ∈ runEvents w recordingId audioFilePath r) := by
  obtain ⟨_, g2, g3, g4⟩ := runNotifications_spec w recordingId audioFilePath r
  rw [runEvents_eq]
  refine ⟨?_, ?_⟩
  · intro hn
    obtain ⟨hF, ht⟩ := pipelineEvents_of_notified w recordingId audioFilePath r hn
    simp only [fanoutAccepted, Bool.and_eq_true, List.all_eq_true] at hF
    exact ⟨ht, hF.1.2, g4 hn⟩
  · intro n hn
    refine ⟨(g2 n hn).1, ?_⟩
    by_contra hc
    rw [g3 hc] at hn
    cases hn

/-- C16 at an instance: the run on `criticalReply` writes `'notified'` for recording 7. -/
theorem notified_only_after_completed_and_inserts_witness :
    Event.statusSet 7 "notified" ∈
      runEvents (replyWorld "fall" criticalReply) 7 "uploads/recording-1.webm" sampleRun ∧
    ((∃ transcription, runEvents (replyWorld "fall" criticalReply) 7
        "uploads/recording-1.webm" sampleRun =
        [Event.statusSet 7 "processing", Event.transcribeCall "uploads/recording-1.webm",
          Event.analyzeCall transcription (patientInfoIn sampleRun.store.recordings 7),
          Event.statusSet 7 "completed", Event.notifyCall 7,
          Event.statusSet 7 "notified"]) ∧
      (∀ d ∈ availableDoctors sampleRun.store.users,
        (replyWorld "fall" criticalReply).acceptInsert d.id = true) ∧
      (runNotifications (replyWorld "fall" criticalReply) 7 "uploads/recording-1.webm"
          sampleRun).map (fun n => n.doctor_id) =
        (availableDoctors sampleRun.store.users).map (fun d => d.id)) ∧
    (runNotifications (replyWorld "fall" criticalReply) 7 "uploads/recording-1.webm"
        sampleRun).map (fun n => (n.recording_id, n.doctor_id)) = [(7, 1), (7, 2)] :=
  ⟨by decide,
   (notified_only_after_completed_and_inserts (replyWorld "fall" criticalReply) 7
     "uploads/recording-1.webm" sampleRun).1 (by decide),
   by decide⟩

/-- C17, as stated, fails. `processRecording` does not look at the status: started on
recording 7 while its status is already `'processing'`, the run is neither rejected nor
ignored, it calls `transcribeAudio`, `analyzeWithLLM` and `notifyDoctors` again, overwrites
the analysis columns and adds a second notification row for each available doctor. -/
theorem second_run_not_rejected :
    processingRun.store.recordings.map (fun row => row.status) = ["processing"] ∧
    runEvents (replyWorld "fall" inconsistentReply) 7 "uploads/recording-1.webm"
        processingRun =
      [Event.statusSet 7 "processing", Event.transcribeCall "uploads/recording-1.webm",
        Event.analyzeCall "fall" "male, 54", Event.statusSet 7 "completed",
        Event.notifyCall 7, Event.statusSet 7 "notified"] ∧
    (processRecording (replyWorld "fall" inconsistentReply) 7 "uploads/recording-1.webm"
      (processRecording (replyWorld "fall" criticalReply) 7 "uploads/recording-1.webm"
        sampleRun).2).2.store.recordings.map (fun row => (row.priority_level, row.status)) =
      [(.num 5 0, "notified")] ∧
    (processRecording (replyWorld "fall" inconsistentReply) 7 "uploads/recording-1.webm"
      (processRecording (replyWorld "fall" criticalReply) 7 "uploads/recording-1.webm"
        sampleRun).2).2.store.notifications.map (fun n => (n.recording_id, n.doctor_id)) =
      [(7, 1), (7, 2), (7, 1), (7, 2)] := by
  decide

/-- C17, amended. `processRecording` has no guard on the status, so a second invocation
for the same submission runs the whole pipeline again; what holds is that the analysis
columns are never a mixture of two runs. A run reads nothing that the statements of another
run on `recordings` change, so its events and statements are the same whatever statements
were carried out before it; the rows it leaves are the rows under its statements, each
carried out as a whole; and after any sequence of statements taken from two runs on the
same submission, in any order, the transcription and analysis columns of every row are
those before the runs or exactly the parameters of the results update of one of the two
runs. -/
theorem results_update_atomic (w1 w2 : World) (recordingId : Nat) (path1 path2 : String)
    (r : Run) (ops : List RecStmt)
    (hops : ∀ op ∈ ops, op ∈ recordingStmts w1 recordingId path1 r ∨
      op ∈ recordingStmts w2 recordingId path2 r) :
    (∀ (w : World) (path : String) (before : List RecStmt),
      runEvents w recordingId path
          { store := { r.store with
              recordings := applyStmts recordingId before r.store.recordings },
            log := r.log } = runEvents w recordingId path r ∧
      recordingStmts w recordingId path
          { store := { r.store with
              recordings := applyStmts recordingId before r.store.recordings },
            log := r.log } = recordingStmts w recordingId path r) ∧
    (∀ (w : World) (path : String),
      (processRecording w recordingId path r).2.store.recordings =
        applyStmts recordingId (recordingStmts w recordingId path r) r.store.recordings) ∧
    (∀ row ∈ r.store.recordings,
      storedResults (ops.foldl (stepRow recordingId) row) = storedResults row ∨
      some (storedResults (ops.foldl (stepRow recordingId) row)) =
        runParams w1 recordingId path1 r ∨
      some (storedResults (ops.foldl (stepRow recordingId) row)) =
        runParams w2 recordingId path2 r) := by
  refine ⟨fun w path before => ⟨runEvents_applyStmts w recordingId path before r,
    recordingStmts_applyStmts w recordingId path before r⟩,
    fun w path => processRecording_recordings w recordingId path r, ?_⟩
  intro row _
  rcases storedResults_foldl recordingId ops row with h | h
  · exact Or.inl h
  · rcases hops _ h with g | g
    · exact Or.inr (Or.inl (results_mem_recordingStmts w1 recordingId path1 r _ g).symm)
    · exact Or.inr (Or.inr (results_mem_recordingStmts w2 recordingId path2 r _ g).symm)

/-- C17, amended, at an instance: two runs on recording 7 whose statements take turns; the
row ends with the parameters of the second run. -/
theorem results_update_atomic_witness :
    (∀ op ∈ interleavedStmts,
      op ∈ recordingStmts (replyWorld "fall" criticalReply) 7 "uploads/recording-1.webm"
        sampleRun ∨
      op ∈ recordingStmts (replyWorld "fall" inconsistentReply) 7 "uploads/recording-1.webm"
        sampleRun) ∧
    (∀ row ∈ sampleRun.store.recordings,
      storedResults (interleavedStmts.foldl (stepRow 7) row) = storedResults row ∨
      some (storedResults (interleavedStmts.foldl (stepRow 7) row)) =
        runParams (replyWorld "fall" criticalReply) 7 "uploads/recording-1.webm" sampleRun ∨
      some (storedResults (interleavedStmts.foldl (stepRow 7) row)) =
        runParams (replyWorld "fall" inconsistentReply) 7 "uploads/recording-1.webm"
          sampleRun) ∧
    (applyStmts 7 interleavedStmts sampleRun.store.recordings).map storedResults =
      [{ criticalParams with priority_level := .num 5 0 }] :=
  ⟨by decide,
   (results_update_atomic (replyWorld "fall" criticalReply)
     (replyWorld "fall" inconsistentReply) 7 "uploads/recording-1.webm"
     "uploads/recording-1.webm" sampleRun interleavedStmts (by decide)).2.2,
   by decide⟩

/-- C18, as stated, fails. When the store rejects the `INSERT` of the upload of
`sampleUpload`, a request of responder 4 with a file, the handler answers 500, adds no row
to `recordings` and starts no pipeline run. -/
theorem upload_insert_rejected_answers_500 :
    (uploadHandler false sampleUpload sampleRun).1.toOption =
      some { response := { status := 500
                           body := .obj [("error", .str "Server error during upload")] }
             triggered := none } ∧
    (uploadHandler false sampleUpload sampleRun).2 = sampleRun ∧
    (uploadExecution (replyWorld "fall" criticalReply) false sampleUpload sampleRun).2 =
      sampleRun := by
  decide

/-- C18, amended. For every request that reached the handler of `POST /upload` with a file
(authenticated responder `user_id`, context `patient_info`, file stored at `path`), if the
store carries out the `INSERT`, the handler appends exactly one row to `recordings`, with a
new id, owner the requester, the `patient_info` and path of the request and status
`'pending'`, starts `processRecording` for that id and path, and answers 201 with that id;
the rest of the execution is that pipeline run on the store with the new row. If the store
rejects the `INSERT`, the handler adds nothing, starts nothing and answers 500. -/
theorem upload_creates_pending_recording (w : World) (accept : Bool) (req : UploadRequest)
    (path : String) (r : Run) (hf : req.file_path = some path) :
    (accept = true →
      ∃ id row out r1, uploadHandler accept req r = (.ok out, r1) ∧
        r1.store.recordings = r.store.recordings ++ [row] ∧
        r1.store.users = r.store.users ∧ r1.store.notifications = r.store.notifications ∧
        (∀ old ∈ r.store.recordings, old.id < id) ∧
        row.id = id ∧ row.emt_id = some req.user_id ∧ row.patient_info = req.patient_info ∧
        row.audio_file_path = path ∧ row.status = "pending" ∧
        out.triggered = some (id, path) ∧
        out.response =
          { status := 201
            body := .obj [("message", .str "Recording uploaded successfully"),
              ("recording", .obj [("id", .num id 0), ("emt_id", .num req.user_id 0),
                ("patient_info", optionalText req.patient_info),
                ("audio_file_path", .str path)])] } ∧
        uploadExecution w accept req r =
          (out.response, (processRecording w id path r1).2)) ∧
    (accept = false →
      uploadExecution w accept req r =
        ({ status := 500, body := .obj [("error", .str "Server error during upload")] }, r)) := by
  refine ⟨?_, ?_⟩
  · intro ha
    subst ha
    have h := uploadHandler_accepted req path r hf
    refine ⟨nextId (r.store.recordings.map (fun row => row.id)), _, _, _, h, rfl, rfl, rfl,
      ?_, rfl, rfl, rfl, rfl, rfl, rfl, rfl, ?_⟩
    · intro old hold
      exact lt_nextId _ _ (List.mem_map.mpr ⟨old, hold, rfl⟩)
    · unfold uploadExecution
      rw [h]
  · intro ha
    subst ha
    unfold uploadExecution
    rw [uploadHandler_rejected]

/-- C18, amended, at an instance: the upload of `sampleUpload` on `sampleStore` creates
recording 8 in status `'pending'` and answers 201. -/
theorem upload_creates_pending_recording_witness :
    sampleUpload.file_path = some "uploads/recording-2.webm" ∧
    (∃ id row out r1, uploadHandler true sampleUpload sampleRun = (.ok out, r1) ∧
        r1.store.recordings = sampleRun.store.recordings ++ [row] ∧
        r1.store.users = sampleRun.store.users ∧
        r1.store.notifications = sampleRun.store.notifications ∧
        (∀ old ∈ sampleRun.store.recordings, old.id < id) ∧
        row.id = id ∧ row.emt_id = some sampleUpload.user_id ∧
        row.patient_info = sampleUpload.patient_info ∧
        row.audio_file_path = "uploads/recording-2.webm" ∧ row.status = "pending" ∧
        out.triggered = some (id, "uploads/recording-2.webm") ∧
        out.response =
          { status := 201
            body := .obj [("message", .str "Recording uploaded successfully"),
              ("recording", .obj [("id", .num id 0),
                ("emt_id", .num sampleUpload.user_id 0),
                ("patient_info", optionalText sampleUpload.patient_info),
                ("audio_file_path", .str "uploads/recording-2.webm")])] } ∧
        uploadExecution (replyWorld "fall" criticalReply) true sampleUpload sampleRun =
          (out.response, (processRecording (replyWorld "fall" criticalReply) id
            "uploads/recording-2.webm" r1).2)) ∧
    (uploadExecution (replyWorld "fall" criticalReply) true sampleUpload
        sampleRun).2.store.recordings.map (fun row => (row.id, row.emt_id, row.status)) =
      [(7, some 4, "pending"), (8, some 4, "notified")] :=
  ⟨rfl,
   (upload_creates_pending_recording (replyWorld "fall" criticalReply) true sampleUpload
     "uploads/recording-2.webm" sampleRun rfl).1 rfl,
   by decide⟩

/-- C19. The response of an upload does not depend on the pipeline: for every request,
every answer of the store to the `INSERT` and every store state, two executions whose
worlds differ in any way (the outcome of transcription, of analysis, of the results update,
of the fan-out) give the same status code and body, which is the response the handler
built before the pipeline run went on. -/
theorem upload_response_independent_of_pipeline (w1 w2 : World) (accept : Bool)
    (req : UploadRequest) (r : Run) :
    (uploadExecution w1 accept req r).1 = (uploadExecution w2 accept req r).1 ∧
    (uploadHandler accept req r).1.toOption.map (fun out => out.response) =
      some (uploadExecution w1 accept req r).1 := by
  unfold uploadExecution
  rcases h : uploadHandler accept req r with ⟨res, r1⟩
  cases res with
  | error e =>
    exfalso
    cases accept
    · rw [uploadHandler_rejected] at h
      cases h
    · cases hf : req.file_path with
      | none =>
        simp [uploadHandler, uploadBody, Js.tryCatch, Js.bind_eq, Js.bind, Js.ofExcept, hf,
          Js.pure_eq, Js.pure] at h
      | some path =>
        rw [uploadHandler_accepted req path r hf] at h
        cases h
  | ok out =>
    cases ht : out.triggered with
    | none => simp [ht, Except.toOption]
    | some t => cases t; simp [ht, Except.toOption]

/-- C20. The file filter of the upload accepts MIME types that are not audio types: the
pattern has no anchor, so `x-audio/mp3`, which does not begin with `audio/`, passes, while
the filter's own error says that only audio files are allowed. -/
theorem fileFilter_accepts_non_audio_type :
    isAudioType "x-audio/mp3" = false ∧
    (fileFilter "x-audio/mp3").toOption = some true ∧
    fileFilter "video/mp4" = .error "Only audio files are allowed" ∧
    fileFilter "audio/webm" = .ok true := by
  refine ⟨by decide, by decide, rfl, rfl⟩

/-- C21. For every doctor, every value of `sortBy` and every store, when the store carries
out the query `GET /notifications` answers rows each of which is a notification row of that
doctor with the columns of its recording and of the responder of that recording. The rows
are in risk score descending, then priority level ascending, then sent time descending
order when `sortBy` is `'priority'`, in sent time ascending order when it is `'oldest'`, and
in sent time descending order for `'newest'`, for a missing `sortBy` and for every other
value. On a store that respects the keys of the schema (recording ids and user ids are
distinct, every notification of the doctor refers to a recording that exists and whose
responder is among the users) the rows are, up to order, exactly the notification rows of
the doctor. -/
theorem getNotifications_rows_and_order (sortBy : JsVal) (doctorId : Nat) (r : Run) :
    ∃ rows, getNotifications true sortBy doctorId r = (.ok (.rows rows), r) ∧
      (∀ v ∈ rows, v.notification ∈ r.store.notifications ∧
        v.notification.doctor_id = doctorId ∧
        ∃ rec ∈ r.store.recordings, ∃ u ∈ r.store.users,
          rec.id = v.notification.recording_id ∧ rec.emt_id = some u.id ∧
          v = notificationView v.notification rec u) ∧
      (sortBy = .str "priority" → List.Sorted triageOrder rows) ∧
      (sortBy = .str "oldest" → List.Sorted oldestFirst rows) ∧
      (sortBy ≠ .str "priority" → sortBy ≠ .str "oldest" → List.Sorted newestFirst rows) ∧
      ((r.store.recordings.map (fun rec => rec.id)).Nodup →
        (r.store.users.map (fun u => u.id)).Nodup →
        (∀ n ∈ r.store.notifications, n.doctor_id = doctorId →
          ∃ rec ∈ r.store.recordings, rec.id = n.recording_id ∧
            ∃ u ∈ r.store.users, rec.emt_id = some u.id) →
        List.Perm (rows.map (fun v => v.notification))
          (r.store.notifications.filter (fun n => n.doctor_id = doctorId))) := by
  refine ⟨_, getNotifications_ok sortBy doctorId r, ?_, ?_, ?_, ?_, ?_⟩
  · intro v hv
    have hperm := List.perm_insertionSort (mayPrecede (orderClause sortBy))
      (joinedNotifications r.store doctorId)
    exact mem_joinedNotifications r.store doctorId v (hperm.mem_iff.mp hv)
  · intro h
    rw [(orderClause_cases sortBy).1 h]
    exact (insertionSort_sorted _ _).imp (fun {a b} hab => (mayPrecede_triage a b).mp hab)
  · intro h
    rw [(orderClause_cases sortBy).2.1 h]
    exact (insertionSort_sorted _ _).imp (fun {a b} hab => (mayPrecede_oldest a b).mp hab)
  · intro h1 h2
    rw [(orderClause_cases sortBy).2.2 h1 h2]
    exact (insertionSort_sorted _ _).imp (fun {a b} hab => (mayPrecede_newest a b).mp hab)
  · intro hrec husers hkeys
    have hmap := joinedNotifications_map doctorId r.store.users r.store.recordings
      r.store.notifications hrec husers hkeys
    have hperm := List.perm_insertionSort (mayPrecede (orderClause sortBy))
      (joinedNotifications r.store doctorId)
    have := hperm.map (fun v => v.notification)
    rw [← hmap]
    exact this

/-- C21 at an instance: doctor 1 on `triageStore`, which respects the keys; the four
notifications of the doctor come back as 5, 2, 3, 1 under `'priority'`, as 1, 2, 3, 5 under
`'oldest'` and as 5, 3, 2, 1 without a `sortBy`. -/
theorem getNotifications_rows_and_order_witness :
    ((triageRun.store.recordings.map (fun rec => rec.id)).Nodup ∧
      (triageRun.store.users.map (fun u => u.id)).Nodup ∧
      (∀ n ∈ triageRun.store.notifications, n.doctor_id = 1 →
        ∃ rec ∈ triageRun.store.recordings, rec.id = n.recording_id ∧
          ∃ u ∈ triageRun.store.users, rec.emt_id = some u.id)) ∧
    (∃ rows, getNotifications true (.str "priority") 1 triageRun = (.ok (.rows rows), triageRun) ∧
      (∀ v ∈ rows, v.notification ∈ triageRun.store.notifications ∧
        v.notification.doctor_id = 1 ∧
        ∃ rec ∈ triageRun.store.recordings, ∃ u ∈ triageRun.store.users,
          rec.id = v.notification.recording_id ∧ rec.emt_id = some u.id ∧
          v = notificationView v.notification rec u) ∧
      List.Sorted triageOrder rows ∧
      List.Perm (rows.map (fun v => v.notification))
        (triageRun.store.notifications.filter (fun n => n.doctor_id = 1))) ∧
    notificationIds (getNotifications true (.str "priority") 1 triageRun).1 = [5, 2, 3, 1] ∧
    notificationIds (getNotifications true (.str "oldest") 1 triageRun).1 = [1, 2, 3, 5] ∧
    notificationIds (getNotifications true .undefined 1 triageRun).1 = [5, 3, 2, 1] :=
  ⟨⟨by decide, by decide, by decide⟩,
   (getNotifications_rows_and_order (.str "priority") 1 triageRun).elim
     (fun rows h => ⟨rows, h.1, h.2.1, h.2.2.1 rfl,
       h.2.2.2.2.2 (by decide) (by decide) (by decide)⟩),
   by decide, by decide, by decide⟩

/-- C22. For every request to `POST /send`, every outcome of `sendSMS` and of `sendEmail`
and every answer of the store to the statements of the handler, the rows of `recordings`
after the request are the rows before it, statuses included, and so are the rows of
`users`. -/
theorem send_leaves_recordings_unchanged (w : SendWorld) (req : SendRequest) (s : Store) :
    (sendNotification w req s).store.recordings = s.recordings ∧
    (sendNotification w req s).store.users = s.users := by
  rcases sendNotification_store w req s with h | h <;> rw [h] <;> exact ⟨rfl, rfl⟩

/-- C23, as stated, fails. The reply `nestedSignsReply` is a complete assessment whose vital
signs are an object and whose symptoms are an array, both truthy. The run on it writes
`'completed'`, and the row of recording 7 keeps in `vital_signs` and in `symptoms` the text
`[object Object]`, which is what the driver binds for an object or an array, not the value
of the assessment. -/
theorem nested_member_kept_as_text :
    Event.statusSet 7 "completed" ∈
      runEvents (replyWorld "ok" nestedSignsReply) 7 "uploads/recording-1.webm" sampleRun ∧
    (analysisOf (replyWorld "ok" nestedSignsReply) "ok" "male, 54").getField "vital_signs" =
      .ok (.obj [("bp", .str "80/50"), ("pulse", .num 120 0)]) ∧
    (JsVal.obj [("bp", .str "80/50"), ("pulse", .num 120 0)]).truthy = true ∧
    (processRecording (replyWorld "ok" nestedSignsReply) 7 "uploads/recording-1.webm"
      sampleRun).2.store.recordings.map
        (fun row => (row.id, keptValue .text row.vital_signs, keptValue .text row.symptoms)) =
      [(7, some (.str "[object Object]"), some (.str "[object Object]"))] ∧
    some (JsVal.str "[object Object]") ≠
      some (JsVal.obj [("bp", .str "80/50"), ("pulse", .num 120 0)]) := by
  refine ⟨by decide, rfl, by decide, by decide, by decide⟩

/-- C23, amended. When the analysis step returned an assessment object and the run wrote
`'completed'`, the results update bound to each column the member of the assessment when it
is truthy and the default of the column otherwise (risk score 5, priority level 3, chief
complaint `'Not specified'`, vital signs `'Not recorded'`, symptoms `'Not specified'`,
recommended actions `'Standard care'`, critical info `'None'`, and for the summary the JSON
text of the whole assessment), and every row of the submission keeps of that parameter what
the driver and the affinity of the column make of it. The transcription column keeps the
transcript. A text column keeps the member when it is a non-empty text, the default when
the member is missing or falsy, and the text `[object Object]` when the member is an object
or an array. The columns `risk_score` and `priority_level` keep the member when it is a
number other than zero and the default when it is missing or falsy. So a risk score from 1
to 10 is kept as it is, and a risk score of 0 is kept as 5. -/
theorem kept_fields_are_value_or_default (w : World) (recordingId : Nat)
    (audioFilePath : String) (r : Run) (transcription : String)
    (members : List (String × JsVal))
    (hT : w.transcribe audioFilePath = .ok transcription)
    (ha : analysisOf w transcription (patientInfoIn r.store.recordings recordingId) =
      .obj members)
    (hc : Event.statusSet recordingId "completed" ∈ runEvents w recordingId audioFilePath r) :
    ∀ row ∈ (processRecording w recordingId audioFilePath r).2.store.recordings,
      row.id = recordingId →
        keptValue .text row.transcription = some (.str transcription) ∧
        (∀ c ∈ [(row.llm_summary, "medical_summary", w.stringify (.obj members)),
                (row.chief_complaint, "chief_complaint", "Not specified"),
                (row.vital_signs, "vital_signs", "Not recorded"),
                (row.symptoms, "symptoms", "Not specified"),
                (row.recommended_actions, "recommended_actions", "Standard care"),
                (row.critical_info, "critical_info", "None")],
          keptValue .text c.1 =
            keptValue .text ((assessmentField members c.2.1).or (.str c.2.2)) ∧
          (∀ s, assessmentField members c.2.1 = .str s → s ≠ "" →
            keptValue .text c.1 = some (.str s)) ∧
          ((assessmentField members c.2.1).truthy = false →
            keptValue .text c.1 = some (.str c.2.2)) ∧
          (∀ ms, assessmentField members c.2.1 = .obj ms →
            keptValue .text c.1 = some (.str "[object Object]")) ∧
          (∀ items, assessmentField members c.2.1 = .arr items →
            keptValue .text c.1 = some (.str "[object Object]"))) ∧
        (∀ c ∈ [(row.risk_score, "risk_score", (5 : Int)),
                (row.priority_level, "priority_level", 3)],
          keptValue .integer c.1 =
            keptValue .integer ((assessmentField members c.2.1).or (.num c.2.2 0)) ∧
          (∀ m e, assessmentField members c.2.1 = .num m e → m ≠ 0 →
            keptValue .integer c.1 = some (.num m e)) ∧
          ((assessmentField members c.2.1).truthy = false →
            keptValue .integer c.1 = some (.num c.2.2 0))) ∧
        (∀ n : Int, 1 ≤ n → n ≤ 10 → assessmentField members "risk_score" = .num n 0 →
          keptValue .integer row.risk_score = some (.num n 0)) ∧
        (assessmentField members "risk_score" = .num 0 0 →
          keptValue .integer row.risk_score = some (.num 5 0)) := by
  obtain ⟨t, p, hP, hQ, hT2, hp, hR, hr, hl⟩ :=
    results_written_of_completed w recordingId audioFilePath r hc
  rw [hT] at hT2
  cases hT2
  rw [ha, resultParams_obj] at hp
  obtain ⟨s, hs⟩ := processRecording_rows_after_results w recordingId audioFilePath r
    transcription p hP hQ hT (by rw [ha, resultParams_obj]; exact hp) hR hr hl
  intro row hrow hid
  rw [hs] at hrow
  have hst := storedResults_after_setResults p s recordingId r.store.recordings row hrow hid
  have hpe := (Except.ok.inj hp).symm
  rw [hpe] at hst
  simp only [storedResults, ResultParams.mk.injEq] at hst
  obtain ⟨h1, h2, h3, h4, h5, h6, h7, h8, h9⟩ := hst
  refine ⟨by rw [h1]; rfl, ?_, ?_, ?_, ?_⟩
  · intro c hc
    simp only [List.mem_cons, List.mem_singleton, List.not_mem_nil, or_false] at hc
    rcases hc with rfl | rfl | rfl | rfl | rfl | rfl
    · exact keptValue_text_or _ _ _ h2
    · exact keptValue_text_or _ _ _ h5
    · exact keptValue_text_or _ _ _ h6
    · exact keptValue_text_or _ _ _ h7
    · exact keptValue_text_or _ _ _ h8
    · exact keptValue_text_or _ _ _ h9
  · intro c hc
    simp only [List.mem_cons, List.mem_singleton, List.not_mem_nil, or_false] at hc
    rcases hc with rfl | rfl
    · exact keptValue_integer_or _ _ _ h3
    · exact keptValue_integer_or _ _ _ h4
  · intro n hn1 _ hf
    exact (keptValue_integer_or _ _ _ h3).2.1 n 0 hf (by omega)
  · intro hf
    exact (keptValue_integer_or _ _ _ h3).2.2 (by rw [hf]; rfl)

/-- C23, amended, at three instances. The reply `zeroRiskReply`, with risk score 0 and empty
recommended actions, is kept with risk score 5, its chief complaint and recommended actions
`'Standard care'`. The reply `riskOnlyReply`, with risk score 7 and no other member, is kept
with risk score 7, its own JSON text as the summary and critical info `'None'`. The reply
`tinyRiskReply`, whose risk score `1e-400` is the number 0, is kept with risk score 5. -/
theorem kept_fields_are_value_or_default_witness :
    (∀ row ∈ (processRecording (replyWorld "ok" zeroRiskReply) 7 "uploads/recording-1.webm"
        sampleRun).2.store.recordings,
      row.id = 7 →
        keptValue .integer row.risk_score = some (.num 5 0) ∧
        keptValue .text row.chief_complaint = some (.str "Check-up") ∧
        keptValue .text row.recommended_actions = some (.str "Standard care")) ∧
    (∀ row ∈ (processRecording (replyWorld "ok" riskOnlyReply) 7 "uploads/recording-1.webm"
        sampleRun).2.store.recordings,
      row.id = 7 →
        keptValue .integer row.risk_score = some (.num 7 0) ∧
        keptValue .text row.llm_summary = some (.str riskOnlyReply) ∧
        keptValue .text row.critical_info = some (.str "None")) ∧
    (∀ row ∈ (processRecording (replyWorld "ok" tinyRiskReply) 7 "uploads/recording-1.webm"
        sampleRun).2.store.recordings,
      row.id = 7 → keptValue .integer row.risk_score = some (.num 5 0)) ∧
    (processRecording (replyWorld "ok" zeroRiskReply) 7 "uploads/recording-1.webm"
        sampleRun).2.store.recordings.map (fun row => (row.id, row.status)) =
      [(7, "notified")] := by
  refine ⟨?_, ?_, ?_, by decide⟩
  · intro row hrow hid
    have h := kept_fields_are_value_or_default (replyWorld "ok" zeroRiskReply) 7
      "uploads/recording-1.webm" sampleRun "ok"
      [("chief_complaint", .str "Check-up"), ("vital_signs", .str "BP 120/80"),
        ("symptoms", .str "None"), ("risk_score", .num 0 0), ("priority_level", .num 5 0),
        ("urgency_level", .str "routine"), ("recommended_actions", .str ""),
        ("critical_info", .str "No findings"), ("medical_summary", .str "Routine check-up")]
      rfl (by decide) (by decide) row hrow hid
    exact ⟨h.2.2.2.2 rfl,
      (h.2.1 (row.chief_complaint, "chief_complaint", "Not specified")
        (by simp)).2.1 "Check-up" rfl (by decide),
      (h.2.1 (row.recommended_actions, "recommended_actions", "Standard care")
        (by simp)).2.2.1 rfl⟩
  · intro row hrow hid
    have h := kept_fields_are_value_or_default (replyWorld "ok" riskOnlyReply) 7
      "uploads/recording-1.webm" sampleRun "ok" [("risk_score", .num 7 0)]
      rfl (by decide) (by decide) row hrow hid
    exact ⟨h.2.2.2.1 7 (by decide) (by decide) rfl,
      (h.2.1 (row.llm_summary, "medical_summary",
        (replyWorld "ok" riskOnlyReply).stringify (.obj [("risk_score", .num 7 0)]))
        (by simp)).2.2.1 rfl,
      (h.2.1 (row.critical_info, "critical_info", "None") (by simp)).2.2.1 rfl⟩
  · intro row hrow hid
    exact (kept_fields_are_value_or_default (replyWorld "ok" tinyRiskReply) 7
      "uploads/recording-1.webm" sampleRun "ok" [("risk_score", .num 0 0)]
      rfl (by decide!) (by decide!) row hrow hid).2.2.2.2 rfl

/-- C24, as stated, fails. On `triageStore`, a request of type `'both'` for recording 8 and
doctor 1 whose SMS fails never attempts the email: the only call is `sendSMS` and the answer
is 500. A request of type `'sms'` for a recording that does not exist attempts nothing and
is answered 404. -/
theorem failed_sms_skips_email :
    (sendNotification (sendWorld false true)
      { recording_id := 8, doctor_id := 1, notification_type := .str "both" }
      triageStore).attempted = [Channel.sms] ∧
    (sendNotification (sendWorld false true)
      { recording_id := 8, doctor_id := 1, notification_type := .str "both" }
      triageStore).response.status = 500 ∧
    (sendNotification (sendWorld true true)
      { recording_id := 99, doctor_id := 1, notification_type := .str "sms" }
      triageStore).attempted = [] ∧
    (sendNotification (sendWorld true true)
      { recording_id := 99, doctor_id := 1, notification_type := .str "sms" }
      triageStore).response.status = 404 := by
  decide

/-- C24, amended. Provided the store carries out the two queries of `POST /send`: when the
recording or the user does not exist the handler sends nothing, changes nothing and answers
404. When both exist, for every value of `notification_type` it attempts the SMS exactly
when the type is `'sms'` or `'both'`, and the email exactly when the type is `'email'` or
`'both'` and the SMS, if attempted, succeeded. It sets `delivered = 1` on the rows of that
recording and doctor and answers 200 exactly when every attempted send succeeded and the
store carries out the update, which includes a type that is none of the three, where
nothing is sent; otherwise `delivered` is left unchanged and the answer is 500. -/
theorem send_attempts_and_delivery (w : SendWorld) (req : SendRequest) (s : Store)
    (hq : w.acceptRecordingQuery = true) (hu : w.acceptUserQuery = true) :
    (sendTargets s req = none →
      sendNotification w req s =
        { response := { status := 404
                        body := .obj [("error", .str "Recording or doctor not found")] }
          attempted := []
          store := s }) ∧
    (∀ rec doc, sendTargets s req = some (rec, doc) →
      (Channel.sms ∈ (sendNotification w req s).attempted ↔
        (req.notification_type = .str "sms" ∨ req.notification_type = .str "both")) ∧
      (Channel.email ∈ (sendNotification w req s).attempted ↔
        ((req.notification_type = .str "email" ∨ req.notification_type = .str "both") ∧
          (Channel.sms ∈ (sendNotification w req s).attempted →
            w.sendSMS doc.phone rec doc = .ok ()))) ∧
      (((Channel.sms ∈ (sendNotification w req s).attempted →
            w.sendSMS doc.phone rec doc = .ok ()) ∧
          (Channel.email ∈ (sendNotification w req s).attempted →
            w.sendEmail doc.email rec doc = .ok ()) ∧
          w.acceptDelivered = true) →
        (sendNotification w req s).store.notifications =
          setDelivered req.recording_id req.doctor_id s.notifications ∧
        (sendNotification w req s).response =
          { status := 200
            body := .obj [("message", .str "Notification sent successfully")] }) ∧
      (¬ ((Channel.sms ∈ (sendNotification w req s).attempted →
            w.sendSMS doc.phone rec doc = .ok ()) ∧
          (Channel.email ∈ (sendNotification w req s).attempted →
            w.sendEmail doc.email rec doc = .ok ()) ∧
          w.acceptDelivered = true) →
        (sendNotification w req s).store.notifications = s.notifications ∧
        (sendNotification w req s).response =
          { status := 500
            body := .obj [("error", .str "Server error sending notification")] })) := by
  refine ⟨sendNotification_not_found w req s hq hu, ?_⟩
  intro rec doc ht
  rw [sendNotification_found w req s hq hu rec doc ht]
  exact sendTo_spec w req s rec doc

/-- C24, amended, at an instance: a request of type `'fax'` for recording 8 and doctor 1 of
`triageStore` sends nothing, sets `delivered` on the notifications 2 and 5 and is answered
200. -/
theorem send_attempts_and_delivery_witness :
    sendTargets triageStore
      { recording_id := 8, doctor_id := 1, notification_type := .str "fax" } ≠ none ∧
    (sendNotification (sendWorld true true)
      { recording_id := 8, doctor_id := 1, notification_type := .str "fax" }
      triageStore).attempted = [] ∧
    (sendNotification (sendWorld true true)
      { recording_id := 8, doctor_id := 1, notification_type := .str "fax" }
      triageStore).store.notifications.map (fun n => (n.id, n.delivered)) =
        [(1, 0), (2, 1), (3, 0), (4, 0), (5, 1)] ∧
    ((sendTargets triageStore
        { recording_id := 99, doctor_id := 1, notification_type := .str "sms" } = none →
      sendNotification (sendWorld true true)
          { recording_id := 99, doctor_id := 1, notification_type := .str "sms" } triageStore =
        { response := { status := 404
                        body := .obj [("error", .str "Recording or doctor not found")] }
          attempted := []
          store := triageStore })) :=
  ⟨by decide, by decide, by decide,
   (send_attempts_and_delivery (sendWorld true true)
     { recording_id := 99, doctor_id := 1, notification_type := .str "sms" } triageStore
     rfl rfl).1⟩

/-- C25. `PATCH /availability`, when the store carries out its update, stores 1 in
`is_available` of the requesting user when the `is_available` of the request is truthy and 0
otherwise, and changes no other row and no other column; when the store rejects the update
nothing changes and the answer is 500. In a store with distinct user ids, a user whose
stored `is_available` is 0 gets no notification row from a `notifyDoctors` pass, whatever
the pass meets, and a doctor whose value is 1 gets exactly one row from every pass whose
statements the store carries out. -/
theorem availability_decides_fanout (is_available : JsVal) (userId : Nat) (r : Run) :
    ((patchAvailability true is_available userId r).1 =
        .ok { status := 200
              body := .obj [("message", .str "Availability updated successfully"),
                ("is_available", is_available)] } ∧
      (patchAvailability true is_available userId r).2.store.users =
        r.store.users.map (fun u =>
          if u.id = userId then
            { u with is_available := if is_available.truthy then 1 else 0 }
          else u) ∧
      (patchAvailability true is_available userId r).2.store.recordings =
        r.store.recordings ∧
      (patchAvailability true is_available userId r).2.store.notifications =
        r.store.notifications) ∧
    patchAvailability false is_available userId r =
      (.ok { status := 500
             body := .obj [("error", .str "Server error updating availability")] }, r) ∧
    (∀ (w : World) (recordingId : Nat) (summary : JsVal) (pass : Run),
      (pass.store.users.map (fun u => u.id)).Nodup →
      ∀ u ∈ pass.store.users,
        (u.is_available = 0 →
          ∀ n ∈ passNotifications w recordingId summary pass, n.doctor_id ≠ u.id) ∧
        (u.role = "doctor" → u.is_available = 1 →
          fanoutAccepted w pass.store.users = true →
          ((passNotifications w recordingId summary pass).filter
            (fun n => n.doctor_id = u.id)).length = 1)) := by
  refine ⟨⟨rfl, rfl, rfl, rfl⟩, rfl, ?_⟩
  intro w recordingId summary pass hids u hu
  obtain ⟨_, g2, g3⟩ := passNotifications_spec w recordingId summary pass
  refine ⟨?_, ?_⟩
  · intro h0 n hn hid
    obtain ⟨d, hd, hdid⟩ := (g2 n hn).2.2
    have hdu : d ∈ pass.store.users := (List.mem_filter.mp hd).1
    have hdeq : d = u := List.inj_on_of_nodup_map hids hdu hu (hdid.symm.trans hid)
    have hav := (List.mem_filter.mp hd).2
    rw [hdeq] at hav
    simp [h0] at hav
  · intro hrole h1 hok
    rw [filter_length_eq_count (fun n : NotificationRow => n.doctor_id)
      (passNotifications w recordingId summary pass) u.id, g3 hok]
    apply List.count_eq_one_of_mem (availableDoctors_ids_nodup pass.store.users hids)
    apply List.mem_map.mpr
    refine ⟨u, ?_, rfl⟩
    unfold availableDoctors
    rw [List.mem_filter]
    exact ⟨hu, by simp [hrole, h1]⟩

/-- C25 at an instance: after doctor 1 of `sampleStore` sends `is_available: false`, a pass
for recording 7 adds a row for doctor 2 only; had the request carried the text `'false'`,
which is truthy, the stored value would be 1. -/
theorem availability_decides_fanout_witness :
    (passNotifications (replyWorld "fall" criticalReply) 7 (.str "summary")
        (patchAvailability true (.bool false) 1 sampleRun).2).map (fun n => n.doctor_id) =
      [2] ∧
    (∀ n ∈ passNotifications (replyWorld "fall" criticalReply) 7 (.str "summary")
        (patchAvailability true (.bool false) 1 sampleRun).2, n.doctor_id ≠ 1) ∧
    (patchAvailability true (.str "false") 3 sampleRun).2.store.users.map
        (fun u => (u.id, u.is_available)) = [(1, 1), (2, 1), (3, 1), (4, 1)] :=
  ⟨by decide,
   ((availability_decides_fanout (.bool false) 1 sampleRun).2.2
     (replyWorld "fall" criticalReply) 7 (.str "summary")
     (patchAvailability true (.bool false) 1 sampleRun).2 (by decide)
     { id := 1, role := "doctor", is_available := 0 } (by decide)).1 rfl,
   by decide⟩

/-- C26. For every store, whatever the status of any recording, and every answer of the
store to the update: `PATCH /notifications/:id/read` leaves every row of `recordings` and
`users` as it was, and each notification row is either unchanged or a row of the requesting
doctor in which only `read_at` was set; `POST /recordings/:id/respond` does the same with
`response`. When the store carries out the update both answer with success, whether or not
a row matched. -/
theorem read_and_respond_change_own_notifications (accept : Bool) (now : Nat)
    (id : Option Nat) (response : Option String) (userId : Nat) (r : Run) :
    ((markRead accept now id userId r).2.store.recordings = r.store.recordings ∧
      (markRead accept now id userId r).2.store.users = r.store.users ∧
      List.Forall₂
        (fun n n' => n' = n ∨ (n.doctor_id = userId ∧ n' = { n with read_at := some now }))
        r.store.notifications (markRead accept now id userId r).2.store.notifications ∧
      (accept = true →
        (markRead accept now id userId r).1 =
          .ok { status := 200
                body := .obj [("message", .str "Notification marked as read")] })) ∧
    ((respond accept response id userId r).2.store.recordings = r.store.recordings ∧
      (respond accept response id userId r).2.store.users = r.store.users ∧
      List.Forall₂
        (fun n n' => n' = n ∨ (n.doctor_id = userId ∧ n' = { n with response := response }))
        r.store.notifications (respond accept response id userId r).2.store.notifications ∧
      (accept = true →
        (respond accept response id userId r).1 =
          .ok { status := 200
                body := .obj [("message", .str "Response recorded successfully")] })) := by
  cases accept
  · refine ⟨⟨rfl, rfl, ?_, by simp⟩, ⟨rfl, rfl, ?_, by simp⟩⟩
    · exact List.forall₂_same.mpr (fun n _ => Or.inl rfl)
    · exact List.forall₂_same.mpr (fun n _ => Or.inl rfl)
  · refine ⟨⟨rfl, rfl, ?_, fun _ => rfl⟩, ⟨rfl, rfl, ?_, fun _ => rfl⟩⟩
    · show List.Forall₂ _ r.store.notifications (r.store.notifications.map _)
      apply forall2_map_same
      intro n _
      by_cases h : some n.id = id ∧ n.doctor_id = userId
      · rw [if_pos h]; exact Or.inr ⟨h.2, rfl⟩
      · rw [if_neg h]; exact Or.inl rfl
    · show List.Forall₂ _ r.store.notifications (r.store.notifications.map _)
      apply forall2_map_same
      intro n _
      by_cases h : some n.recording_id = id ∧ n.doctor_id = userId
      · rw [if_pos h]; exact Or.inr ⟨h.2, rfl⟩
      · rw [if_neg h]; exact Or.inl rfl

/-- C26 at an instance: on `triageStore`, doctor 2 marking notification 1, which belongs to
doctor 1, changes nothing and is answered with success; doctor 1 marking it sets its
`read_at`; doctor 1 responding to recording 8 sets `response` on notifications 2 and 5. -/
theorem read_and_respond_change_own_notifications_witness :
    ((markRead true 50 (some 1) 2 triageRun).2 = triageRun ∧
      (markRead true 50 (some 1) 2 triageRun).1.toOption.map (fun res => res.status) =
        some 200) ∧
    (markRead true 50 (some 1) 1 triageRun).2.store.notifications.map
        (fun n => (n.id, n.read_at)) =
      [(1, some 50), (2, none), (3, none), (4, none), (5, none)] ∧
    (respond true (some "on my way") (some 8) 1 triageRun).2.store.notifications.map
        (fun n => (n.id, n.response)) =
      [(1, none), (2, some "on my way"), (3, none), (4, none), (5, some "on my way")] ∧
    (markRead true 50 (some 1) 2 triageRun).1 =
      .ok { status := 200, body := .obj [("message", .str "Notification marked as read")] } :=
  ⟨by decide, by decide, by decide,
   (read_and_respond_change_own_notifications true 50 (some 1) none 2 triageRun).1.2.2.2 rfl⟩

/-- C27. For every world, whatever the outcome of transcription, of analysis, of the
results update and of the fan-out, `processRecording` resolves when the store carries out
the update that sets status `'error'`; when it rejects with an error, that update was
rejected, a step of the run had failed before it (no `'notified'` was written), and the
error is the one of the rejected update. -/
theorem processRecording_raises_only_if_error_write_rejected (w : World) (recordingId : Nat)
    (audioFilePath : String) (r : Run) :
    (w.acceptError = true → (processRecording w recordingId audioFilePath r).1 = .ok ()) ∧
    (∀ e, (processRecording w recordingId audioFilePath r).1 = .error e →
      w.acceptError = false ∧ e = .external "SQLITE_ERROR" ∧
      Event.statusSet recordingId "notified" ∉ runEvents w recordingId audioFilePath r ∧
      Event.statusSet recordingId "error" ∉ runEvents w recordingId audioFilePath r) ∧
    ((processRecording w recordingId audioFilePath r).1 = .ok () ∨
      (processRecording w recordingId audioFilePath r).1 = .error (.external "SQLITE_ERROR")) := by
  rw [processRecording_result, runEvents_eq]
  refine ⟨?_, ?_, ?_⟩
  · intro h
    simp [h]
  · intro e he
    by_cases hc : Event.statusSet recordingId "notified" ∈
        pipelineEvents w recordingId audioFilePath r ∨ w.acceptError = true
    · rw [if_pos hc] at he
      cases he
    · rw [if_neg hc] at he
      push_neg at hc
      have hE : w.acceptError = false := by
        cases h : w.acceptError
        · rfl
        · exact absurd h hc.2
      refine ⟨hE, (Except.error.inj he).symm, hc.1, ?_⟩
      intro hmem
      have := acceptError_of_error_written w recordingId audioFilePath r hmem
      rw [hE] at this
      cases this
  · by_cases hc : Event.statusSet recordingId "notified" ∈
        pipelineEvents w recordingId audioFilePath r ∨ w.acceptError = true
    · left; rw [if_pos hc]
    · right; rw [if_neg hc]

/-- C27 at an instance: in `lockedWorld` the results update is rejected and then the
`'error'` update too, and the run rejects. -/
theorem processRecording_raises_only_if_error_write_rejected_witness :
    (processRecording lockedWorld 7 "uploads/recording-1.webm" sampleRun).1 =
      .error (.external "SQLITE_ERROR") ∧
    (lockedWorld.acceptError = false ∧ JsErr.external "SQLITE_ERROR" = .external "SQLITE_ERROR" ∧
      Event.statusSet 7 "notified" ∉
        runEvents lockedWorld 7 "uploads/recording-1.webm" sampleRun ∧
      Event.statusSet 7 "error" ∉
        runEvents lockedWorld 7 "uploads/recording-1.webm" sampleRun) ∧
    (processRecording (fanoutWorld false (fun _ => true) true) 7 "uploads/recording-1.webm"
      sampleRun).1 = .ok () :=
  ⟨rfl,
   (processRecording_raises_only_if_error_write_rejected lockedWorld 7
     "uploads/recording-1.webm" sampleRun).2.1 _ rfl,
   (processRecording_raises_only_if_error_write_rejected (fanoutWorld false (fun _ => true) true)
     7 "uploads/recording-1.webm" sampleRun).1 rfl⟩

/-- C28, as stated, fails. The priority text of the doctor dashboard is not the name of the
guideline. For the levels 1 to 5 `getPriorityText` gives CRITICAL, CRITICAL, HIGH, MEDIUM,
LOW, where the guideline in the prompt of `analyzeWithLLM` names them Critical, High,
Medium, Low, Routine: level 2 is shown as CRITICAL, not HIGH. -/
theorem getPriorityText_differs_from_guideline :
    [1, 2, 3, 4, 5].map (fun p => DoctorDashboard.getPriorityText p 0) =
      ["CRITICAL", "CRITICAL", "HIGH", "MEDIUM", "LOW"] ∧
    [1, 2, 3, 4, 5].map (fun p => (priorityGuideline p).map upperCased) =
      [some "CRITICAL", some "HIGH", some "MEDIUM", some "LOW", some "ROUTINE"] ∧
    DoctorDashboard.getPriorityText 2 0 ≠ "HIGH" ∧
    priorityGuidelineLines.all (fun line => jsIncludes (prompt "" "") line) = true := by
  refine ⟨by decide, by decide, by decide, by decide!⟩

/-- C28, amended. `getPriorityText` labels the four buckets of the doctor dashboard, the
ones its `getPriorityColor` colours: a whole level up to 2 is CRITICAL, 3 is HIGH, 4 is
MEDIUM and every level above is LOW, and two levels have the same text exactly when they
have the same colour. Of the levels 1 to 5, only level 1 is shown under the upper-cased name
the priority guideline gives it. -/
theorem getPriorityText_labels_color_buckets :
    (∀ n : Int, DoctorDashboard.getPriorityText n 0 =
      if n ≤ 2 then "CRITICAL" else if n = 3 then "HIGH" else if n = 4 then "MEDIUM"
      else "LOW") ∧
    (∀ a b c d : Int,
      DoctorDashboard.getPriorityText a b = DoctorDashboard.getPriorityText c d ↔
        DoctorDashboard.getPriorityColor a b = DoctorDashboard.getPriorityColor c d) ∧
    [1, 2, 3, 4, 5].map (fun p => DoctorDashboard.getPriorityText p 0) =
      ["CRITICAL", "CRITICAL", "HIGH", "MEDIUM", "LOW"] ∧
    [1, 2, 3, 4, 5].filter (fun p =>
      decide (some (DoctorDashboard.getPriorityText p 0) =
        (priorityGuideline p).map upperCased)) = [1] := by
  refine ⟨?_, ?_, by decide, by decide⟩
  · intro n
    simp only [DoctorDashboard.getPriorityText, numLe, le_refl, if_true, Int.toNat_zero,
      pow_zero, mul_one, decide_eq_true_eq]
    split_ifs <;> first | rfl | omega
  · intro a b c d
    simp only [DoctorDashboard.getPriorityText, DoctorDashboard.getPriorityColor]
    split_ifs <;> decide

/-- C29. Whatever `MediaRecorder.isTypeSupported` answers, the type of the blob the EMT
dashboard uploads is `audio/webm;codecs=opus`, `audio/webm` or `audio/mp4`, with
`audio/webm` when no type is supported, and the file filter of the upload accepts it. -/
theorem recorder_types_pass_fileFilter (isTypeSupported : String → Bool) :
    EMTDashboard.blobType isTypeSupported ∈
      ["audio/webm;codecs=opus", "audio/webm", "audio/mp4"] ∧
    fileFilter (EMTDashboard.blobType isTypeSupported) = .ok true ∧
    EMTDashboard.blobType (fun _ => false) = "audio/webm" := by
  have h1 : fileFilter "audio/webm;codecs=opus" = .ok true := rfl
  have h2 : fileFilter "audio/webm" = .ok true := rfl
  have h3 : fileFilter "audio/mp4" = .ok true := rfl
  refine ⟨?_, ?_, rfl⟩
  · cases a : isTypeSupported "audio/webm;codecs=opus" <;>
      cases b : isTypeSupported "audio/webm" <;>
      cases c : isTypeSupported "audio/mp4" <;>
      simp [EMTDashboard.blobType, EMTDashboard.recorderMimeType, a, b, c]
  · cases a : isTypeSupported "audio/webm;codecs=opus" <;>
      cases b : isTypeSupported "audio/webm" <;>
      cases c : isTypeSupported "audio/mp4" <;>
      simp [EMTDashboard.blobType, EMTDashboard.recorderMimeType, a, b, c, h1, h2, h3]

/-- C30. For every number the `CHECK` constraint of `risk_score` admits, from 0 to 10, the
`getRiskColor` of the EMT dashboard gives the same green class, its thresholds being 80, 60
and 40. The `getRiskColor` of the doctor dashboard gives four different classes over that
range: green below 4, yellow from 4, orange from 6 and red from 8. -/
theorem getRiskColor_emt_constant_doctor_four (mant exp10 : Int)
    (h : riskScoreCheck (.num mant exp10) = true) :
    EMTDashboard.getRiskColor mant exp10 = "text-green-600 bg-green-100" ∧
    (∀ n : Int, DoctorDashboard.getRiskColor n 0 =
      if 8 ≤ n then "text-red-600 bg-red-50 border-red-200"
      else if 6 ≤ n then "text-orange-600 bg-orange-50 border-orange-200"
      else if 4 ≤ n then "text-yellow-600 bg-yellow-50 border-yellow-200"
      else "text-green-600 bg-green-50 border-green-200") ∧
    [0, 1, 2, 3, 4, 5, 6, 7, 8, 9, 10].map (fun n => DoctorDashboard.getRiskColor n 0) =
      ["text-green-600 bg-green-50 border-green-200",
        "text-green-600 bg-green-50 border-green-200",
        "text-green-600 bg-green-50 border-green-200",
        "text-green-600 bg-green-50 border-green-200",
        "text-yellow-600 bg-yellow-50 border-yellow-200",
        "text-yellow-600 bg-yellow-50 border-yellow-200",
        "text-orange-600 bg-orange-50 border-orange-200",
        "text-orange-600 bg-orange-50 border-orange-200",
        "text-red-600 bg-red-50 border-red-200",
        "text-red-600 bg-red-50 border-red-200",
        "text-red-600 bg-red-50 border-red-200"] ∧
    ([0, 1, 2, 3, 4, 5, 6, 7, 8, 9, 10].map
      (fun n => DoctorDashboard.getRiskColor n 0)).eraseDups.length = 4 ∧
    ([0, 1, 2, 3, 4, 5, 6, 7, 8, 9, 10].map
      (fun n => EMTDashboard.getRiskColor n 0)).eraseDups =
        ["text-green-600 bg-green-100"] := by
  refine ⟨?_, fun n => by simp [DoctorDashboard.getRiskColor, numGe], by decide, by decide,
    by decide⟩
  unfold EMTDashboard.getRiskColor
  rw [numGe_of_riskScoreCheck mant exp10 80 (by decide) h,
    numGe_of_riskScoreCheck mant exp10 60 (by decide) h,
    numGe_of_riskScoreCheck mant exp10 40 (by decide) h]
  rfl

/-- C30 at an instance: the risk score 9.5. -/
theorem getRiskColor_emt_constant_doctor_four_witness :
    riskScoreCheck (.num 95 (-1)) = true ∧
    EMTDashboard.getRiskColor 95 (-1) = "text-green-600 bg-green-100" ∧
    DoctorDashboard.getRiskColor 95 (-1) = "text-red-600 bg-red-50 border-red-200" :=
  ⟨by decide,
   (getRiskColor_emt_constant_doctor_four 95 (-1) (by decide)).1,
   by decide⟩

end PriorityQueueHealthcare
